import Mathlib

/-!
Shallow embedding of the Quiz Session Engine of this repository
(`backend/clients/quiz/service.py`, `backend/clients/quiz/generator.py`,
`backend/clients/database/quiz_repository.py`) together with proofs that
settle the frozen claims about it.

Modelling conventions:
* Identifiers (quiz / session / user / question / document ids) are natural
  numbers.  `uuid.uuid4()` — a fresh-identifier supply — is modelled by a
  `nextUuid` counter carried in the world state: each generated question takes
  the current counter value as its id and bumps the counter.
* Wall-clock time (`datetime.now(timezone.utc)`) is modelled by an explicit
  `now : Nat` argument (milliseconds); each service call receives one instant,
  matching the source where the several `now()` reads inside one call are
  indistinguishable for the properties at stake.  Deadlines are
  `now + minutes * 60000`.
* `random.shuffle` is modelled by oracle functions in the environment;
  theorems that depend on shuffling assume only that the oracle permutes its
  input.
* The LLM question generator and the slide-context retriever are external
  collaborators; the service-level embedding treats them as oracles in the
  environment (`Except`/`Option`-valued).  The generator's own
  validation/backfill pipeline (`QuizQuestionGenerator.generate` after JSON
  parsing) is embedded separately as `generateFromPayload`.
* The persistence layer follows `InMemoryQuizRepository`: dictionaries keyed
  by id, modelled as lists of records with save = replace-in-place-or-append
  (Python dict insertion-order semantics).  `FirestoreQuizRepository`'s
  cascade delete is modelled separately for the registry-deletion claim.
-/

namespace QuizEngine

/-- `DifficultyLevel = Literal["easy", "medium", "hard"]`. -/
inductive Difficulty where
  | easy
  | medium
  | hard
deriving DecidableEq, Repr

/-- `DifficultyRank`: index of a level in `DifficultySequence`. -/
def Difficulty.rank : Difficulty → Nat
  | .easy => 0
  | .medium => 1
  | .hard => 2

/-- `DifficultySequence = ["easy", "medium", "hard"]`. -/
def DifficultySequence : List Difficulty := [.easy, .medium, .hard]

/-- `QuizMode = Literal["assessment", "practice"]`. -/
inductive Mode where
  | assessment
  | practice
deriving DecidableEq, Repr

/-- Session status `Literal["in_progress", "completed", "timed_out"]`. -/
inductive Status where
  | in_progress
  | completed
  | timed_out
deriving DecidableEq, Repr

/-- `next_question_source: Literal["existing", "generated"]`. -/
inductive Source where
  | existing
  | generated
deriving DecidableEq, Repr

/-- Free-form string-keyed metadata dictionaries (`Dict[str, object]`),
modelled at the string level. -/
abbrev Metadata := List (String × String)

/-- A retrieved grounding passage (`SlideContext`-shaped payload
`{"text": ..., "metadata": ...}`). -/
structure Ctx where
  text : String
  metadata : Metadata
deriving DecidableEq, Repr

/-- `GeneratedQuestion` dataclass from `quiz/generator.py`. -/
structure GeneratedQuestion where
  prompt : String
  choices : List String
  correctAnswer : String
  rationale : String
  incorrectRationales : List (String × String)
  sourceMetadata : Option Metadata := none
deriving DecidableEq, Repr

/-- `QuizDefinitionRecord` from `database/quiz_repository.py`. -/
structure QuizDefinitionRecord where
  quizId : Nat
  name : Option String
  topics : List String
  defaultMode : Mode
  initialDifficulty : Difficulty
  assessmentNumQuestions : Option Nat
  assessmentTimeLimitMinutes : Option Nat
  assessmentMaxAttempts : Option Nat
  embeddingDocumentId : Option Nat := none
  sourceFilename : Option String := none
  isPublished : Bool := false
  metadata : Metadata := []
  createdAt : Nat := 0
  updatedAt : Nat := 0
deriving DecidableEq, Repr

/-- `QuizQuestionRecord` from `database/quiz_repository.py`. -/
structure QuizQuestionRecord where
  quizId : Nat
  questionId : Nat
  prompt : String
  choices : List String
  correctAnswer : String
  rationale : String
  incorrectRationales : List (String × String)
  topic : String
  difficulty : Difficulty
  order : Nat
  generatedAt : Nat := 0
  sourceSessionId : Option Nat := none
  sourceDocumentId : Option Nat := none
  sourceMetadata : Metadata := []
deriving DecidableEq, Repr

/-- `QuizAttemptRecord` from `database/quiz_repository.py`. -/
structure QuizAttemptRecord where
  questionId : Nat
  selectedAnswer : String
  isCorrect : Bool
  submittedAt : Nat
  responseMs : Option Nat := none
  rationale : Option String := none
  presentedAt : Option Nat := none
deriving DecidableEq, Repr

/-- Per-topic tally inside a session summary (`{"attempted": n, "correct": m}`). -/
structure TopicStats where
  attempted : Nat
  correct : Nat
deriving DecidableEq, Repr

/-- The session summary dictionary built by `QuizService._build_summary`.
The float `accuracy` field (a ratio of the two integer fields below) is not
carried, floating point being outside the embedding. -/
structure Summary where
  sessionId : Nat
  quizId : Nat
  userId : Nat
  mode : Mode
  status : Status
  totalQuestions : Nat
  correctAnswers : Nat
  topics : List (String × TopicStats)
  totalTimeMs : Nat
  averageResponseMs : Option Nat
  maxCorrectStreak : Nat
  maxIncorrectStreak : Nat
  durationMs : Option Nat
  startedAt : Nat
  completedAt : Option Nat
deriving DecidableEq, Repr

/-- `QuizSessionRecord` from `database/quiz_repository.py`.  The `summary`
dict (empty until the session leaves `in_progress`) is `Option Summary`. -/
structure QuizSessionRecord where
  sessionId : Nat
  quizId : Nat
  userId : Nat
  mode : Mode
  status : Status
  currentDifficulty : Difficulty
  correctStreak : Nat
  incorrectStreak : Nat
  attemptsUsed : Nat
  topics : List String
  askedQuestionIds : List Nat
  activeQuestionId : Option Nat
  activeQuestionServedAt : Option Nat
  startedAt : Nat
  completedAt : Option Nat
  deadline : Option Nat
  attempts : List QuizAttemptRecord := []
  isPreview : Bool := false
  previewQuestionIds : List Nat := []
  usedSlideIds : List String := []
  missedQuestionIds : List Nat := []
  questionsSinceReview : Nat := 0
  totalSlideCount : Option Nat := none
  coverageCycle : Nat := 0
  topicCursor : Nat := 0
  nextQuestionSource : Source := .generated
  maxCorrectStreak : Nat := 0
  maxIncorrectStreak : Nat := 0
  summary : Option Summary := none
  queuedQuestionId : Option Nat := none
deriving DecidableEq, Repr

/-- The persistence state visible to `QuizService` through the repository
interface, plus the fresh-uuid counter (see module docstring). -/
structure World where
  definitions : List QuizDefinitionRecord
  questions : List QuizQuestionRecord
  sessions : List QuizSessionRecord
  nextUuid : Nat
deriving DecidableEq, Repr

/-- Replace-or-append used to model saving into a Python dict keyed by `key`:
an existing entry is overwritten in place, otherwise the record is appended
(insertion order preserved, one entry per key once keys start unique). -/
def dictSave {α : Type} (key : α → Nat) (store : List α) (record : α) : List α :=
  if store.any (fun item => key item = key record) then
    store.map (fun item => if key item = key record then record else item)
  else
    store ++ [record]

/-- `InMemoryQuizRepository.load_quiz_definition`. -/
def World.loadQuizDefinition (w : World) (quizId : Nat) : Option QuizDefinitionRecord :=
  w.definitions.find? (fun d => d.quizId = quizId)

/-- `InMemoryQuizRepository.save_quiz_definition`. -/
def World.saveQuizDefinition (w : World) (record : QuizDefinitionRecord) : World :=
  { w with definitions := dictSave (·.quizId) w.definitions record }

/-- Sort key of `list_quiz_questions`: ascending `(order, generated_at)`. -/
def questionSortLE (a b : QuizQuestionRecord) : Bool :=
  a.order < b.order ∨ (a.order = b.order ∧ a.generatedAt ≤ b.generatedAt)

/-- Stable insertion step: place `a` before the first entry it compares `le`
to (keeping earlier entries with equal keys ahead of later ones, as Python's
stable `sort` does). -/
def insertSorted {α : Type} (le : α → α → Bool) (a : α) : List α → List α
  | [] => [a]
  | b :: t => if le a b then a :: b :: t else b :: insertSorted le a t

/-- Stable sort (structurally recursive insertion sort) modelling
`list.sort(key=...)`. -/
def insertionSort {α : Type} (le : α → α → Bool) : List α → List α
  | [] => []
  | a :: t => insertSorted le a (insertionSort le t)

/-- `InMemoryQuizRepository.list_quiz_questions`: questions of the quiz,
sorted (stably) by `(order, generated_at)`. -/
def World.listQuizQuestions (w : World) (quizId : Nat) : List QuizQuestionRecord :=
  insertionSort questionSortLE (w.questions.filter (fun q => q.quizId = quizId))

/-- `InMemoryQuizRepository.save_quiz_question` (dict keyed by question id). -/
def World.saveQuizQuestion (w : World) (record : QuizQuestionRecord) : World :=
  { w with questions := dictSave (·.questionId) w.questions record }

/-- `InMemoryQuizRepository.get_quiz_question` (the `quiz_id` keyword is
ignored by the in-memory store). -/
def World.getQuizQuestion (w : World) (questionId : Nat) : Option QuizQuestionRecord :=
  w.questions.find? (fun q => q.questionId = questionId)

/-- `InMemoryQuizRepository.delete_quiz_question`. -/
def World.deleteQuizQuestion (w : World) (questionId : Nat) : World :=
  { w with questions := w.questions.filter (fun q => ¬ q.questionId = questionId) }

/-- `InMemoryQuizRepository.load_session`. -/
def World.loadSession (w : World) (sessionId : Nat) : Option QuizSessionRecord :=
  w.sessions.find? (fun s => s.sessionId = sessionId)

/-- `InMemoryQuizRepository.save_session`. -/
def World.saveSession (w : World) (record : QuizSessionRecord) : World :=
  { w with sessions := dictSave (·.sessionId) w.sessions record }

/-- `InMemoryQuizRepository.delete_session`. -/
def World.deleteSession (w : World) (sessionId : Nat) : World :=
  { w with sessions := w.sessions.filter (fun s => ¬ s.sessionId = sessionId) }

/-- Draw a fresh identifier (`uuid.uuid4()`) from the world's supply. -/
def World.freshId (w : World) : Nat × World :=
  (w.nextUuid, { w with nextUuid := w.nextUuid + 1 })

/-- The exception taxonomy raised by `QuizService` (§7 of the spec):
`QuizDefinitionNotFoundError`, `QuizSessionNotFoundError`,
`QuizSessionConflictError`, `QuizSessionClosedError` (carrying the terminal
status), `QuizQuestionNotFoundError` (carrying the message, since both the
missing-question and the already-answered failures raise this type), and
`QuizGenerationError`. -/
inductive QuizError where
  | definitionNotFound
  | sessionNotFound
  | conflict
  | closed (status : Status)
  | questionNotFound (msg : String)
  | generation (msg : String)
deriving DecidableEq, Repr

/-- The environment: configuration thresholds resolved in
`QuizService.__init__` plus the external collaborators (generator, retriever)
and the randomness oracles. -/
structure Env where
  /-- `max(settings.practice_increase_streak, 1)`. -/
  increaseThreshold : Nat
  /-- `max(settings.practice_decrease_streak, 1)`. -/
  decreaseThreshold : Nat
  /-- `settings.missed_question_review_gap`. -/
  missedReviewGap : Nat
  /-- The question generator oracle (`self._generator`), `none` when the
  generator could not be initialised.  Arguments: topic, difficulty, order,
  contexts; an `Except.error` models both `QuizQuestionGenerationError` and
  the defensive catch-all branch (each yields an error message string). -/
  generator : Option (String → Difficulty → Nat → Option (List Ctx) → Except String GeneratedQuestion)
  /-- The slide-context retriever oracle (`self._context_retriever`), `none`
  when unavailable.  Result `none` models a raised exception (caught and
  logged by the service); `some (contexts, coverageResetNeeded)` a successful
  fetch.  Arguments: document id, topic, difficulty, excluded slide ids,
  total slide count; the numeric sampling configuration forwarded from
  settings is folded into the oracle itself. -/
  retriever : Option (Nat → String → Difficulty → List String → Option Nat → Option (List Ctx × Bool))
  /-- `random.shuffle` on the candidate-question list. -/
  shuffleQuestions : List QuizQuestionRecord → List QuizQuestionRecord
  /-- `random.shuffle` on the session topic list. -/
  shuffleTopics : List String → List String

/-- `str.strip()`: kernel-computable whitespace trim over the character
list. -/
def pyStrip (s : String) : String :=
  String.mk (((s.data.dropWhile Char.isWhitespace).reverse.dropWhile
    Char.isWhitespace).reverse)

/-- `str.lower()`: kernel-computable lowering over the character list. -/
def pyLower (s : String) : String :=
  String.mk (s.data.map Char.toLower)

/-- Python string truthiness for an optional override (`topic_override or d`). -/
def strOrElse (value : Option String) (dflt : String) : String :=
  match value with
  | some s => if s = "" then dflt else s
  | none => dflt

/-- `metadata.get(key)` on a string-keyed dictionary. -/
def lookupMeta (metadata : Metadata) (key : String) : Option String :=
  (metadata.find? (fun kv => kv.1 = key)).map (·.2)

/-- Key probing loop of `QuizService._extract_total_slide_count`. -/
def extractTotalSlideCountGo (metadata : Metadata) : List String → Option Nat
  | [] => none
  | key :: rest =>
    match lookupMeta metadata key with
    | none => extractTotalSlideCountGo metadata rest
    | some value =>
      if value = "" then extractTotalSlideCountGo metadata rest
      else
        match value.toNat? with
        | some parsed =>
          if parsed > 0 then some parsed else extractTotalSlideCountGo metadata rest
        | none => extractTotalSlideCountGo metadata rest

/-- `QuizService._extract_total_slide_count`: first positive integer found
under the recognised slide-count keys. -/
def extractTotalSlideCount (metadata : Metadata) : Option Nat :=
  extractTotalSlideCountGo metadata
    ["slide_count", "slides_count", "total_slides", "totalSlides", "slides", "numSlides"]

/-- Fallback branch of `QuizService._extract_slide_id` composing
`slide_number` and `slide_title`/`title`. -/
def extractSlideIdFallback (metadata : Metadata) : Option String :=
  let slideNumber := lookupMeta metadata "slide_number"
  let slideTitle :=
    match lookupMeta metadata "slide_title" with
    | some t => if t = "" then lookupMeta metadata "title" else some t
    | none => lookupMeta metadata "title"
  if slideNumber = none ∧ slideTitle = none then none
  else
    let numberPart := match slideNumber with
      | some n => n
      | none => ""
    let titlePart := match slideTitle with
      | some t => if t = "" then "" else pyStrip t
      | none => ""
    if numberPart ≠ "" ∧ titlePart ≠ "" then some (numberPart ++ ":" ++ titlePart)
    else if numberPart ≠ "" then some numberPart
    else if titlePart ≠ "" then some titlePart
    else none

/-- `QuizService._extract_slide_id`. -/
def extractSlideId (metadata : Metadata) : Option String :=
  match lookupMeta metadata "slide_id" with
  | some sid => if sid = "" then extractSlideIdFallback metadata else some sid
  | none => extractSlideIdFallback metadata

/-- `QuizService._register_slide_usage`. -/
def registerSlideUsage (record : QuizSessionRecord) (question : QuizQuestionRecord) :
    QuizSessionRecord :=
  match extractSlideId question.sourceMetadata with
  | none => record
  | some sid =>
    if sid ∈ record.usedSlideIds then record
    else { record with usedSlideIds := record.usedSlideIds ++ [sid] }

/-- `QuizService._calculate_max_streak`: longest run of (in)correct attempts. -/
def calculateMaxStreak (attempts : List QuizAttemptRecord) (targetCorrect : Bool) : Nat :=
  (attempts.foldl
    (fun (acc : Nat × Nat) attempt =>
      let isMatch := if targetCorrect then attempt.isCorrect else ¬ attempt.isCorrect
      if isMatch then (max acc.1 (acc.2 + 1), acc.2 + 1) else (acc.1, 0))
    (0, 0)).1

/-- `QuizService._adapt_difficulty`: one step up on a long-enough correct
streak, one step down on a long-enough incorrect streak, clamped at the ends. -/
def adaptDifficulty (env : Env) (current : Difficulty)
    (correctStreak incorrectStreak : Nat) : Difficulty :=
  let index := current.rank
  if correctStreak ≥ env.increaseThreshold ∧ index < DifficultySequence.length - 1 then
    DifficultySequence.getD (index + 1) current
  else if incorrectStreak ≥ env.decreaseThreshold ∧ index > 0 then
    DifficultySequence.getD (index - 1) current
  else current

/-- `QuizService._mark_completed`. -/
def markCompleted (record : QuizSessionRecord) (status : Status) (now : Nat) :
    QuizSessionRecord :=
  { record with
    status
    completedAt := some now
    activeQuestionId := none
    activeQuestionServedAt := none
    queuedQuestionId := none }

/-- `QuizService._enforce_time_constraints`: assessment sessions past their
deadline are force-completed as `timed_out` and persisted. -/
def enforceTimeConstraints (w : World) (record : QuizSessionRecord) (now : Nat) :
    QuizSessionRecord × World :=
  if record.mode ≠ .assessment then (record, w)
  else if record.status ≠ .in_progress then (record, w)
  else
    match record.deadline with
    | some dl =>
      if now > dl then
        let r := markCompleted record .timed_out now
        (r, w.saveSession r)
      else (record, w)
    | none => (record, w)

/-- `stats = per_topic.setdefault(topic, ...)` update step of
`_build_summary`'s per-topic tally. -/
def bumpTopic (stats : List (String × TopicStats)) (topic : String) (isCorrect : Bool) :
    List (String × TopicStats) :=
  if stats.any (fun kv => kv.1 = topic) then
    stats.map (fun kv =>
      if kv.1 = topic then
        (kv.1, { attempted := kv.2.attempted + 1
                 correct := kv.2.correct + (if isCorrect then 1 else 0) })
      else kv)
  else stats ++ [(topic, { attempted := 1, correct := if isCorrect then 1 else 0 })]

/-- `QuizService._build_summary` (the float `accuracy` ratio aside, see
`Summary`). -/
def buildSummary (w : World) (record : QuizSessionRecord) : Summary :=
  let totalQuestions := record.attempts.length
  let correctAnswers := (record.attempts.filter (·.isCorrect)).length
  let totalTimeMs := (record.attempts.map (fun a => a.responseMs.getD 0)).sum
  let averageResponseMs := if totalQuestions = 0 then none else some (totalTimeMs / totalQuestions)
  let perTopic := record.attempts.foldl
    (fun acc attempt =>
      let topic := match w.getQuizQuestion attempt.questionId with
        | some q => q.topic
        | none => "general"
      bumpTopic acc topic attempt.isCorrect)
    []
  let durationMs := record.completedAt.map (fun c => c - record.startedAt)
  { sessionId := record.sessionId
    quizId := record.quizId
    userId := record.userId
    mode := record.mode
    status := record.status
    totalQuestions
    correctAnswers
    topics := perTopic
    totalTimeMs
    averageResponseMs
    maxCorrectStreak := record.maxCorrectStreak
    maxIncorrectStreak := record.maxIncorrectStreak
    durationMs
    startedAt := record.startedAt
    completedAt := record.completedAt }

/-- `QuizService._duplicate_question_for_review`: clone under a fresh id with
a fresh `generated_at`, persisted to the bank. -/
def duplicateQuestionForReview (w : World) (question : QuizQuestionRecord) (now : Nat) :
    QuizQuestionRecord × World :=
  let (cloneId, w') := w.freshId
  let clone := { question with questionId := cloneId, generatedAt := now }
  (clone, w'.saveQuizQuestion clone)

/-- Round-robin branch of `QuizService._resolve_topic`. -/
def resolveTopicRoundRobin (record : QuizSessionRecord) (definition : QuizDefinitionRecord) :
    String × Nat × Bool :=
  let topics :=
    if record.topics ≠ [] then record.topics
    else if definition.topics ≠ [] then definition.topics
    else ["General"]
  let cursor := record.topicCursor % topics.length
  (topics.getD cursor "General", ((cursor + 1) % topics.length), false)

/-- `QuizService._resolve_topic`: an explicit (truthy) override wins without
advancing the cursor; otherwise the session topic list is consumed
round-robin. -/
def resolveTopic (record : QuizSessionRecord) (definition : QuizDefinitionRecord)
    (topicOverride : Option String) : String × Nat × Bool :=
  match topicOverride with
  | some t => if t = "" then resolveTopicRoundRobin record definition else (t, record.topicCursor, true)
  | none => resolveTopicRoundRobin record definition

/-- `QuizService._select_existing_question`: first topic match
(case-insensitive) when a preferred topic is given, else the head candidate. -/
def selectExistingQuestion (candidates : List QuizQuestionRecord)
    (preferredTopic : Option String) : Option QuizQuestionRecord :=
  match candidates with
  | [] => none
  | first :: _ =>
    let preferred := match preferredTopic with
      | some t =>
        if t = "" then none
        else candidates.find? (fun q => pyLower q.topic = pyLower t)
      | none => none
    match preferred with
    | some q => some q
    | none => some first

/-- `QuizService._determine_next_question_source`. -/
def determineNextQuestionSource (record : QuizSessionRecord) (usedExisting : Bool)
    (remainingExisting : List QuizQuestionRecord) : Source :=
  if record.isPreview then .generated
  else if usedExisting then .generated
  else if remainingExisting ≠ [] then .existing
  else .generated

/-- The `while queue:` loop of `QuizService._serve_missed_question_if_ready`:
pop the oldest missed id; ids that no longer resolve are dropped from the
queue; the first resolvable one is cloned, served and the session persisted. -/
def serveMissedLoop (w : World) (record : QuizSessionRecord) (now : Nat) :
    List Nat → Option QuizQuestionRecord × QuizSessionRecord × World
  | [] => (none, record, w)
  | questionId :: rest =>
    match w.getQuizQuestion questionId with
    | none => serveMissedLoop w { record with missedQuestionIds := rest } now rest
    | some question =>
      let (clone, w') := duplicateQuestionForReview w question now
      let previewQuestionIds :=
        if record.isPreview ∧ clone.questionId ∉ record.previewQuestionIds then
          record.previewQuestionIds ++ [clone.questionId]
        else record.previewQuestionIds
      let updated := { record with
        missedQuestionIds := rest
        questionsSinceReview := 0
        askedQuestionIds := record.askedQuestionIds ++ [clone.questionId]
        activeQuestionId := some clone.questionId
        activeQuestionServedAt := some now
        previewQuestionIds := previewQuestionIds }
      (some clone, updated, w'.saveSession updated)

/-- `QuizService._serve_missed_question_if_ready`. -/
def serveMissedQuestionIfReady (env : Env) (w : World) (record : QuizSessionRecord)
    (now : Nat) : Option QuizQuestionRecord × QuizSessionRecord × World :=
  if record.missedQuestionIds = [] then (none, record, w)
  else if record.questionsSinceReview < env.missedReviewGap then (none, record, w)
  else serveMissedLoop w record now record.missedQuestionIds

/-- Lines 625-667 of `QuizService._create_question`, from the generation
outcome onwards: raise `QuizGenerationError` when nothing was generated
(persisting nothing), else mint a fresh question id, persist the new
`QuizQuestionRecord`, and register its slide id on the session snapshot. -/
def createQuestionFromOutcome (w : World) (session : QuizSessionRecord)
    (definition : QuizDefinitionRecord) (sessionState : QuizSessionRecord)
    (topic : String) (difficulty : Difficulty) (order : Nat)
    (contextsPayload : List Ctx) (now : Nat)
    (genOutcome : Option (Except String GeneratedQuestion)) :
    Except QuizError (QuizQuestionRecord × QuizSessionRecord) × World :=
  match genOutcome with
  | some (Except.ok generated) =>
    let (questionId, w') := w.freshId
    let baseMetadata := match contextsPayload.head? with
      | some ctx => ctx.metadata
      | none => []
    let sourceMetadataPayload := match generated.sourceMetadata with
      | some m => if m = [] then baseMetadata else m
      | none => baseMetadata
    let record : QuizQuestionRecord := {
      quizId := session.quizId
      questionId
      prompt := generated.prompt
      choices := generated.choices
      correctAnswer := generated.correctAnswer
      rationale := generated.rationale
      incorrectRationales := generated.incorrectRationales
      topic
      difficulty
      order
      generatedAt := now
      sourceSessionId := some session.sessionId
      sourceDocumentId := definition.embeddingDocumentId
      sourceMetadata := sourceMetadataPayload }
    let w'' := w'.saveQuizQuestion record
    let sessionState' := match extractSlideId record.sourceMetadata with
      | some sid =>
        { sessionState with
          usedSlideIds :=
            if sid ∈ sessionState.usedSlideIds then sessionState.usedSlideIds
            else sessionState.usedSlideIds ++ [sid] }
      | none => sessionState
    (Except.ok (record, sessionState'), w'')
  | some (Except.error msg) =>
    (Except.error (QuizError.generation
      (if msg = "" then "Question generator is temporarily unavailable. Please try again." else msg)), w)
  | none =>
    (Except.error (QuizError.generation
      "Question generator is temporarily unavailable. Please try again."), w)

/-- `QuizService._create_question`: resolve topic/difficulty, fetch grounding
context best-effort, call the generator (failures surface as
`QuizError.generation` and persist nothing), then persist the new question and
register slide usage / coverage reset on the session snapshot. -/
def createQuestion (env : Env) (w : World) (session : QuizSessionRecord)
    (definition : QuizDefinitionRecord) (existingQuestions : List QuizQuestionRecord)
    (topicOverride : Option String) (difficultyOverride : Option Difficulty) (now : Nat) :
    Except QuizError (QuizQuestionRecord × QuizSessionRecord) × World :=
  let order := if session.isPreview then session.askedQuestionIds.length + 1
               else existingQuestions.length + 1
  let topics := if definition.topics = [] then ["General"] else definition.topics
  let topicIndex := (order - 1) % topics.length
  let topic := strOrElse topicOverride (topics.getD topicIndex "General")
  let difficulty := difficultyOverride.getD session.currentDifficulty
  let fetched : Option (List Ctx × Bool) :=
    match env.retriever, definition.embeddingDocumentId with
    | some fetch, some docId =>
      fetch docId topic difficulty session.usedSlideIds session.totalSlideCount
    | _, _ => none
  let contextsPayload := match fetched with
    | some (ctxs, _) => ctxs
    | none => []
  let coverageReset := match fetched with
    | some (_, reset) => reset
    | none => false
  let sessionState :=
    if coverageReset = true ∧ session.usedSlideIds ≠ [] then
      { session with usedSlideIds := [], coverageCycle := session.coverageCycle + 1 }
    else session
  let genOutcome : Option (Except String GeneratedQuestion) :=
    env.generator.map (fun g =>
      g topic difficulty order (if contextsPayload = [] then none else some contextsPayload))
  createQuestionFromOutcome w session definition sessionState topic difficulty order
    contextsPayload now genOutcome

/-- Tail of `_maybe_queue_generated_question`: on `QuizGenerationError` the
pre-generation is swallowed (lines 698-699), else the queued question id is
remembered and the session persisted (lines 700-702). -/
def maybeQueueFromResult (w : World) (record : QuizSessionRecord)
    (cq : Except QuizError (QuizQuestionRecord × QuizSessionRecord) × World) :
    QuizSessionRecord × World :=
  match cq with
  | (Except.error _, _) => (record, w)
  | (Except.ok (queuedQuestion, updatedRecord), w') =>
    let updatedRecord := { updatedRecord with queuedQuestionId := some queuedQuestion.questionId }
    (updatedRecord, w'.saveSession updatedRecord)

/-- `QuizService._maybe_queue_generated_question`: opportunistically
pre-generate the next question (failure swallowed) and remember it in
`queued_question_id`. -/
def maybeQueueGeneratedQuestion (env : Env) (w : World) (record : QuizSessionRecord)
    (definition : QuizDefinitionRecord) (nextSourceValue : Source) (nextCursorValue : Nat)
    (now : Nat) : QuizSessionRecord × World :=
  if record.isPreview ∨ record.status ≠ .in_progress ∨ nextSourceValue ≠ .generated
      ∨ record.queuedQuestionId.isSome then
    (record, w)
  else
    let topics := if definition.topics = [] then ["General"] else definition.topics
    let topicIndex := nextCursorValue % topics.length
    let topic := topics.getD topicIndex "General"
    let questionBank := w.listQuizQuestions record.quizId
    maybeQueueFromResult w record
      (createQuestion env w record definition questionBank (some topic)
        (some record.currentDifficulty) now)

/-- Tail of `QuizService.get_next_question` (lines 312-347 of the source):
record the served question into asked-history, set it outstanding, update
preview/difficulty/cursor/source bookkeeping, persist, then opportunistically
pre-generate the next question. -/
def getNextQuestionFinish (env : Env) (w : World) (record : QuizSessionRecord)
    (definition : QuizDefinitionRecord) (selected : QuizQuestionRecord)
    (usedExisting queuedSelected : Bool) (availableRemaining : List QuizQuestionRecord)
    (nextCursor : Nat) (overrideSupplied : Bool) (now : Nat) :
    Except QuizError QuizQuestionRecord × World :=
  let nextDifficultyState := if record.isPreview then selected.difficulty
                             else record.currentDifficulty
  let previewQuestionIds :=
    if record.isPreview ∧ selected.sourceSessionId = some record.sessionId
        ∧ selected.questionId ∉ record.previewQuestionIds then
      record.previewQuestionIds ++ [selected.questionId]
    else record.previewQuestionIds
  let nextCursorValue := if overrideSupplied then record.topicCursor else nextCursor
  let nextSourceValue := determineNextQuestionSource record (usedExisting && !queuedSelected)
    availableRemaining
  let updatedRecord := { record with
    askedQuestionIds := record.askedQuestionIds ++ [selected.questionId]
    activeQuestionId := some selected.questionId
    activeQuestionServedAt := some now
    currentDifficulty := nextDifficultyState
    previewQuestionIds := previewQuestionIds
    questionsSinceReview := record.questionsSinceReview + 1
    topicCursor := nextCursorValue
    nextQuestionSource := nextSourceValue }
  let w' := w.saveSession updatedRecord
  let (_, w'') := maybeQueueGeneratedQuestion env w' updatedRecord definition nextSourceValue
    nextCursorValue now
  (Except.ok selected, w'')

/-- Steps 7-8 of `getNextQuestion` (§4.3): serve an unused bank question when
the policy favours reuse, else generate a fresh one (generation failures
propagate, persisting nothing). -/
def getNextQuestionReuseOrGenerate (env : Env) (w : World) (record : QuizSessionRecord)
    (definition : QuizDefinitionRecord) (questionBank availableExisting : List QuizQuestionRecord)
    (targetTopic : String) (effectiveDifficulty : Difficulty) (nextCursor : Nat)
    (overrideSupplied : Bool) (now : Nat) : Except QuizError QuizQuestionRecord × World :=
  let shouldUseExisting := ¬record.isPreview ∧ record.nextQuestionSource = .existing
    ∧ availableExisting ≠ []
  let selectedReuse := if shouldUseExisting then
      selectExistingQuestion availableExisting (some targetTopic)
    else none
  match selectedReuse with
  | some selected =>
    let record2 := registerSlideUsage record selected
    getNextQuestionFinish env w record2 definition selected true false
      (availableExisting.filter (fun q => q.questionId ≠ selected.questionId))
      nextCursor overrideSupplied now
  | none =>
    match createQuestion env w record definition questionBank (some targetTopic)
        (some effectiveDifficulty) now with
    | (Except.error e, w') => (Except.error e, w')
    | (Except.ok (selected, record2), w') =>
      getNextQuestionFinish env w' record2 definition selected false false
        (availableExisting.filter (fun q => q.questionId ≠ selected.questionId))
        nextCursor overrideSupplied now

/-- Question-sourcing phase of `QuizService.get_next_question` (lines 248-347):
bank-reuse filtering, topic resolution, queued-question consumption, reuse or
generation, then `getNextQuestionFinish`. -/
def getNextQuestionServe (env : Env) (w : World) (record : QuizSessionRecord)
    (definition : QuizDefinitionRecord) (topicOverride : Option String)
    (difficultyOverride : Option Difficulty) (now : Nat) :
    Except QuizError QuizQuestionRecord × World :=
  let questionBank := w.listQuizQuestions record.quizId
  let availableExisting0 := questionBank.filter
    (fun q => q.questionId ∉ record.askedQuestionIds
      ∧ some q.questionId ≠ record.queuedQuestionId)
  let availableExisting :=
    if availableExisting0.length > 1 then env.shuffleQuestions availableExisting0
    else availableExisting0
  let resolved := resolveTopic record definition topicOverride
  let targetTopic := resolved.1
  let nextCursor := resolved.2.1
  let overrideSupplied := resolved.2.2
  let effectiveDifficulty := difficultyOverride.getD record.currentDifficulty
  match record.queuedQuestionId with
  | some qqid =>
    let found := match questionBank.find? (fun q => q.questionId = qqid) with
      | some q => some q
      | none => w.getQuizQuestion qqid
    (match found with
     | some queuedQuestion =>
       let record2 := { record with queuedQuestionId := none }
       getNextQuestionFinish env w record2 definition queuedQuestion false true
         (availableExisting.filter (fun q => q.questionId ≠ queuedQuestion.questionId))
         nextCursor overrideSupplied now
     | none =>
       let record2 := { record with queuedQuestionId := none }
       getNextQuestionReuseOrGenerate env w record2 definition questionBank availableExisting
         targetTopic effectiveDifficulty nextCursor overrideSupplied now)
  | none =>
    getNextQuestionReuseOrGenerate env w record definition questionBank availableExisting
      targetTopic effectiveDifficulty nextCursor overrideSupplied now

/-- Steps 4 onwards of `QuizService.get_next_question`: missed-question
review (non-preview only), then definition resolution and question sourcing. -/
def getNextQuestionAfterActive (env : Env) (w : World) (record : QuizSessionRecord)
    (topicOverride : Option String) (difficultyOverride : Option Difficulty) (now : Nat) :
    Except QuizError QuizQuestionRecord × World :=
  let served :=
    if record.isPreview then (none, record, w)
    else serveMissedQuestionIfReady env w record now
  match served with
  | (some reviewQuestion, _, w') => (Except.ok reviewQuestion, w')
  | (none, record', w') =>
    match w'.loadQuizDefinition record'.quizId with
    | none => (Except.error .definitionNotFound, w')
    | some definition =>
      getNextQuestionServe env w' record' definition topicOverride difficultyOverride now

/-- `QuizService.get_next_question`: enforce the time limit, reject closed
sessions, re-return the outstanding question idempotently when it still
resolves, then source a question. -/
def getNextQuestion (env : Env) (w : World) (sessionId : Nat)
    (topicOverride : Option String) (difficultyOverride : Option Difficulty) (now : Nat) :
    Except QuizError QuizQuestionRecord × World :=
  match w.loadSession sessionId with
  | none => (Except.error .sessionNotFound, w)
  | some record0 =>
    let enforced := enforceTimeConstraints w record0 now
    let record := enforced.1
    let w1 := enforced.2
    if record.status ≠ .in_progress then (Except.error (.closed record.status), w1)
    else
      match record.activeQuestionId with
      | some activeId =>
        (match w1.getQuizQuestion activeId with
         | some existing => (Except.ok existing, w1)
         | none =>
           getNextQuestionAfterActive env w1
             { record with activeQuestionId := none, activeQuestionServedAt := none }
             topicOverride difficultyOverride now)
      | none => getNextQuestionAfterActive env w1 record topicOverride difficultyOverride now

/-- `if existing and existing.status == "in_progress"` guard of
`start_session`. -/
def sessionConflict (w : World) (sessionId : Nat) : Bool :=
  match w.loadSession sessionId with
  | some existing => existing.status = .in_progress
  | none => false

/-- `QuizService.start_session`. -/
def startSession (env : Env) (w : World) (sessionId quizId userId : Nat)
    (mode? : Option Mode) (initialDifficulty? : Option Difficulty) (isPreview : Bool)
    (now : Nat) : Except QuizError QuizSessionRecord × World :=
  if sessionConflict w sessionId then (Except.error .conflict, w)
  else
    match w.loadQuizDefinition quizId with
    | none => (Except.error .definitionNotFound, w)
    | some definition =>
      let selectedMode := mode?.getD definition.defaultMode
      let difficulty := initialDifficulty?.getD definition.initialDifficulty
      if selectedMode = .assessment ∧ definition.assessmentNumQuestions = none then
        (Except.error (.generation "Quiz definition is missing an assessment question count."), w)
      else
        let deadline : Option Nat :=
          if selectedMode = .assessment then
            match definition.assessmentTimeLimitMinutes with
            | some minutes => if minutes = 0 then none else some (now + minutes * 60000)
            | none => none
          else none
        let baseTopics := if definition.topics = [] then ["General"] else definition.topics
        let sessionTopics := if baseTopics.length > 1 then env.shuffleTopics baseTopics
                             else baseTopics
        let record : QuizSessionRecord := {
          sessionId
          quizId
          userId
          mode := selectedMode
          status := .in_progress
          currentDifficulty := difficulty
          correctStreak := 0
          incorrectStreak := 0
          attemptsUsed := 0
          topics := sessionTopics
          askedQuestionIds := []
          activeQuestionId := none
          activeQuestionServedAt := none
          startedAt := now
          completedAt := none
          deadline
          attempts := []
          isPreview
          previewQuestionIds := []
          usedSlideIds := []
          missedQuestionIds := []
          questionsSinceReview := 0
          totalSlideCount := extractTotalSlideCount definition.metadata
          coverageCycle := 0
          topicCursor := 0
          nextQuestionSource := .existing
          maxCorrectStreak := 0
          maxIncorrectStreak := 0
          summary := none
          queuedQuestionId := none }
        (Except.ok record, w.saveSession record)

/-- The answer payload returned by `QuizService.submit_answer`. -/
structure AnswerOutcome where
  questionId : Nat
  isCorrect : Bool
  selectedAnswer : String
  correctAnswer : String
  rationale : String
  correctRationale : String
  incorrectRationales : List (String × String)
  topic : String
  difficulty : Difficulty
  sessionCompleted : Bool
  currentDifficulty : Difficulty
  responseMs : Option Nat
  summary : Option Summary
deriving DecidableEq, Repr

/-- `record.deadline and now > record.deadline` truthiness helper. -/
def deadlinePassed (deadline : Option Nat) (now : Nat) : Bool :=
  match deadline with
  | some dl => now > dl
  | none => false

/-- The ordered assessment termination checks of `submit_answer` (lines
436-450 of the source): question-count completion, then max-attempts
completion, else deadline timeout. -/
def applyAssessmentTermination (definition : QuizDefinitionRecord)
    (record : QuizSessionRecord) (now : Nat) : QuizSessionRecord :=
  let step1 : QuizSessionRecord × Bool :=
    match definition.assessmentNumQuestions with
    | some n =>
      if n ≠ 0 ∧ record.attempts.length ≥ n then (markCompleted record .completed now, true)
      else (record, false)
    | none => (record, false)
  let step2 : QuizSessionRecord × Bool :=
    match definition.assessmentMaxAttempts with
    | some m =>
      if step1.1.attemptsUsed ≥ m ∧ step1.1.status = .in_progress then
        (markCompleted step1.1 .completed now, true)
      else step1
    | none => step1
  if step2.2 = false ∧ deadlinePassed step2.1.deadline now = true then
    markCompleted step2.1 .timed_out now
  else step2.1

/-- Persist-and-respond tail of `submit_answer` (summary caching, lines
452-475). -/
def submitAnswerFinish (w : World) (updated : QuizSessionRecord)
    (question : QuizQuestionRecord) (selectedAnswer : String) (isCorrect : Bool)
    (rationaleShown : Option String) (responseMs : Option Nat) :
    Except QuizError AnswerOutcome × World :=
  let summaryPayload := if updated.status ≠ .in_progress then some (buildSummary w updated)
                        else none
  let updated' := match summaryPayload with
    | some s => { updated with summary := some s }
    | none => updated
  let w' := w.saveSession updated'
  let outcome : AnswerOutcome := {
    questionId := question.questionId
    isCorrect
    selectedAnswer
    correctAnswer := question.correctAnswer
    rationale := (match rationaleShown with
      | some r => if r = "" then question.rationale else r
      | none => question.rationale)
    correctRationale := question.rationale
    incorrectRationales := question.incorrectRationales
    topic := question.topic
    difficulty := question.difficulty
    sessionCompleted := updated'.status ≠ .in_progress
    currentDifficulty := updated'.currentDifficulty
    responseMs
    summary := summaryPayload }
  (Except.ok outcome, w')

/-- The attempt record built by `submit_answer` (lines 373-392 of the
source): correctness, shown rationale, response latency, serve instant. -/
def submitAttempt (record : QuizSessionRecord) (question : QuizQuestionRecord)
    (selectedAnswer : String) (now : Nat) : QuizAttemptRecord :=
  let isCorrect : Bool := selectedAnswer = question.correctAnswer
  { questionId := question.questionId
    selectedAnswer
    isCorrect
    submittedAt := now
    responseMs := record.activeQuestionServedAt.map (fun presentedAt => now - presentedAt)
    rationale :=
      if isCorrect then some question.rationale
      else (question.incorrectRationales.find? (fun kv => kv.1 = selectedAnswer)).map (·.2)
    presentedAt := record.activeQuestionServedAt }

/-- The missed-question queue maintenance of `submit_answer` (lines 399-403):
drop the id on a correct answer after a prior miss, enqueue it on an
incorrect answer when absent. -/
def updateMissedQueue (missed : List Nat) (questionId : Nat) (isCorrect : Bool) : List Nat :=
  let missed1 :=
    if isCorrect = true ∧ questionId ∈ missed then
      missed.filter (fun qid => qid ≠ questionId)
    else missed
  if isCorrect = false ∧ questionId ∉ missed1 then missed1 ++ [questionId] else missed1

/-- Lines 405-416 of `submit_answer`: practice-mode difficulty adaptation,
resetting the streak that caused a level change, then the per-answer reset of
the opposite streak.  Returns (correct streak, incorrect streak, difficulty). -/
def applyPracticeAdaptation (env : Env) (mode : Mode) (current : Difficulty)
    (isCorrect : Bool) (correctStreak0 incorrectStreak0 : Nat) : Nat × Nat × Difficulty :=
  if mode = .practice then
    let adapted := adaptDifficulty env current correctStreak0 incorrectStreak0
    let afterAdapt : Nat × Nat :=
      if adapted ≠ current then
        if adapted.rank > current.rank then (0, incorrectStreak0)
        else (correctStreak0, 0)
      else (correctStreak0, incorrectStreak0)
    if isCorrect then (afterAdapt.1, 0, adapted) else (0, afterAdapt.2, adapted)
  else (correctStreak0, incorrectStreak0, current)

/-- The updated session snapshot built by `submit_answer` before the
assessment termination checks (lines 394-433). -/
def submitUpdatedRecord (env : Env) (record : QuizSessionRecord)
    (question : QuizQuestionRecord) (selectedAnswer : String) (now : Nat) :
    QuizSessionRecord :=
  let isCorrect : Bool := selectedAnswer = question.correctAnswer
  let attempts := record.attempts ++ [submitAttempt record question selectedAnswer now]
  let correctStreak0 := if isCorrect then record.correctStreak + 1 else 0
  let incorrectStreak0 := if isCorrect then 0 else record.incorrectStreak + 1
  let adjusted := applyPracticeAdaptation env record.mode record.currentDifficulty isCorrect
    correctStreak0 incorrectStreak0
  { record with
    attempts := attempts
    attemptsUsed := record.attemptsUsed + 1
    correctStreak := adjusted.1
    incorrectStreak := adjusted.2.1
    currentDifficulty := adjusted.2.2
    activeQuestionId := none
    activeQuestionServedAt := none
    missedQuestionIds := updateMissedQueue record.missedQuestionIds question.questionId isCorrect
    maxCorrectStreak := calculateMaxStreak attempts true
    maxIncorrectStreak := calculateMaxStreak attempts false }

/-- `QuizService.submit_answer`. -/
def submitAnswer (env : Env) (w : World) (sessionId questionId : Nat)
    (selectedAnswer : String) (now : Nat) : Except QuizError AnswerOutcome × World :=
  match w.loadSession sessionId with
  | none => (Except.error .sessionNotFound, w)
  | some record0 =>
    let enforced := enforceTimeConstraints w record0 now
    let record := enforced.1
    let w1 := enforced.2
    if record.status ≠ .in_progress then (Except.error (.closed record.status), w1)
    else
      match w1.getQuizQuestion questionId with
      | none => (Except.error (.questionNotFound "Question not found in the shared bank."), w1)
      | some question =>
        if record.attempts.any (fun a => a.questionId = questionId) then
          (Except.error (.questionNotFound "This question has already been answered."), w1)
        else
          let attempt := submitAttempt record question selectedAnswer now
          let updatedRecord := submitUpdatedRecord env record question selectedAnswer now
          if record.mode = .assessment then
            match w1.loadQuizDefinition record.quizId with
            | none => (Except.error .definitionNotFound, w1)
            | some definition =>
              submitAnswerFinish w1 (applyAssessmentTermination definition updatedRecord now)
                question selectedAnswer attempt.isCorrect attempt.rationale attempt.responseMs
          else
            submitAnswerFinish w1 updatedRecord question selectedAnswer attempt.isCorrect
              attempt.rationale attempt.responseMs

/-- A learner-facing engine call against one session (the two operations that
mutate an in-progress session). -/
inductive Call where
  | getNext (topicOverride : Option String) (difficultyOverride : Option Difficulty) (now : Nat)
  | submit (questionId : Nat) (selectedAnswer : String) (now : Nat)

/-- The world after one call on `sessionId` (errors leave whatever the call
persisted before raising). -/
def applyCall (env : Env) (sessionId : Nat) (w : World) : Call → World
  | .getNext topicOverride difficultyOverride now =>
    (getNextQuestion env w sessionId topicOverride difficultyOverride now).2
  | .submit questionId selectedAnswer now =>
    (submitAnswer env w sessionId questionId selectedAnswer now).2

/-- The world after a sequence of calls on `sessionId`. -/
def runCalls (env : Env) (sessionId : Nat) (w : World) (calls : List Call) : World :=
  calls.foldl (applyCall env sessionId) w

/-! ### The generator's validation/backfill pipeline

`QuizQuestionGenerator.generate` after the JSON parse (lines 102-133 of
`quiz/generator.py`).  `GenPayload` is the parsed model response: each field
holds the stringified value of the corresponding JSON key (the `payload.get`
defaults for missing keys being `""`/`[]`/`{}`). -/

/-- Parsed model response consumed by `QuizQuestionGenerator.generate`. -/
structure GenPayload where
  prompt : String
  choices : List String
  correctAnswer : String
  correctRationale : String
  incorrectRationales : List (String × String)
deriving DecidableEq, Repr

/-- The generic distractor rationale backfilled by the generator. -/
def genericIncorrectRationale : String :=
  "This option does not correctly address the prompt."

/-- The `for choice in choices:` backfill loop of
`QuizQuestionGenerator.generate`: every distractor missing from the rationale
mapping gains the generic rationale. -/
def backfillRationales (correctAnswer : String) (acc : List (String × String)) :
    List String → List (String × String)
  | [] => acc
  | choice :: rest =>
    if choice = correctAnswer then backfillRationales correctAnswer acc rest
    else if acc.any (fun kv => kv.1 = choice) then backfillRationales correctAnswer acc rest
    else backfillRationales correctAnswer (acc ++ [(choice, genericIncorrectRationale)]) rest

/-- `QuizQuestionGenerator.generate` from the parsed payload onwards: strip
and drop blank choices, require ≥ 2 choices and `correct_answer ∈ choices`,
keep only rationales keyed by actual choices, backfill missing distractor
rationales, default the correct rationale. -/
def generateFromPayload (topic : String) (contexts : Option (List Ctx))
    (payload : GenPayload) : Except String GeneratedQuestion :=
  let choices := (payload.choices.map pyStrip).filter (fun c => c ≠ "")
  if choices.length < 2 then
    Except.error "Question generator returned insufficient choices"
  else
    let correctAnswer := pyStrip payload.correctAnswer
    if correctAnswer ∉ choices then Except.error "Correct answer missing from choices"
    else
      let correctRationale := pyStrip payload.correctRationale
      let kept := (payload.incorrectRationales.map (fun kv => (kv.1, pyStrip kv.2))).filter
        (fun kv => kv.1 ∈ choices)
      let incorrectRationales := backfillRationales correctAnswer kept choices
      Except.ok {
        prompt := pyStrip payload.prompt
        choices
        correctAnswer
        rationale :=
          if correctRationale = "" then
            "The correct choice best represents the topic " ++ topic ++ "."
          else correctRationale
        incorrectRationales := incorrectRationales
        sourceMetadata :=
          match contexts with
          | some (ctx :: _) => some ctx.metadata
          | _ => none }

/-! ### Definition-registry deletion in the two repository implementations -/

/-- `InMemoryQuizRepository.delete_quiz_definition` (lines 501-503 of
`quiz_repository.py`): pops the definition and drops the quiz's sessions — the
`_questions` store is left untouched. -/
def World.deleteQuizDefinitionInMemory (w : World) (quizId : Nat) : World :=
  { w with
    definitions := w.definitions.filter (fun d => ¬ d.quizId = quizId)
    sessions := w.sessions.filter (fun s => ¬ s.quizId = quizId) }

/-- The Firestore-backed store: definitions, per-definition question
subcollections (every saved question lives under its own `quiz_id`'s
subcollection), sessions. -/
structure FirestoreState where
  definitions : List QuizDefinitionRecord
  questions : List QuizQuestionRecord
  sessions : List QuizSessionRecord
deriving DecidableEq, Repr

/-- `FirestoreQuizRepository.load_quiz_definition`. -/
def FirestoreState.loadQuizDefinition (s : FirestoreState) (quizId : Nat) :
    Option QuizDefinitionRecord :=
  s.definitions.find? (fun d => d.quizId = quizId)

/-- `FirestoreQuizRepository.get_quiz_question` without a `quiz_id` hint: the
collection-group lookup by question id. -/
def FirestoreState.getQuizQuestion (s : FirestoreState) (questionId : Nat) :
    Option QuizQuestionRecord :=
  s.questions.find? (fun q => q.questionId = questionId)

/-- `FirestoreQuizRepository.load_session`. -/
def FirestoreState.loadSession (s : FirestoreState) (sessionId : Nat) :
    Option QuizSessionRecord :=
  s.sessions.find? (fun x => x.sessionId = sessionId)

/-- `FirestoreQuizRepository.delete_quiz_definition` (lines 375-378):
`_delete_definition_questions` empties the quiz's question subcollection, the
definition document is deleted, and `delete_sessions_for_quiz` drops every
session whose `quiz_id` matches. -/
def FirestoreState.deleteQuizDefinition (s : FirestoreState) (quizId : Nat) :
    FirestoreState :=
  { definitions := s.definitions.filter (fun d => ¬ d.quizId = quizId)
    questions := s.questions.filter (fun q => ¬ q.quizId = quizId)
    sessions := s.sessions.filter (fun x => ¬ x.quizId = quizId) }

/-! ## Basic repository lemmas -/

lemma find?_replace_self {α : Type} (key : α → Nat) (r : α) (l : List α)
    (h : l.any (fun x => key x = key r) = true) :
    (l.map (fun item => if key item = key r then r else item)).find?
      (fun x => key x = key r) = some r := by
  induction l with
  | nil => simp at h
  | cons a t ih =>
    simp only [List.any_cons, Bool.or_eq_true, decide_eq_true_eq] at h
    by_cases ha : key a = key r
    · simp [List.find?_cons, ha]
    · have ht : t.any (fun x => decide (key x = key r)) = true := by
        rcases h with h | h
        · exact absurd h ha
        · exact h
      simpa [List.find?_cons, ha] using ih ht

lemma find?_append_right_single {α : Type} (p : α → Bool) (l : List α) (r : α)
    (hl : l.find? p = none) (hr : p r = true) : (l ++ [r]).find? p = some r := by
  induction l with
  | nil => simp [List.find?_cons, hr]
  | cons a t ih =>
    rw [List.find?_eq_none] at hl
    have ha : p a = false := by
      have := hl a (by simp)
      simpa using this
    have ht : t.find? p = none := by
      rw [List.find?_eq_none]
      intro x hx
      exact hl x (by simp [hx])
    simp only [List.cons_append, List.find?_cons, ha]
    exact ih ht

lemma dictSave_find?_self {α : Type} (key : α → Nat) (l : List α) (r : α) :
    (dictSave key l r).find? (fun x => key x = key r) = some r := by
  unfold dictSave
  split
  case isTrue h => exact find?_replace_self key r l h
  case isFalse h =>
    refine find?_append_right_single _ l r ?_ (by simp)
    rw [List.find?_eq_none]
    intro x hx
    simp only [List.any_eq_true, decide_eq_true_eq] at h
    simp only [decide_eq_true_eq]
    exact fun hc => h ⟨x, hx, hc⟩

lemma World.loadSession_saveSession_self (w : World) (r : QuizSessionRecord) :
    (w.saveSession r).loadSession r.sessionId = some r := by
  have h := dictSave_find?_self (fun x : QuizSessionRecord => x.sessionId) w.sessions r
  simpa [World.saveSession, World.loadSession] using h

lemma World.getQuizQuestion_saveQuizQuestion_self (w : World) (q : QuizQuestionRecord) :
    (w.saveQuizQuestion q).getQuizQuestion q.questionId = some q := by
  have h := dictSave_find?_self (fun x : QuizQuestionRecord => x.questionId) w.questions q
  simpa [World.saveQuizQuestion, World.getQuizQuestion] using h

lemma World.loadSession_saveQuizQuestion (w : World) (q : QuizQuestionRecord)
    (sessionId : Nat) : (w.saveQuizQuestion q).loadSession sessionId = w.loadSession sessionId :=
  rfl

lemma World.getQuizQuestion_saveSession (w : World) (r : QuizSessionRecord)
    (questionId : Nat) :
    (w.saveSession r).getQuizQuestion questionId = w.getQuizQuestion questionId :=
  rfl

lemma World.loadQuizDefinition_saveSession (w : World) (r : QuizSessionRecord)
    (quizId : Nat) :
    (w.saveSession r).loadQuizDefinition quizId = w.loadQuizDefinition quizId :=
  rfl

lemma World.loadQuizDefinition_saveQuizQuestion (w : World) (q : QuizQuestionRecord)
    (quizId : Nat) :
    (w.saveQuizQuestion q).loadQuizDefinition quizId = w.loadQuizDefinition quizId :=
  rfl

lemma World.loadSession_key (w : World) (sessionId : Nat) (s : QuizSessionRecord)
    (h : w.loadSession sessionId = some s) : s.sessionId = sessionId := by
  have := List.find?_some h
  simpa using this

lemma enforceTimeConstraints_nonassessment (w : World) (r : QuizSessionRecord) (now : Nat)
    (h : r.mode ≠ .assessment) : enforceTimeConstraints w r now = (r, w) := by
  simp [enforceTimeConstraints, h]

lemma enforceTimeConstraints_no_deadline (w : World) (r : QuizSessionRecord) (now : Nat)
    (h : r.deadline = none) : enforceTimeConstraints w r now = (r, w) := by
  unfold enforceTimeConstraints
  split
  · rfl
  · split
    · rfl
    · simp [h]

lemma enforceTimeConstraints_before_deadline (w : World) (r : QuizSessionRecord)
    (now dl : Nat) (hdl : r.deadline = some dl) (h : ¬ now > dl) :
    enforceTimeConstraints w r now = (r, w) := by
  unfold enforceTimeConstraints
  split
  · rfl
  · split
    · rfl
    · simp [hdl, h]

lemma enforceTimeConstraints_of_no_timeout (w : World) (r : QuizSessionRecord) (now : Nat)
    (htime : ∀ dl, r.deadline = some dl → now ≤ dl) :
    enforceTimeConstraints w r now = (r, w) := by
  unfold enforceTimeConstraints
  split
  · rfl
  · split
    · rfl
    · split
      case h_1 dl hdl =>
        have hle := htime dl hdl
        rw [if_neg (by omega)]
      case h_2 => rfl

/-! ## Unfolding lemmas for submit_answer -/

lemma submitAnswerFinish_snd (w : World) (u : QuizSessionRecord)
    (question : QuizQuestionRecord) (selectedAnswer : String) (isCorrect : Bool)
    (rationaleShown : Option String) (responseMs : Option Nat) :
    (submitAnswerFinish w u question selectedAnswer isCorrect rationaleShown responseMs).2 =
      w.saveSession (if u.status = .in_progress then u
                     else { u with summary := some (buildSummary w u) }) := by
  unfold submitAnswerFinish
  by_cases h : u.status = .in_progress
  · simp [h]
  · simp [h]

lemma submitAnswer_closed (env : Env) (w : World) (sessionId questionId : Nat)
    (selectedAnswer : String) (now : Nat) (s : QuizSessionRecord)
    (hs : w.loadSession sessionId = some s)
    (henf : enforceTimeConstraints w s now = (s, w))
    (hstat : s.status ≠ .in_progress) :
    submitAnswer env w sessionId questionId selectedAnswer now =
      (Except.error (.closed s.status), w) := by
  rw [submitAnswer, hs]
  simp only [henf, if_pos hstat]

lemma submitAnswer_no_question (env : Env) (w : World) (sessionId questionId : Nat)
    (selectedAnswer : String) (now : Nat) (s : QuizSessionRecord)
    (hs : w.loadSession sessionId = some s)
    (henf : enforceTimeConstraints w s now = (s, w))
    (hstat : s.status = .in_progress)
    (hq : w.getQuizQuestion questionId = none) :
    submitAnswer env w sessionId questionId selectedAnswer now =
      (Except.error (.questionNotFound "Question not found in the shared bank."), w) := by
  rw [submitAnswer, hs]
  simp only [henf, hstat, hq]
  simp

lemma submitAnswer_already_answered (env : Env) (w : World) (sessionId questionId : Nat)
    (selectedAnswer : String) (now : Nat) (s : QuizSessionRecord)
    (question : QuizQuestionRecord)
    (hs : w.loadSession sessionId = some s)
    (henf : enforceTimeConstraints w s now = (s, w))
    (hstat : s.status = .in_progress)
    (hq : w.getQuizQuestion questionId = some question)
    (hans : (s.attempts.any fun a => decide (a.questionId = questionId)) = true) :
    submitAnswer env w sessionId questionId selectedAnswer now =
      (Except.error (.questionNotFound "This question has already been answered."), w) := by
  rw [submitAnswer, hs]
  simp only [henf, hstat, hq, hans]
  simp

lemma submitAnswer_in_progress (env : Env) (w : World) (sessionId questionId : Nat)
    (selectedAnswer : String) (now : Nat) (s : QuizSessionRecord)
    (question : QuizQuestionRecord)
    (hs : w.loadSession sessionId = some s)
    (henf : enforceTimeConstraints w s now = (s, w))
    (hstat : s.status = .in_progress)
    (hq : w.getQuizQuestion questionId = some question)
    (hans : (s.attempts.any fun a => decide (a.questionId = questionId)) = false) :
    submitAnswer env w sessionId questionId selectedAnswer now =
      (if s.mode = .assessment then
        match w.loadQuizDefinition s.quizId with
        | none => (Except.error .definitionNotFound, w)
        | some definition =>
          submitAnswerFinish w
            (applyAssessmentTermination definition
              (submitUpdatedRecord env s question selectedAnswer now) now)
            question selectedAnswer (submitAttempt s question selectedAnswer now).isCorrect
            (submitAttempt s question selectedAnswer now).rationale
            (submitAttempt s question selectedAnswer now).responseMs
      else
        submitAnswerFinish w (submitUpdatedRecord env s question selectedAnswer now) question
          selectedAnswer (submitAttempt s question selectedAnswer now).isCorrect
          (submitAttempt s question selectedAnswer now).rationale
          (submitAttempt s question selectedAnswer now).responseMs) := by
  rw [submitAnswer, hs]
  simp only [henf, hstat, hq, hans]
  simp

lemma applyPracticeAdaptation_difficulty (env : Env) (current : Difficulty)
    (isCorrect : Bool) (correctStreak0 incorrectStreak0 : Nat) :
    (applyPracticeAdaptation env .practice current isCorrect correctStreak0 incorrectStreak0).2.2 =
      adaptDifficulty env current correctStreak0 incorrectStreak0 := by
  unfold applyPracticeAdaptation
  split
  case isTrue => split <;> rfl
  case isFalse h => exact absurd rfl h

/-! ## Difficulty adaptation moves at most one level -/

lemma adaptDifficulty_one_step (env : Env) (cur : Difficulty)
    (correctStreak incorrectStreak : Nat) :
    (adaptDifficulty env cur correctStreak incorrectStreak).rank ≤ cur.rank + 1 ∧
    cur.rank ≤ (adaptDifficulty env cur correctStreak incorrectStreak).rank + 1 := by
  cases cur <;>
    · simp only [adaptDifficulty]
      split_ifs <;> simp [Difficulty.rank, DifficultySequence]

/-! ## Concrete fixtures shared by witnesses and counterexamples -/

/-- A well-formed generated question used by witness environments. -/
def demoGenerated (order : Nat) : GeneratedQuestion :=
  { prompt := "Question number " ++ toString order
    choices := ["A", "B"]
    correctAnswer := "A"
    rationale := "because"
    incorrectRationales := [("B", "nope")] }

/-- Environment with an always-succeeding generator, no retriever, and
identity shuffles. -/
def demoEnv : Env :=
  { increaseThreshold := 3, decreaseThreshold := 2, missedReviewGap := 2
    generator := some (fun _ _ order _ => Except.ok (demoGenerated order))
    retriever := none, shuffleQuestions := id, shuffleTopics := id }

/-- A practice-mode quiz definition. -/
def demoDefinition : QuizDefinitionRecord :=
  { quizId := 1, name := some "demo", topics := ["algebra"], defaultMode := .practice
    initialDifficulty := .medium, assessmentNumQuestions := none
    assessmentTimeLimitMinutes := none, assessmentMaxAttempts := none }

/-- A bank question of quiz 1. -/
def demoQuestion : QuizQuestionRecord :=
  { quizId := 1, questionId := 100, prompt := "p", choices := ["A", "B"], correctAnswer := "A"
    rationale := "because", incorrectRationales := [("B", "nope")], topic := "algebra"
    difficulty := .medium, order := 1 }

/-- An in-progress practice session of quiz 1 with question 100 outstanding. -/
def practiceSession : QuizSessionRecord :=
  { sessionId := 7, quizId := 1, userId := 3, mode := .practice, status := .in_progress
    currentDifficulty := .medium, correctStreak := 0, incorrectStreak := 0, attemptsUsed := 0
    topics := ["algebra"], askedQuestionIds := [100], activeQuestionId := some 100
    activeQuestionServedAt := some 4, startedAt := 0, completedAt := none, deadline := none }

/-- World holding the practice fixture. -/
def practiceWorld : World :=
  { definitions := [demoDefinition], questions := [demoQuestion]
    sessions := [practiceSession], nextUuid := 200 }

/-- The practice fixture session after answering question 100 correctly. -/
def practiceSessionAfter : QuizSessionRecord :=
  ((submitAnswer demoEnv practiceWorld 7 100 "A" 9).2.loadSession 7).getD practiceSession

/-! ## C2 — outstanding-question idempotence of getNextQuestion -/

/-- C2: for every session with an outstanding (served but unanswered)
question that still resolves in the bank, `getNextQuestion` re-returns that
identical question and leaves the whole persisted state (in particular
`askedQuestionIds`, which already holds the id exactly once from the serving
call) unchanged — so a retry without an intervening `submitAnswer` observes
the very same question and state.  The hypotheses pin the session in
progress and not past its deadline, the situation in which a question can be
outstanding. -/
theorem quiz_C2_outstanding_idempotent
    (env : Env) (w : World) (sessionId : Nat) (topicOverride : Option String)
    (difficultyOverride : Option Difficulty) (now : Nat) (s : QuizSessionRecord)
    (activeId : Nat) (question : QuizQuestionRecord)
    (hs : w.loadSession sessionId = some s)
    (hstat : s.status = .in_progress)
    (htime : ∀ dl, s.deadline = some dl → now ≤ dl)
    (hactive : s.activeQuestionId = some activeId)
    (hq : w.getQuizQuestion activeId = some question) :
    getNextQuestion env w sessionId topicOverride difficultyOverride now =
      (Except.ok question, w) := by
  have henf := enforceTimeConstraints_of_no_timeout w s now htime
  rw [getNextQuestion, hs]
  simp only [henf, hstat, hactive, hq]
  simp

/-- Witness for C2: the practice fixture re-serves its outstanding question
100 verbatim without any state change. -/
theorem quiz_C2_witness :
    getNextQuestion demoEnv practiceWorld 7 none none 9 = (Except.ok demoQuestion, practiceWorld) :=
  quiz_C2_outstanding_idempotent demoEnv practiceWorld 7 none none 9 practiceSession 100
    demoQuestion rfl rfl (fun dl h => by cases h) rfl rfl

/-! ## C4 — practice difficulty moves at most one level per answer -/

/-- C4: for every practice-mode session, a single `submitAnswer` call moves
the stored current difficulty by at most one level in the order
easy < medium < hard (and therefore never below easy nor above hard, the
ranks being clamped to 0..2 by construction). -/
theorem quiz_C4_practice_difficulty_one_step
    (env : Env) (w : World) (sessionId questionId : Nat) (selectedAnswer : String)
    (now : Nat) (s s' : QuizSessionRecord)
    (hs : w.loadSession sessionId = some s)
    (hmode : s.mode = .practice)
    (hs' : (submitAnswer env w sessionId questionId selectedAnswer now).2.loadSession sessionId
      = some s') :
    s'.currentDifficulty.rank ≤ s.currentDifficulty.rank + 1 ∧
    s.currentDifficulty.rank ≤ s'.currentDifficulty.rank + 1 := by
  have hmode' : s.mode ≠ .assessment := by simp [hmode]
  have henf := enforceTimeConstraints_nonassessment w s now hmode'
  have hkey := World.loadSession_key w sessionId s hs
  by_cases hstat : s.status = .in_progress
  · cases hq : w.getQuizQuestion questionId with
    | none =>
      rw [submitAnswer_no_question env w sessionId questionId selectedAnswer now s hs henf
        hstat hq] at hs'
      rw [hs] at hs'
      cases hs'
      omega
    | some question =>
      by_cases hans : (s.attempts.any fun a => decide (a.questionId = questionId)) = true
      · rw [submitAnswer_already_answered env w sessionId questionId selectedAnswer now s
          question hs henf hstat hq hans] at hs'
        rw [hs] at hs'
        cases hs'
        omega
      · have hans' : (s.attempts.any fun a => decide (a.questionId = questionId)) = false := by
          simpa using hans
        rw [submitAnswer_in_progress env w sessionId questionId selectedAnswer now s question
          hs henf hstat hq hans'] at hs'
        rw [if_neg hmode'] at hs'
        rw [submitAnswerFinish_snd] at hs'
        have hUstat : (submitUpdatedRecord env s question selectedAnswer now).status
            = .in_progress := by
          simp [submitUpdatedRecord, hstat]
        rw [if_pos hUstat] at hs'
        have hUsid : (submitUpdatedRecord env s question selectedAnswer now).sessionId
            = sessionId := by
          simp [submitUpdatedRecord, hkey]
        rw [← hUsid] at hs'
        rw [World.loadSession_saveSession_self] at hs'
        cases hs'
        have hUdiff : (submitUpdatedRecord env s question selectedAnswer now).currentDifficulty =
            adaptDifficulty env s.currentDifficulty
              (if (selectedAnswer = question.correctAnswer : Bool) then s.correctStreak + 1 else 0)
              (if (selectedAnswer = question.correctAnswer : Bool) then 0
               else s.incorrectStreak + 1) := by
          simp only [submitUpdatedRecord]
          rw [hmode]
          rw [applyPracticeAdaptation_difficulty]
        rw [hUdiff]
        exact adaptDifficulty_one_step env s.currentDifficulty _ _
  · rw [submitAnswer_closed env w sessionId questionId selectedAnswer now s hs henf hstat] at hs'
    rw [hs] at hs'
    cases hs'
    omega

/-- Witness for C4: answering the outstanding question of the practice
fixture moves the difficulty by at most one level. -/
theorem quiz_C4_witness :
    practiceWorld.loadSession 7 = some practiceSession ∧
    practiceSession.mode = .practice ∧
    (practiceSessionAfter.currentDifficulty.rank ≤ practiceSession.currentDifficulty.rank + 1 ∧
     practiceSession.currentDifficulty.rank ≤ practiceSessionAfter.currentDifficulty.rank + 1) :=
  ⟨rfl, rfl, quiz_C4_practice_difficulty_one_step demoEnv practiceWorld 7 100 "A" 9
    practiceSession practiceSessionAfter rfl rfl (by rfl)⟩

end QuizEngine

namespace QuizEngine

lemma find?_append_left {α : Type} (p : α → Bool) (l₁ l₂ : List α) (a : α)
    (h : l₁.find? p = some a) : (l₁ ++ l₂).find? p = some a := by
  induction l₁ with
  | nil => simp [List.find?] at h
  | cons x t ih =>
    rw [List.find?_cons] at h
    cases hp : p x with
    | true => simp only [hp] at h; simpa [List.find?_cons, hp] using h
    | false => simp only [hp] at h; simpa [List.find?_cons, hp] using ih h

lemma lookupMeta_eq_none_of_not_any (m : Metadata) (c : String)
    (h : m.any (fun kv => kv.1 = c) = false) : lookupMeta m c = none := by
  have hf : m.find? (fun kv => kv.1 = c) = none := by
    rw [List.find?_eq_none]
    intro kv hkv
    rw [List.any_eq_false] at h
    exact h kv hkv
  simp [lookupMeta, hf]

lemma lookupMeta_isSome_of_any (m : Metadata) (c : String)
    (h : m.any (fun kv => kv.1 = c) = true) : ∃ v, lookupMeta m c = some v := by
  rw [List.any_eq_true] at h
  obtain ⟨kv, hkv, hp⟩ := h
  have hsome : (m.find? (fun kv => kv.1 = c)).isSome := by
    rw [List.find?_isSome]
    exact ⟨kv, hkv, hp⟩
  obtain ⟨kv', hkv'⟩ := Option.isSome_iff_exists.mp hsome
  exact ⟨kv'.2, by simp [lookupMeta, hkv']⟩

lemma lookupMeta_append_single (m : Metadata) (c v : String)
    (h : lookupMeta m c = none) : lookupMeta (m ++ [(c, v)]) c = some v := by
  have hf : m.find? (fun kv => kv.1 = c) = none := by
    cases hf : m.find? (fun kv => kv.1 = c) with
    | none => rfl
    | some kv => simp [lookupMeta, hf] at h
  have happ := find?_append_right_single (fun kv => decide (kv.1 = c)) m (c, v) hf (by simp)
  simp [lookupMeta, happ]

lemma backfill_lookup_stable (correct : String) (l : List String) (acc : Metadata)
    (c v : String) (h : lookupMeta acc c = some v) :
    lookupMeta (backfillRationales correct acc l) c = some v := by
  induction l generalizing acc with
  | nil => exact h
  | cons choice rest ih =>
    unfold backfillRationales
    split
    · exact ih acc h
    · split
      · exact ih acc h
      · refine ih _ ?_
        unfold lookupMeta at h ⊢
        cases hf : acc.find? (fun kv => kv.1 = c) with
        | none => simp [hf] at h
        | some kv =>
          rw [find?_append_left _ _ _ _ hf]
          simpa [hf] using h

lemma backfill_covers (correct : String) (l : List String) (acc : Metadata) (c : String)
    (hc : c ∈ l) (hne : c ≠ correct) :
    ∃ v, lookupMeta (backfillRationales correct acc l) c = some v := by
  induction l generalizing acc with
  | nil => cases hc
  | cons choice rest ih =>
    unfold backfillRationales
    by_cases h1 : choice = correct
    · rw [if_pos h1]
      rcases List.mem_cons.mp hc with hceq | hcr
      · exact absurd (hceq ▸ h1) hne
      · exact ih acc hcr
    · rw [if_neg h1]
      by_cases h2 : (acc.any fun kv => decide (kv.1 = choice)) = true
      · rw [if_pos h2]
        rcases List.mem_cons.mp hc with hceq | hcr
        · subst hceq
          obtain ⟨v, hv⟩ := lookupMeta_isSome_of_any acc c h2
          exact ⟨v, backfill_lookup_stable correct rest acc c v hv⟩
        · exact ih acc hcr
      · rw [if_neg h2]
        rcases List.mem_cons.mp hc with hceq | hcr
        · subst hceq
          have hfalse : (acc.any fun kv => decide (kv.1 = c)) = false := by
            cases hb : (acc.any fun kv => decide (kv.1 = c)) with
            | true => exact absurd hb h2
            | false => rfl
          have hnone : lookupMeta acc c = none :=
            lookupMeta_eq_none_of_not_any acc c hfalse
          have happ := lookupMeta_append_single acc c genericIncorrectRationale hnone
          exact ⟨_, backfill_lookup_stable correct rest _ c genericIncorrectRationale happ⟩
        · exact ih _ hcr

lemma backfill_generic (correct : String) (l : List String) (acc : Metadata) (c : String)
    (hc : c ∈ l) (hne : c ≠ correct)
    (hacc : (acc.any fun kv => decide (kv.1 = c)) = false) :
    lookupMeta (backfillRationales correct acc l) c = some genericIncorrectRationale := by
  induction l generalizing acc with
  | nil => cases hc
  | cons choice rest ih =>
    unfold backfillRationales
    by_cases h1 : choice = correct
    · rw [if_pos h1]
      rcases List.mem_cons.mp hc with hceq | hcr
      · exact absurd (hceq ▸ h1) hne
      · exact ih acc hcr hacc
    · rw [if_neg h1]
      by_cases h2 : (acc.any fun kv => decide (kv.1 = choice)) = true
      · rw [if_pos h2]
        rcases List.mem_cons.mp hc with hceq | hcr
        · subst hceq
          rw [hacc] at h2
          cases h2
        · exact ih acc hcr hacc
      · rw [if_neg h2]
        rcases List.mem_cons.mp hc with hceq | hcr
        · subst hceq
          have hnone : lookupMeta acc c = none := lookupMeta_eq_none_of_not_any acc c hacc
          have happ := lookupMeta_append_single acc c genericIncorrectRationale hnone
          exact backfill_lookup_stable correct rest _ c genericIncorrectRationale happ
        · by_cases hcc : c = choice
          · subst hcc
            have hnone : lookupMeta acc c = none := lookupMeta_eq_none_of_not_any acc c hacc
            have happ := lookupMeta_append_single acc c genericIncorrectRationale hnone
            exact backfill_lookup_stable correct rest _ c genericIncorrectRationale happ
          · refine ih _ hcr ?_
            rw [List.any_eq_false]
            intro kv hkv
            rcases List.mem_append.mp hkv with hkv | hkv
            · rw [List.any_eq_false] at hacc
              exact hacc kv hkv
            · simp only [List.mem_singleton] at hkv
              subst hkv
              simpa using fun hh => hcc (hh.symm)

/-- C7 (amended): every `GeneratedQuestion` produced by the generator
pipeline has its correct answer among its own choices, at least 2 choices,
and an entry in `incorrectRationales` for every non-correct choice; when the
model response carried no rationale keyed by a distractor, that entry is the
non-empty generic backfill rationale.  (The entry may be the empty string
when the model explicitly supplied an empty rationale — see
`quiz_C7_counterexample`.) -/
theorem quiz_C7_generated_question_invariants
    (topic : String) (contexts : Option (List Ctx)) (payload : GenPayload)
    (q : GeneratedQuestion)
    (h : generateFromPayload topic contexts payload = Except.ok q) :
    q.correctAnswer ∈ q.choices ∧ 2 ≤ q.choices.length ∧
    (∀ c ∈ q.choices, c ≠ q.correctAnswer →
      ∃ r, lookupMeta q.incorrectRationales c = some r) ∧
    (∀ c ∈ q.choices, c ≠ q.correctAnswer →
      (∀ kv ∈ payload.incorrectRationales, kv.1 ≠ c) →
      lookupMeta q.incorrectRationales c = some genericIncorrectRationale) := by
  simp only [generateFromPayload] at h
  by_cases hlen : ((payload.choices.map pyStrip).filter (fun c => c ≠ "")).length < 2
  · rw [if_pos hlen] at h
    cases h
  · rw [if_neg hlen] at h
    by_cases hmem : pyStrip payload.correctAnswer
        ∈ (payload.choices.map pyStrip).filter (fun c => c ≠ "")
    · rw [if_neg (not_not_intro hmem)] at h
      cases h
      refine ⟨hmem, Nat.le_of_not_lt hlen, ?_, ?_⟩
      · intro c hc hne
        exact backfill_covers _ _ _ c hc hne
      · intro c hc hne hnone
        refine backfill_generic _ _ _ c hc hne ?_
        rw [List.any_eq_false]
        intro kv hkv
        have hmap := (List.mem_filter.mp hkv).1
        obtain ⟨kv0, hkv0, hkveq⟩ := List.mem_map.mp hmap
        have hne0 := hnone kv0 hkv0
        simp only [decide_eq_true_eq]
        intro hbad
        apply hne0
        rw [← hkveq] at hbad
        exact hbad
    · rw [if_pos hmem] at h
      cases h

def c7Payload : GenPayload :=
  { prompt := "p", choices := ["A", "B"], correctAnswer := "A", correctRationale := "r",
    incorrectRationales := [("B", "")] }

def c7Generated : GeneratedQuestion :=
  (generateFromPayload "algebra" none c7Payload).toOption.getD (demoGenerated 0)

/-- Counterexample to C7 as stated: a payload whose distractor rationale is
explicitly the empty string survives validation, so the persisted question
has an *empty* `incorrectRationales` entry for a non-correct choice — the
claim's \"non-empty entry\" is refuted. -/
theorem quiz_C7_counterexample :
    generateFromPayload "algebra" none c7Payload = Except.ok c7Generated ∧
    "B" ∈ c7Generated.choices ∧ "B" ≠ c7Generated.correctAnswer ∧
    lookupMeta c7Generated.incorrectRationales "B" = some "" := by
  refine ⟨rfl, by decide, by decide, by decide⟩

/-- Payload exercising the generic backfill: no rationale supplied for "B". -/
def c7WitnessPayload : GenPayload :=
  { prompt := "p", choices := ["A", "B"], correctAnswer := "A", correctRationale := "r",
    incorrectRationales := [] }

/-- The question generated from `c7WitnessPayload`. -/
def c7WitnessGenerated : GeneratedQuestion :=
  (generateFromPayload "algebra" none c7WitnessPayload).toOption.getD (demoGenerated 0)

/-- Witness for C7 (amended) at a concrete payload. -/
theorem quiz_C7_witness :
    c7WitnessGenerated.correctAnswer ∈ c7WitnessGenerated.choices ∧
    2 ≤ c7WitnessGenerated.choices.length ∧
    (∀ c ∈ c7WitnessGenerated.choices, c ≠ c7WitnessGenerated.correctAnswer →
      ∃ r, lookupMeta c7WitnessGenerated.incorrectRationales c = some r) ∧
    (∀ c ∈ c7WitnessGenerated.choices, c ≠ c7WitnessGenerated.correctAnswer →
      (∀ kv ∈ c7WitnessPayload.incorrectRationales, kv.1 ≠ c) →
      lookupMeta c7WitnessGenerated.incorrectRationales c = some genericIncorrectRationale) :=
  quiz_C7_generated_question_invariants "algebra" none c7WitnessPayload c7WitnessGenerated rfl

end QuizEngine

namespace QuizEngine

/-! ## C8 — submit_answer failure modes -/

/-- A fresh practice session of quiz 1 that has never served any question. -/
def c8Session : QuizSessionRecord :=
  { sessionId := 8, quizId := 1, userId := 3, mode := .practice, status := .in_progress
    currentDifficulty := .medium, correctStreak := 0, incorrectStreak := 0, attemptsUsed := 0
    topics := ["algebra"], askedQuestionIds := [], activeQuestionId := none
    activeQuestionServedAt := none, startedAt := 0, completedAt := none, deadline := none }

/-- World holding `c8Session` and bank question 100. -/
def c8World : World :=
  { definitions := [demoDefinition], questions := [demoQuestion]
    sessions := [c8Session], nextUuid := 300 }

/-- A session that already recorded an attempt on question 100. -/
def c8AnsweredSession : QuizSessionRecord :=
  { c8Session with
    sessionId := 9
    askedQuestionIds := [100]
    attemptsUsed := 1
    attempts := [{ questionId := 100, selectedAnswer := "A", isCorrect := true
                   submittedAt := 5 }] }

/-- World holding `c8AnsweredSession` and bank question 100. -/
def c8AnsweredWorld : World :=
  { definitions := [demoDefinition], questions := [demoQuestion]
    sessions := [c8AnsweredSession], nextUuid := 300 }

/-- C8 (amended): for an in-progress session (not past its deadline),
`submitAnswer` with a question id that does not resolve in the shared bank
fails with the NotFound error, and `submitAnswer` with a question id that
already has a recorded attempt in the session fails (same NotFound exception
type, already-answered message); in both failure cases the persisted state is
unchanged, so no attempt is recorded. -/
theorem quiz_C8_submit_failure_modes
    (env : Env) (w : World) (sessionId questionId : Nat) (selectedAnswer : String)
    (now : Nat) (s : QuizSessionRecord)
    (hs : w.loadSession sessionId = some s)
    (hstat : s.status = .in_progress)
    (htime : ∀ dl, s.deadline = some dl → now ≤ dl) :
    (w.getQuizQuestion questionId = none →
      submitAnswer env w sessionId questionId selectedAnswer now =
        (Except.error (.questionNotFound "Question not found in the shared bank."), w)) ∧
    (∀ question, w.getQuizQuestion questionId = some question →
      (s.attempts.any fun a => decide (a.questionId = questionId)) = true →
      submitAnswer env w sessionId questionId selectedAnswer now =
        (Except.error (.questionNotFound "This question has already been answered."), w)) := by
  have henf := enforceTimeConstraints_of_no_timeout w s now htime
  constructor
  · intro hq
    exact submitAnswer_no_question env w sessionId questionId selectedAnswer now s hs henf
      hstat hq
  · intro question hq hans
    exact submitAnswer_already_answered env w sessionId questionId selectedAnswer now s
      question hs henf hstat hq hans

/-- Witness for C8 (amended): question 999 is absent from the bank of
`c8World` and fails NotFound; question 100 of `c8AnsweredWorld` is already
answered and fails on resubmission; both leave the world unchanged. -/
theorem quiz_C8_witness :
    submitAnswer demoEnv c8World 8 999 "A" 9 =
      (Except.error (.questionNotFound "Question not found in the shared bank."), c8World) ∧
    submitAnswer demoEnv c8AnsweredWorld 9 100 "A" 9 =
      (Except.error (.questionNotFound "This question has already been answered."),
        c8AnsweredWorld) :=
  ⟨(quiz_C8_submit_failure_modes demoEnv c8World 8 999 "A" 9 c8Session rfl rfl
      (fun dl h => by cases h)).1 rfl,
   (quiz_C8_submit_failure_modes demoEnv c8AnsweredWorld 9 100 "A" 9 c8AnsweredSession rfl rfl
      (fun dl h => by cases h)).2 demoQuestion rfl rfl⟩

/-- Counterexample to C8 as stated: question 100 exists in the shared bank
but was *never served* in session 8 (`askedQuestionIds = []`, no outstanding
question, no attempts) — yet `submitAnswer` succeeds and records an attempt
instead of failing with NotFound: the code only checks bank membership, not
the session's serving history. -/
theorem quiz_C8_counterexample :
    c8World.loadSession 8 = some c8Session ∧
    c8Session.askedQuestionIds = [] ∧
    c8Session.attempts = [] ∧
    c8Session.activeQuestionId = none ∧
    ((submitAnswer demoEnv c8World 8 100 "A" 9).1).toOption.isSome = true ∧
    (((submitAnswer demoEnv c8World 8 100 "A" 9).2.loadSession 8).getD c8Session).attempts.length
      = 1 :=
  ⟨rfl, rfl, rfl, rfl, rfl, rfl⟩

/-! ## C9 — definition-registry cascade delete -/

/-- The Firestore-backed store holding the same fixture data as
`practiceWorld`. -/
def c9Firestore : FirestoreState :=
  { definitions := [demoDefinition], questions := [demoQuestion]
    sessions := [practiceSession] }

/-- C9 (code bug in `InMemoryQuizRepository`): deleting quiz 1 removes the
definition and its session in both implementations, and
`FirestoreQuizRepository` also removes the bank question — but
`InMemoryQuizRepository.delete_quiz_definition` leaves the bank question
loadable, contradicting the documented cascade that its Firestore counterpart
implements. -/
theorem quiz_C9_delete_cascade_divergence :
    ((practiceWorld.deleteQuizDefinitionInMemory 1).loadQuizDefinition 1 = none) ∧
    ((practiceWorld.deleteQuizDefinitionInMemory 1).loadSession 7 = none) ∧
    ((practiceWorld.deleteQuizDefinitionInMemory 1).getQuizQuestion 100 = some demoQuestion) ∧
    ((c9Firestore.deleteQuizDefinition 1).loadQuizDefinition 1 = none) ∧
    ((c9Firestore.deleteQuizDefinition 1).getQuizQuestion 100 = none) ∧
    ((c9Firestore.deleteQuizDefinition 1).loadSession 7 = none) :=
  ⟨rfl, rfl, rfl, rfl, rfl, rfl⟩

end QuizEngine

namespace QuizEngine

lemma serveMissed_empty (env : Env) (w : World) (s : QuizSessionRecord) (now : Nat)
    (h : s.missedQuestionIds = []) :
    serveMissedQuestionIfReady env w s now = (none, s, w) := by
  simp [serveMissedQuestionIfReady, h]

lemma createQuestion_generator_error (env : Env) (w : World) (s : QuizSessionRecord)
    (definition : QuizDefinitionRecord) (existingQuestions : List QuizQuestionRecord)
    (topicOverride : Option String) (difficultyOverride : Option Difficulty) (now : Nat)
    (gen : String → Difficulty → Nat → Option (List Ctx) → Except String GeneratedQuestion)
    (msg : String)
    (hgen : env.generator = some gen)
    (hfail : ∀ topic difficulty order contexts, gen topic difficulty order contexts
      = Except.error msg)
    (hmsg : msg ≠ "") :
    createQuestion env w s definition existingQuestions topicOverride difficultyOverride now =
      (Except.error (QuizError.generation msg), w) := by
  simp only [createQuestion, hgen, Option.map_some']
  simp only [hfail]
  simp [createQuestionFromOutcome, hmsg]

end QuizEngine

namespace QuizEngine

lemma serveMissed_ready (env : Env) (w : World) (s : QuizSessionRecord) (now : Nat)
    (oldest : Nat) (rest : List Nat) (question : QuizQuestionRecord)
    (hmissed : s.missedQuestionIds = oldest :: rest)
    (hgap : env.missedReviewGap ≤ s.questionsSinceReview)
    (hq : w.getQuizQuestion oldest = some question)
    (hpreview : s.isPreview = false) :
    serveMissedQuestionIfReady env w s now =
      (some { question with questionId := w.nextUuid, generatedAt := now },
       { s with
         missedQuestionIds := rest
         questionsSinceReview := 0
         askedQuestionIds := s.askedQuestionIds ++ [w.nextUuid]
         activeQuestionId := some w.nextUuid
         activeQuestionServedAt := some now },
       (({ w with nextUuid := w.nextUuid + 1 }).saveQuizQuestion
           { question with questionId := w.nextUuid, generatedAt := now }).saveSession
         { s with
           missedQuestionIds := rest
           questionsSinceReview := 0
           askedQuestionIds := s.askedQuestionIds ++ [w.nextUuid]
           activeQuestionId := some w.nextUuid
           activeQuestionServedAt := some now }) := by
  rw [serveMissedQuestionIfReady]
  simp only [hmissed]
  have hne : ¬ (oldest :: rest = ([] : List Nat)) := by simp
  have hgapneg : ¬ (s.questionsSinceReview < env.missedReviewGap) := by omega
  rw [if_neg hne, if_neg hgapneg]
  rw [serveMissedLoop]
  simp only [hq, duplicateQuestionForReview, World.freshId]
  simp [hpreview]

/-- C5: for a non-preview in-progress session with no outstanding question
whose oldest missed-question id still resolves, once at least the configured
review gap of questions has been served since the last review,
`getNextQuestion` dequeues that oldest id, serves a clone of the question
under a fresh id (the world's next uuid), resets the questions-since-review
counter to zero and persists exactly the clone plus the updated session —
bypassing the bank-reuse, queued-question and generation paths entirely (the
equation holds for every generator/retriever/shuffle oracle and regardless of
the queued-question slot).  Preview sessions never take this path: they go
straight to definition resolution and question sourcing with the missed
queue untouched. -/
theorem quiz_C5_missed_review_priority
    (env : Env) (w : World) (sessionId : Nat) (topicOverride : Option String)
    (difficultyOverride : Option Difficulty) (now : Nat) (s : QuizSessionRecord)
    (oldest : Nat) (rest : List Nat) (question : QuizQuestionRecord)
    (hs : w.loadSession sessionId = some s)
    (hstat : s.status = .in_progress)
    (htime : ∀ dl, s.deadline = some dl → now ≤ dl)
    (hactive : s.activeQuestionId = none) :
    (s.isPreview = false →
     s.missedQuestionIds = oldest :: rest →
     env.missedReviewGap ≤ s.questionsSinceReview →
     w.getQuizQuestion oldest = some question →
     getNextQuestion env w sessionId topicOverride difficultyOverride now =
       (Except.ok { question with questionId := w.nextUuid, generatedAt := now },
        (({ w with nextUuid := w.nextUuid + 1 }).saveQuizQuestion
            { question with questionId := w.nextUuid, generatedAt := now }).saveSession
          { s with
            missedQuestionIds := rest
            questionsSinceReview := 0
            askedQuestionIds := s.askedQuestionIds ++ [w.nextUuid]
            activeQuestionId := some w.nextUuid
            activeQuestionServedAt := some now })) ∧
    (s.isPreview = true →
     getNextQuestion env w sessionId topicOverride difficultyOverride now =
       (match w.loadQuizDefinition s.quizId with
        | none => (Except.error .definitionNotFound, w)
        | some definition =>
          getNextQuestionServe env w s definition topicOverride difficultyOverride now)) := by
  have henf := enforceTimeConstraints_of_no_timeout w s now htime
  constructor
  · intro hpreview hmissed hgap hq
    rw [getNextQuestion, hs]
    simp only [henf, hstat, hactive]
    rw [if_neg (by simp)]
    rw [getNextQuestionAfterActive]
    simp only [hpreview]
    rw [serveMissed_ready env w s now oldest rest question hmissed hgap hq hpreview]
    simp [hstat, hpreview]
  · intro hpreview
    rw [getNextQuestion, hs]
    simp only [henf, hstat, hactive]
    rw [if_neg (by simp)]
    rw [getNextQuestionAfterActive]
    simp only [hpreview]
    simp

end QuizEngine

namespace QuizEngine

/-- Session with a ready missed-question review item. -/
def c5Session : QuizSessionRecord :=
  { c8Session with
    sessionId := 10
    askedQuestionIds := [100]
    missedQuestionIds := [100]
    questionsSinceReview := 2 }

/-- World holding `c5Session`. -/
def c5World : World :=
  { definitions := [demoDefinition], questions := [demoQuestion],
    sessions := [c5Session], nextUuid := 400 }

/-- Preview session with a (never-served) missed queue. -/
def c5PreviewSession : QuizSessionRecord :=
  { c8Session with
    sessionId := 11
    isPreview := true
    missedQuestionIds := [100]
    questionsSinceReview := 5 }

/-- World holding `c5PreviewSession`. -/
def c5PreviewWorld : World :=
  { definitions := [demoDefinition], questions := [demoQuestion],
    sessions := [c5PreviewSession], nextUuid := 450 }

/-- Witness for C5: session 10 (missed queue [100], gap reached) gets served
a fresh clone of question 100 under id 400; preview session 11 skips the
review path. -/
theorem quiz_C5_witness :
    getNextQuestion demoEnv c5World 10 none none 9 =
      (Except.ok { demoQuestion with questionId := 400, generatedAt := 9 },
       (({ c5World with nextUuid := 401 }).saveQuizQuestion
           { demoQuestion with questionId := 400, generatedAt := 9 }).saveSession
         { c5Session with
           missedQuestionIds := []
           questionsSinceReview := 0
           askedQuestionIds := c5Session.askedQuestionIds ++ [400]
           activeQuestionId := some 400
           activeQuestionServedAt := some 9 }) ∧
    getNextQuestion demoEnv c5PreviewWorld 11 none none 9 =
      getNextQuestionServe demoEnv c5PreviewWorld c5PreviewSession demoDefinition none none 9 :=
  ⟨(quiz_C5_missed_review_priority demoEnv c5World 10 none none 9 c5Session 100 [] demoQuestion rfl rfl
      (fun dl h => by cases h) rfl).1 rfl rfl (by decide) rfl,
   (quiz_C5_missed_review_priority demoEnv c5PreviewWorld 11 none none 9 c5PreviewSession 0 [] demoQuestion rfl rfl
      (fun dl h => by cases h) rfl).2 rfl⟩

end QuizEngine

namespace QuizEngine

/-- The session fields the learner-facing calls may not silently change:
identity, quiz linkage, mode, status, deadline, and the attempt ledger. -/
def sessionCore (s : QuizSessionRecord) :
    Nat × Nat × Mode × Status × Option Nat × List QuizAttemptRecord × Nat :=
  (s.sessionId, s.quizId, s.mode, s.status, s.deadline, s.attempts, s.attemptsUsed)

lemma enforce_dichotomy (w : World) (s : QuizSessionRecord) (now : Nat) :
    enforceTimeConstraints w s now = (s, w) ∨
    (enforceTimeConstraints w s now =
      (markCompleted s .timed_out now, w.saveSession (markCompleted s .timed_out now)) ∧
     s.status = .in_progress ∧ s.mode = .assessment) := by
  unfold enforceTimeConstraints
  split
  · exact Or.inl rfl
  · split
    · exact Or.inl rfl
    · split
      case h_1 dl hdl =>
        split
        · refine Or.inr ⟨rfl, ?_, ?_⟩
          · by_contra hc
            simp_all
          · by_contra hc
            simp_all
        · exact Or.inl rfl
      case h_2 => exact Or.inl rfl

lemma getQuizQuestion_key (w : World) (questionId : Nat) (q : QuizQuestionRecord)
    (h : w.getQuizQuestion questionId = some q) : q.questionId = questionId := by
  have := List.find?_some h
  simpa using this

lemma registerSlideUsage_core (record : QuizSessionRecord) (q : QuizQuestionRecord) :
    sessionCore (registerSlideUsage record q) = sessionCore record := by
  unfold registerSlideUsage
  split
  · rfl
  · split <;> rfl

lemma createQuestionFromOutcome_ok_core (w : World) (session : QuizSessionRecord)
    (definition : QuizDefinitionRecord) (sessionState : QuizSessionRecord)
    (topic : String) (difficulty : Difficulty) (order : Nat) (ctxs : List Ctx) (now : Nat)
    (go : Option (Except String GeneratedQuestion)) (q : QuizQuestionRecord)
    (r : QuizSessionRecord) (w2 : World)
    (h : createQuestionFromOutcome w session definition sessionState topic difficulty order
      ctxs now go = (Except.ok (q, r), w2)) :
    sessionCore r = sessionCore sessionState ∧ w2.sessions = w.sessions ∧
    w2.definitions = w.definitions := by
  match go with
  | none => cases h
  | some (Except.error msg) => cases h
  | some (Except.ok generated) =>
    simp only [createQuestionFromOutcome, Prod.mk.injEq, Except.ok.injEq] at h
    obtain ⟨⟨hq, hr⟩, hw⟩ := h
    subst hr
    subst hw
    refine ⟨?_, rfl, rfl⟩
    split <;> rfl

lemma createQuestionFromOutcome_error_world (w : World) (session : QuizSessionRecord)
    (definition : QuizDefinitionRecord) (sessionState : QuizSessionRecord)
    (topic : String) (difficulty : Difficulty) (order : Nat) (ctxs : List Ctx) (now : Nat)
    (go : Option (Except String GeneratedQuestion)) (e : QuizError) (w2 : World)
    (h : createQuestionFromOutcome w session definition sessionState topic difficulty order
      ctxs now go = (Except.error e, w2)) : w2 = w := by
  match go with
  | none =>
    simp only [createQuestionFromOutcome, Prod.mk.injEq] at h
    exact h.2.symm
  | some (Except.error msg) =>
    simp only [createQuestionFromOutcome, Prod.mk.injEq] at h
    exact h.2.symm
  | some (Except.ok generated) => cases h

lemma sessionCore_ite (c : Prop) [Decidable c] (s a : QuizSessionRecord)
    (ha : sessionCore a = sessionCore s) :
    sessionCore (if c then a else s) = sessionCore s := by
  split
  · exact ha
  · rfl

lemma createQuestion_ok_core (env : Env) (w : World) (s : QuizSessionRecord)
    (definition : QuizDefinitionRecord) (qs : List QuizQuestionRecord)
    (topicOverride : Option String) (difficultyOverride : Option Difficulty) (now : Nat)
    (q : QuizQuestionRecord) (r : QuizSessionRecord) (w2 : World)
    (h : createQuestion env w s definition qs topicOverride difficultyOverride now
      = (Except.ok (q, r), w2)) :
    sessionCore r = sessionCore s ∧ w2.sessions = w.sessions ∧
    w2.definitions = w.definitions := by
  unfold createQuestion at h
  have hcore := createQuestionFromOutcome_ok_core _ _ _ _ _ _ _ _ _ _ _ _ _ h
  refine ⟨?_, hcore.2.1, hcore.2.2⟩
  rw [hcore.1]
  exact sessionCore_ite _ _ _ rfl

lemma createQuestion_error_world (env : Env) (w : World) (s : QuizSessionRecord)
    (definition : QuizDefinitionRecord) (qs : List QuizQuestionRecord)
    (topicOverride : Option String) (difficultyOverride : Option Difficulty) (now : Nat)
    (e : QuizError) (w2 : World)
    (h : createQuestion env w s definition qs topicOverride difficultyOverride now
      = (Except.error e, w2)) : w2 = w := by
  unfold createQuestion at h
  exact createQuestionFromOutcome_error_world _ _ _ _ _ _ _ _ _ _ _ _ h

lemma maybeQueueFromResult_shape (w : World) (record : QuizSessionRecord)
    (cq : Except QuizError (QuizQuestionRecord × QuizSessionRecord) × World)
    (record2 : QuizSessionRecord) (w2 : World)
    (h : maybeQueueFromResult w record cq = (record2, w2))
    (hok : ∀ q r wx, cq = (Except.ok (q, r), wx) →
      sessionCore r = sessionCore record ∧ wx.definitions = w.definitions) :
    sessionCore record2 = sessionCore record ∧
    w2.definitions = w.definitions ∧
    (w2 = w ∨ w2.loadSession record2.sessionId = some record2) := by
  obtain ⟨res, wx⟩ := cq
  cases res with
  | error e =>
    cases h
    exact ⟨rfl, rfl, Or.inl rfl⟩
  | ok pr =>
    obtain ⟨q, r⟩ := pr
    unfold maybeQueueFromResult at h
    cases h
    obtain ⟨hcore, hdefs⟩ := hok q r wx rfl
    have hsave := World.loadSession_saveSession_self wx
      { r with queuedQuestionId := some q.questionId }
    exact ⟨hcore, hdefs, Or.inr hsave⟩

lemma maybeQueue_shape (env : Env) (w : World) (record : QuizSessionRecord)
    (definition : QuizDefinitionRecord) (srcv : Source) (curv now : Nat)
    (record2 : QuizSessionRecord) (w2 : World)
    (h : maybeQueueGeneratedQuestion env w record definition srcv curv now = (record2, w2)) :
    sessionCore record2 = sessionCore record ∧
    w2.definitions = w.definitions ∧
    (w2 = w ∨ w2.loadSession record2.sessionId = some record2) := by
  unfold maybeQueueGeneratedQuestion at h
  split at h
  · cases h
    exact ⟨rfl, rfl, Or.inl rfl⟩
  · refine maybeQueueFromResult_shape _ _ _ _ _ h ?_
    intro q r wx heq
    obtain ⟨hcore, hsess, hdefs⟩ := createQuestion_ok_core _ _ _ _ _ _ _ _ _ _ _ heq
    exact ⟨hcore, hdefs⟩

end QuizEngine

namespace QuizEngine

lemma finish_core_aux (env : Env) (w : World) (ur : QuizSessionRecord)
    (definition : QuizDefinitionRecord) (nsv : Source) (ncv now : Nat) :
    ∃ r, sessionCore r = sessionCore ur ∧
      (maybeQueueGeneratedQuestion env (w.saveSession ur) ur definition nsv ncv now).2.loadSession
        ur.sessionId = some r ∧
      (maybeQueueGeneratedQuestion env (w.saveSession ur) ur definition nsv ncv
        now).2.definitions = w.definitions := by
  rcases hmq : maybeQueueGeneratedQuestion env (w.saveSession ur) ur definition nsv ncv now
    with ⟨r2, w2⟩
  obtain ⟨hcore, hdefs, hw⟩ := maybeQueue_shape env (w.saveSession ur) ur definition nsv ncv
    now r2 w2 hmq
  rcases hw with hw | hw
  · refine ⟨ur, rfl, ?_, ?_⟩
    · show w2.loadSession ur.sessionId = some ur
      rw [hw]
      exact World.loadSession_saveSession_self w ur
    · show w2.definitions = w.definitions
      rw [hdefs]
      rfl
  · have hsid : r2.sessionId = ur.sessionId := by
      have := congrArg (fun p => p.1) hcore
      simpa [sessionCore] using this
    refine ⟨r2, hcore, ?_, ?_⟩
    · show w2.loadSession ur.sessionId = some r2
      rw [← hsid]
      exact hw
    · show w2.definitions = w.definitions
      rw [hdefs]
      rfl

lemma finish_shape (env : Env) (w : World) (record : QuizSessionRecord)
    (definition : QuizDefinitionRecord) (selected : QuizQuestionRecord)
    (usedExisting queuedSelected : Bool) (availableRemaining : List QuizQuestionRecord)
    (nextCursor : Nat) (overrideSupplied : Bool) (now : Nat) :
    ∃ r, sessionCore r = sessionCore record ∧
      (getNextQuestionFinish env w record definition selected usedExisting queuedSelected
        availableRemaining nextCursor overrideSupplied now).2.loadSession record.sessionId
        = some r ∧
      (getNextQuestionFinish env w record definition selected usedExisting queuedSelected
        availableRemaining nextCursor overrideSupplied now).2.definitions = w.definitions := by
  unfold getNextQuestionFinish
  exact finish_core_aux env w
    { record with
      askedQuestionIds := record.askedQuestionIds ++ [selected.questionId]
      activeQuestionId := some selected.questionId
      activeQuestionServedAt := some now
      currentDifficulty := if record.isPreview then selected.difficulty
                           else record.currentDifficulty
      previewQuestionIds :=
        if record.isPreview ∧ selected.sourceSessionId = some record.sessionId
            ∧ selected.questionId ∉ record.previewQuestionIds then
          record.previewQuestionIds ++ [selected.questionId]
        else record.previewQuestionIds
      questionsSinceReview := record.questionsSinceReview + 1
      topicCursor := if overrideSupplied then record.topicCursor else nextCursor
      nextQuestionSource := determineNextQuestionSource record
        (usedExisting && !queuedSelected) availableRemaining }
    definition
    (determineNextQuestionSource record (usedExisting && !queuedSelected) availableRemaining)
    (if overrideSupplied then record.topicCursor else nextCursor) now

end QuizEngine

namespace QuizEngine

lemma serveMissedLoop_shape (w : World) (record : QuizSessionRecord) (now : Nat)
    (queue : List Nat) (res : Option QuizQuestionRecord) (rec2 : QuizSessionRecord)
    (w2 : World)
    (h : serveMissedLoop w record now queue = (res, rec2, w2)) :
    sessionCore rec2 = sessionCore record ∧ w2.definitions = w.definitions ∧
    ((res = none ∧ w2 = w) ∨
     (∃ q, res = some q ∧ w2.loadSession rec2.sessionId = some rec2)) := by
  induction queue generalizing record with
  | nil =>
    cases h
    exact ⟨rfl, rfl, Or.inl ⟨rfl, rfl⟩⟩
  | cons qid rest ih =>
    unfold serveMissedLoop at h
    cases hq : w.getQuizQuestion qid with
    | none =>
      simp only [hq] at h
      obtain ⟨hcore, hdefs, hrest⟩ := ih _ h
      exact ⟨hcore, hdefs, hrest⟩
    | some question =>
      simp only [hq, duplicateQuestionForReview, World.freshId] at h
      cases h
      refine ⟨rfl, rfl, Or.inr ⟨_, rfl, ?_⟩⟩
      exact World.loadSession_saveSession_self _ _

lemma serveMissed_shape (env : Env) (w : World) (record : QuizSessionRecord) (now : Nat)
    (res : Option QuizQuestionRecord) (rec2 : QuizSessionRecord) (w2 : World)
    (h : serveMissedQuestionIfReady env w record now = (res, rec2, w2)) :
    sessionCore rec2 = sessionCore record ∧ w2.definitions = w.definitions ∧
    ((res = none ∧ w2 = w) ∨
     (∃ q, res = some q ∧ w2.loadSession rec2.sessionId = some rec2)) := by
  unfold serveMissedQuestionIfReady at h
  split at h
  · cases h
    exact ⟨rfl, rfl, Or.inl ⟨rfl, rfl⟩⟩
  · split at h
    · cases h
      exact ⟨rfl, rfl, Or.inl ⟨rfl, rfl⟩⟩
    · exact serveMissedLoop_shape w record now record.missedQuestionIds res rec2 w2 h

lemma reuseOrGenerate_shape (env : Env) (w : World) (record : QuizSessionRecord)
    (definition : QuizDefinitionRecord) (qbank avail : List QuizQuestionRecord)
    (tt : String) (ed : Difficulty) (nc : Nat) (os : Bool) (now : Nat)
    (res : Except QuizError QuizQuestionRecord) (w2 : World)
    (h : getNextQuestionReuseOrGenerate env w record definition qbank avail tt ed nc os now
      = (res, w2)) :
    w2.definitions = w.definitions ∧
    (w2 = w ∨ ∃ r, sessionCore r = sessionCore record ∧
      w2.loadSession record.sessionId = some r) := by
  simp only [getNextQuestionReuseOrGenerate] at h
  repeat' split at h
  case h_1 =>
    rename_i x selected heq
    have hf := finish_shape env w (registerSlideUsage record selected) definition selected
      true false (avail.filter (fun q => q.questionId ≠ selected.questionId)) nc os now
    rw [h] at hf
    obtain ⟨r, hcore, hload, hdefs⟩ := hf
    refine ⟨hdefs, Or.inr ⟨r, ?_, ?_⟩⟩
    · rw [hcore, registerSlideUsage_core]
    · have hsid : (registerSlideUsage record selected).sessionId = record.sessionId := by
        have := congrArg (fun p => p.1) (registerSlideUsage_core record selected)
        simpa [sessionCore] using this
      rw [← hsid]
      exact hload
  case h_2.h_1 =>
    rename_i e wc heq
    cases h
    have hw := createQuestion_error_world _ _ _ _ _ _ _ _ _ _ heq
    exact ⟨by rw [hw], Or.inl hw⟩
  case h_2.h_2 =>
    rename_i q r2 wc heq
    obtain ⟨hcore2, hsess2, hdefs2⟩ := createQuestion_ok_core _ _ _ _ _ _ _ _ _ _ _ heq
    have hf := finish_shape env wc r2 definition q false false
      (avail.filter (fun x => x.questionId ≠ q.questionId)) nc os now
    rw [h] at hf
    obtain ⟨r, hcore, hload, hdefs⟩ := hf
    refine ⟨by rw [hdefs, hdefs2], Or.inr ⟨r, ?_, ?_⟩⟩
    · rw [hcore, hcore2]
    · have hsid : r2.sessionId = record.sessionId := by
        have := congrArg (fun p => p.1) hcore2
        simpa [sessionCore] using this
      rw [← hsid]
      exact hload

end QuizEngine

namespace QuizEngine

lemma finish_shape2 (env : Env) (w : World) (record : QuizSessionRecord)
    (definition : QuizDefinitionRecord) (selected : QuizQuestionRecord)
    (usedExisting queuedSelected : Bool) (availableRemaining : List QuizQuestionRecord)
    (nextCursor : Nat) (overrideSupplied : Bool) (now : Nat)
    (res : Except QuizError QuizQuestionRecord) (w2 : World)
    (h : getNextQuestionFinish env w record definition selected usedExisting queuedSelected
      availableRemaining nextCursor overrideSupplied now = (res, w2)) :
    ∃ r, sessionCore r = sessionCore record ∧ w2.loadSession record.sessionId = some r ∧
      w2.definitions = w.definitions := by
  obtain ⟨r, hcore, hload, hdefs⟩ := finish_shape env w record definition selected usedExisting
    queuedSelected availableRemaining nextCursor overrideSupplied now
  rw [h] at hload hdefs
  exact ⟨r, hcore, hload, hdefs⟩

lemma serve_shape (env : Env) (w : World) (record : QuizSessionRecord)
    (definition : QuizDefinitionRecord) (topo : Option String) (dio : Option Difficulty)
    (now : Nat) (res : Except QuizError QuizQuestionRecord) (w2 : World)
    (h : getNextQuestionServe env w record definition topo dio now = (res, w2)) :
    w2.definitions = w.definitions ∧
    (w2 = w ∨ ∃ r, sessionCore r = sessionCore record ∧
      w2.loadSession record.sessionId = some r) := by
  simp only [getNextQuestionServe] at h
  repeat' split at h
  case h_1.h_1.isTrue =>
    obtain ⟨r, hcore, hload, hdefs⟩ := finish_shape2 _ _ _ _ _ _ _ _ _ _ _ _ _ h
    exact ⟨hdefs, Or.inr ⟨r, hcore, hload⟩⟩
  case h_1.h_1.isFalse =>
    obtain ⟨r, hcore, hload, hdefs⟩ := finish_shape2 _ _ _ _ _ _ _ _ _ _ _ _ _ h
    exact ⟨hdefs, Or.inr ⟨r, hcore, hload⟩⟩
  case h_1.h_2.isTrue =>
    obtain ⟨hdefs, hrest⟩ := reuseOrGenerate_shape _ _ _ _ _ _ _ _ _ _ _ _ _ h
    exact ⟨hdefs, hrest⟩
  case h_1.h_2.isFalse =>
    obtain ⟨hdefs, hrest⟩ := reuseOrGenerate_shape _ _ _ _ _ _ _ _ _ _ _ _ _ h
    exact ⟨hdefs, hrest⟩
  case h_2.isTrue =>
    obtain ⟨hdefs, hrest⟩ := reuseOrGenerate_shape _ _ _ _ _ _ _ _ _ _ _ _ _ h
    exact ⟨hdefs, hrest⟩
  case h_2.isFalse =>
    obtain ⟨hdefs, hrest⟩ := reuseOrGenerate_shape _ _ _ _ _ _ _ _ _ _ _ _ _ h
    exact ⟨hdefs, hrest⟩

end QuizEngine

namespace QuizEngine

lemma afterActive_shape (env : Env) (w : World) (record : QuizSessionRecord)
    (topo : Option String) (dio : Option Difficulty) (now : Nat)
    (res : Except QuizError QuizQuestionRecord) (w2 : World)
    (h : getNextQuestionAfterActive env w record topo dio now = (res, w2)) :
    w2.definitions = w.definitions ∧
    (w2 = w ∨ ∃ r, sessionCore r = sessionCore record ∧
      w2.loadSession record.sessionId = some r) := by
  simp only [getNextQuestionAfterActive] at h
  split at h
  case h_1 rq x w1 heq =>
    cases h
    by_cases hp : record.isPreview
    · rw [if_pos hp] at heq
      exact Option.noConfusion (congrArg (fun p => p.1) heq)
    · rw [if_neg hp] at heq
      obtain ⟨hcore1, hdefs1, hres1⟩ := serveMissed_shape env w record now _ _ _ heq
      rcases hres1 with ⟨hno, _⟩ | ⟨q', _, hload⟩
      · cases hno
      · have hsid : x.sessionId = record.sessionId := by
          have := congrArg (fun p => p.1) hcore1
          simpa [sessionCore] using this
        refine ⟨hdefs1, Or.inr ⟨x, hcore1, ?_⟩⟩
        rw [← hsid]
        exact hload
  case h_2 rec2 w1 heq =>
    have hshape : sessionCore rec2 = sessionCore record ∧ w1.definitions = w.definitions ∧
        w1 = w := by
      by_cases hp : record.isPreview
      · rw [if_pos hp] at heq
        injection heq with h1 hrest
        injection hrest with h2 h3
        subst h2
        subst h3
        exact ⟨rfl, rfl, rfl⟩
      · rw [if_neg hp] at heq
        obtain ⟨hcore1, hdefs1, hres1⟩ := serveMissed_shape env w record now _ _ _ heq
        rcases hres1 with ⟨_, hw1⟩ | ⟨q', hq', _⟩
        · exact ⟨hcore1, hdefs1, hw1⟩
        · cases hq'
    obtain ⟨hcore1, hdefs1, hw1⟩ := hshape
    subst hw1
    have hsid : rec2.sessionId = record.sessionId := by
      have := congrArg (fun p => p.1) hcore1
      simpa [sessionCore] using this
    split at h
    · cases h
      exact ⟨rfl, Or.inl rfl⟩
    · obtain ⟨hdefs2, hrest2⟩ := serve_shape _ _ _ _ _ _ _ _ _ h
      refine ⟨hdefs2, ?_⟩
      rcases hrest2 with hw2 | ⟨r, hcore, hload⟩
      · exact Or.inl hw2
      · refine Or.inr ⟨r, ?_, ?_⟩
        · rw [hcore, hcore1]
        · rw [← hsid]
          exact hload

end QuizEngine

namespace QuizEngine

lemma enforce_cases (w : World) (s : QuizSessionRecord) (now : Nat) :
    enforceTimeConstraints w s now = (s, w) ∨
    (enforceTimeConstraints w s now =
      (markCompleted s .timed_out now, w.saveSession (markCompleted s .timed_out now)) ∧
     s.status = .in_progress ∧ s.mode = .assessment ∧
     ∃ dl, s.deadline = some dl ∧ now > dl) := by
  unfold enforceTimeConstraints
  split
  · exact Or.inl rfl
  case isFalse hmode =>
    split
    · exact Or.inl rfl
    case isFalse hstat =>
      split
      case h_1 dl hdl =>
        split
        case isTrue hlt =>
          refine Or.inr ⟨rfl, ?_, ?_, dl, hdl, hlt⟩
          · by_contra hc
            simp_all
          · by_contra hc
            simp_all
        case isFalse => exact Or.inl rfl
      case h_2 => exact Or.inl rfl

lemma getNextQuestion_shape (env : Env) (w : World) (sid : Nat)
    (topo : Option String) (dio : Option Difficulty) (now : Nat)
    (res : Except QuizError QuizQuestionRecord) (w2 : World)
    (h : getNextQuestion env w sid topo dio now = (res, w2)) :
    w2.definitions = w.definitions ∧
    (w2 = w ∨ ∃ s0, w.loadSession sid = some s0 ∧
      ((∃ dl, s0.deadline = some dl ∧ now > dl ∧ s0.mode = .assessment ∧
         s0.status = .in_progress ∧
         w2.loadSession sid = some (markCompleted s0 .timed_out now)) ∨
       ∃ r, sessionCore r = sessionCore s0 ∧ w2.loadSession sid = some r)) := by
  cases hls : w.loadSession sid with
  | none =>
    simp only [getNextQuestion, hls] at h
    cases h
    exact ⟨rfl, Or.inl rfl⟩
  | some s0 =>
    have hsid0 : s0.sessionId = sid := World.loadSession_key w sid s0 hls
    simp only [getNextQuestion, hls] at h
    rcases enforce_cases w s0 now with henf | ⟨henf, hstat, hmode, dl, hdl, hlt⟩
    · simp only [henf] at h
      split at h
      · cases h
        exact ⟨rfl, Or.inl rfl⟩
      · split at h
        case h_1 activeId hact =>
          split at h
          case h_1 existing hex =>
            cases h
            exact ⟨rfl, Or.inl rfl⟩
          case h_2 hex =>
            obtain ⟨hdefs, hrest⟩ := afterActive_shape _ _ _ _ _ _ _ _ h
            refine ⟨hdefs, ?_⟩
            rcases hrest with hw2 | ⟨r, hcore, hload⟩
            · exact Or.inl hw2
            · refine Or.inr ⟨s0, rfl, Or.inr ⟨r, hcore, ?_⟩⟩
              rw [← hsid0]
              exact hload
        case h_2 hact =>
          obtain ⟨hdefs, hrest⟩ := afterActive_shape _ _ _ _ _ _ _ _ h
          refine ⟨hdefs, ?_⟩
          rcases hrest with hw2 | ⟨r, hcore, hload⟩
          · exact Or.inl hw2
          · refine Or.inr ⟨s0, rfl, Or.inr ⟨r, hcore, ?_⟩⟩
            rw [← hsid0]
            exact hload
    · simp only [henf, markCompleted] at h
      simp at h
      obtain ⟨hres, hw2⟩ := h
      subst hw2
      refine ⟨rfl, Or.inr ⟨s0, rfl, Or.inl ⟨dl, hdl, hlt, hmode, hstat, ?_⟩⟩⟩
      have := World.loadSession_saveSession_self w (markCompleted s0 .timed_out now)
      have hmsid : (markCompleted s0 .timed_out now).sessionId = sid := hsid0
      rw [hmsid] at this
      exact this

end QuizEngine

namespace QuizEngine

lemma applyAssessmentTermination_sessionId (d : QuizDefinitionRecord)
    (r : QuizSessionRecord) (now : Nat) :
    (applyAssessmentTermination d r now).sessionId = r.sessionId := by
  simp only [applyAssessmentTermination]
  repeat' split
  all_goals rfl

lemma submitAnswerFinish_stored (w : World) (u : QuizSessionRecord)
    (question : QuizQuestionRecord) (ans : String) (ic : Bool)
    (rat : Option String) (rms : Option Nat)
    (res : Except QuizError AnswerOutcome) (w2 : World)
    (h : submitAnswerFinish w u question ans ic rat rms = (res, w2)) :
    w2.definitions = w.definitions ∧ w2.questions = w.questions ∧
    w2.nextUuid = w.nextUuid ∧
    ∃ r, sessionCore r = sessionCore u ∧ r.askedQuestionIds = u.askedQuestionIds ∧
      r.queuedQuestionId = u.queuedQuestionId ∧ w2.loadSession u.sessionId = some r := by
  have hsnd := congrArg Prod.snd h
  rw [submitAnswerFinish_snd] at hsnd
  subst hsnd
  refine ⟨rfl, rfl, rfl, ⟨(if u.status = .in_progress then u
      else { u with summary := some (buildSummary w u) }), ?_, ?_, ?_, ?_⟩⟩
  · split <;> rfl
  · split <;> rfl
  · split <;> rfl
  · have hid : (if u.status = .in_progress then u
        else { u with summary := some (buildSummary w u) }).sessionId = u.sessionId := by
      split <;> rfl
    have hload := World.loadSession_saveSession_self w
      (if u.status = .in_progress then u else { u with summary := some (buildSummary w u) })
    rw [hid] at hload
    exact hload

lemma submitAnswer_shape (env : Env) (w : World) (sid qid : Nat) (ans : String) (now : Nat)
    (res : Except QuizError AnswerOutcome) (w2 : World)
    (h : submitAnswer env w sid qid ans now = (res, w2)) :
    w2.definitions = w.definitions ∧ w2.questions = w.questions ∧
    w2.nextUuid = w.nextUuid ∧
    (w2 = w ∨ ∃ s0, w.loadSession sid = some s0 ∧
      ((∃ dl, s0.deadline = some dl ∧ now > dl ∧ s0.mode = .assessment ∧
         s0.status = .in_progress ∧
         w2.loadSession sid = some (markCompleted s0 .timed_out now)) ∨
       (∃ question u r, w.getQuizQuestion qid = some question ∧
         s0.status = .in_progress ∧
         (s0.attempts.any fun a => decide (a.questionId = qid)) = false ∧
         ((s0.mode ≠ .assessment ∧ u = submitUpdatedRecord env s0 question ans now) ∨
          (s0.mode = .assessment ∧ ∃ dfn, w.loadQuizDefinition s0.quizId = some dfn ∧
            u = applyAssessmentTermination dfn (submitUpdatedRecord env s0 question ans now)
              now)) ∧
         sessionCore r = sessionCore u ∧ r.askedQuestionIds = u.askedQuestionIds ∧
         r.queuedQuestionId = u.queuedQuestionId ∧ w2.loadSession sid = some r))) := by
  cases hls : w.loadSession sid with
  | none =>
    simp only [submitAnswer, hls] at h
    cases h
    exact ⟨rfl, rfl, rfl, Or.inl rfl⟩
  | some s0 =>
    have hsid0 : s0.sessionId = sid := World.loadSession_key w sid s0 hls
    simp only [submitAnswer, hls] at h
    rcases enforce_cases w s0 now with henf | ⟨henf, hstat, hmode, dl, hdl, hlt⟩
    · simp only [henf] at h
      split at h
      · cases h
        exact ⟨rfl, rfl, rfl, Or.inl rfl⟩
      case isFalse hstat0 =>
        have hstat : s0.status = .in_progress := not_not.mp hstat0
        split at h
        case h_1 hq =>
          cases h
          exact ⟨rfl, rfl, rfl, Or.inl rfl⟩
        case h_2 question hq =>
          split at h
          case isTrue hans =>
            cases h
            exact ⟨rfl, rfl, rfl, Or.inl rfl⟩
          case isFalse hans0 =>
            have hans : (s0.attempts.any fun a => decide (a.questionId = qid)) = false :=
              Bool.eq_false_iff.mpr hans0
            split at h
            case isTrue hmode =>
              split at h
              case h_1 hdfn =>
                cases h
                exact ⟨rfl, rfl, rfl, Or.inl rfl⟩
              case h_2 dfn hdfn =>
                obtain ⟨hdefs, hqs, hnu, r, hcore, hask, hqd, hload⟩ :=
                  submitAnswerFinish_stored _ _ _ _ _ _ _ _ _ h
                have husid : (applyAssessmentTermination dfn
                    (submitUpdatedRecord env s0 question ans now) now).sessionId = sid := by
                  rw [applyAssessmentTermination_sessionId]
                  exact hsid0
                rw [husid] at hload
                exact ⟨hdefs, hqs, hnu, Or.inr ⟨s0, rfl, Or.inr ⟨question, _, r, hq, hstat,
                  hans, Or.inr ⟨hmode, dfn, hdfn, rfl⟩, hcore, hask, hqd, hload⟩⟩⟩
            case isFalse hmode =>
              obtain ⟨hdefs, hqs, hnu, r, hcore, hask, hqd, hload⟩ :=
                submitAnswerFinish_stored _ _ _ _ _ _ _ _ _ h
              have husid : (submitUpdatedRecord env s0 question ans now).sessionId = sid :=
                hsid0
              rw [husid] at hload
              exact ⟨hdefs, hqs, hnu, Or.inr ⟨s0, rfl, Or.inr ⟨question, _, r, hq, hstat,
                hans, Or.inl ⟨hmode, rfl⟩, hcore, hask, hqd, hload⟩⟩⟩
    · simp only [henf, markCompleted] at h
      simp at h
      obtain ⟨hres, hw2⟩ := h
      subst hw2
      refine ⟨rfl, rfl, rfl, Or.inr ⟨s0, rfl, Or.inl ⟨dl, hdl, hlt, hmode, hstat, ?_⟩⟩⟩
      have hload := World.loadSession_saveSession_self w (markCompleted s0 .timed_out now)
      have hmsid : (markCompleted s0 .timed_out now).sessionId = sid := hsid0
      rw [hmsid] at hload
      exact hload

end QuizEngine

namespace QuizEngine

/-- The attempts-ledger invariant of §8: attempt count matches the counter and
attempt question ids are pairwise distinct. -/
def ledgerOk (s : QuizSessionRecord) : Prop :=
  s.attempts.length = s.attemptsUsed ∧ (s.attempts.map (fun a => a.questionId)).Nodup

lemma sessionCore_attempts {r s : QuizSessionRecord} (h : sessionCore r = sessionCore s) :
    r.attempts = s.attempts ∧ r.attemptsUsed = s.attemptsUsed := by
  simp only [sessionCore, Prod.mk.injEq] at h
  exact ⟨h.2.2.2.2.2.1, h.2.2.2.2.2.2⟩

lemma ledgerOk_of_core {r u : QuizSessionRecord} (h : sessionCore r = sessionCore u)
    (hu : ledgerOk u) : ledgerOk r := by
  obtain ⟨ha, hn⟩ := sessionCore_attempts h
  unfold ledgerOk at hu ⊢
  rw [ha, hn]
  exact hu

lemma ledgerOk_markCompleted (s : QuizSessionRecord) (st : Status) (now : Nat)
    (h : ledgerOk s) : ledgerOk (markCompleted s st now) := h

lemma applyAssessmentTermination_attempts (d : QuizDefinitionRecord)
    (r : QuizSessionRecord) (now : Nat) :
    (applyAssessmentTermination d r now).attempts = r.attempts ∧
    (applyAssessmentTermination d r now).attemptsUsed = r.attemptsUsed := by
  simp only [applyAssessmentTermination]
  repeat' split
  all_goals exact ⟨rfl, rfl⟩

lemma submitUpdatedRecord_ledger (env : Env) (s : QuizSessionRecord)
    (question : QuizQuestionRecord) (ans : String) (now : Nat)
    (hans : (s.attempts.any fun a => decide (a.questionId = question.questionId)) = false)
    (h : ledgerOk s) : ledgerOk (submitUpdatedRecord env s question ans now) := by
  obtain ⟨hlen, hnodup⟩ := h
  have hnone : ∀ a ∈ s.attempts, ¬(a.questionId = question.questionId) := by
    simpa using hans
  constructor
  · show (s.attempts ++ [submitAttempt s question ans now]).length = s.attemptsUsed + 1
    simp [hlen]
  · show ((s.attempts ++ [submitAttempt s question ans now]).map
      (fun a => a.questionId)).Nodup
    rw [List.map_append, List.nodup_append]
    refine ⟨hnodup, List.nodup_singleton _, ?_⟩
    show (s.attempts.map (fun a => a.questionId)).Disjoint [question.questionId]
    rw [List.disjoint_singleton]
    intro hmem
    rw [List.mem_map] at hmem
    obtain ⟨a, hamem, haq⟩ := hmem
    exact hnone a hamem haq

lemma applyCall_ledger (env : Env) (sid : Nat) (w : World) (c : Call)
    (hinv : ∀ s, w.loadSession sid = some s → ledgerOk s) :
    ∀ s, (applyCall env sid w c).loadSession sid = some s → ledgerOk s := by
  intro s hs
  cases c with
  | getNext topo dio now =>
    rcases hg : getNextQuestion env w sid topo dio now with ⟨res, w2⟩
    have hs2 : w2.loadSession sid = some s := by
      simpa [applyCall, hg] using hs
    obtain ⟨-, hrest⟩ := getNextQuestion_shape _ _ _ _ _ _ _ _ hg
    rcases hrest with hw2 | ⟨s0, hs0, hcase⟩
    · subst hw2
      exact hinv s hs2
    · have hled0 := hinv s0 hs0
      rcases hcase with ⟨dl, _, _, _, _, hload⟩ | ⟨r, hcore, hload⟩
      · rw [hs2] at hload
        injection hload with hsr
        subst hsr
        exact ledgerOk_markCompleted _ _ _ hled0
      · rw [hs2] at hload
        injection hload with hsr
        subst hsr
        exact ledgerOk_of_core hcore hled0
  | submit qid ans now =>
    rcases hg : submitAnswer env w sid qid ans now with ⟨res, w2⟩
    have hs2 : w2.loadSession sid = some s := by
      simpa [applyCall, hg] using hs
    obtain ⟨-, -, -, hrest⟩ := submitAnswer_shape _ _ _ _ _ _ _ _ hg
    rcases hrest with hw2 | ⟨s0, hs0, hcase⟩
    · subst hw2
      exact hinv s hs2
    · have hled0 := hinv s0 hs0
      rcases hcase with ⟨dl, _, _, _, _, hload⟩ |
        ⟨question, u, r, hq, hstat, hans, hu, hcore, -, -, hload⟩
      · rw [hs2] at hload
        injection hload with hsr
        subst hsr
        exact ledgerOk_markCompleted _ _ _ hled0
      · rw [hs2] at hload
        injection hload with hsr
        subst hsr
        have hqid : question.questionId = qid := getQuizQuestion_key w qid question hq
        have hans2 : (s0.attempts.any fun a =>
            decide (a.questionId = question.questionId)) = false := by
          rw [hqid]
          exact hans
        have hu_led : ledgerOk u := by
          rcases hu with ⟨-, rfl⟩ | ⟨-, dfn, -, rfl⟩
          · exact submitUpdatedRecord_ledger env s0 question ans now hans2 hled0
          · have hsub := submitUpdatedRecord_ledger env s0 question ans now hans2 hled0
            obtain ⟨ha, hn⟩ := applyAssessmentTermination_attempts dfn
              (submitUpdatedRecord env s0 question ans now) now
            unfold ledgerOk at hsub ⊢
            rw [ha, hn]
            exact hsub
        exact ledgerOk_of_core hcore hu_led

lemma runCalls_ledger (env : Env) (sid : Nat) (calls : List Call) :
    ∀ w : World, (∀ s, w.loadSession sid = some s → ledgerOk s) →
      ∀ s, (runCalls env sid w calls).loadSession sid = some s → ledgerOk s := by
  induction calls with
  | nil =>
    intro w hinv
    exact hinv
  | cons c cs ih =>
    intro w hinv
    exact ih (applyCall env sid w c) (applyCall_ledger env sid w c hinv)

lemma startSession_ok (env : Env) (w : World) (sid qzId uid : Nat)
    (mode? : Option Mode) (d0 : Option Difficulty) (prev : Bool) (now : Nat)
    (s0 : QuizSessionRecord) (w1 : World)
    (h : startSession env w sid qzId uid mode? d0 prev now = (Except.ok s0, w1)) :
    ∃ definition, w.loadQuizDefinition qzId = some definition ∧
      s0.sessionId = sid ∧ s0.quizId = qzId ∧ s0.status = .in_progress ∧
      s0.mode = mode?.getD definition.defaultMode ∧
      s0.attempts = [] ∧ s0.attemptsUsed = 0 ∧
      s0.askedQuestionIds = [] ∧ s0.queuedQuestionId = none ∧
      s0.deadline = (if mode?.getD definition.defaultMode = .assessment then
          match definition.assessmentTimeLimitMinutes with
          | some minutes => if minutes = 0 then none else some (now + minutes * 60000)
          | none => none
        else none) ∧
      ¬(mode?.getD definition.defaultMode = .assessment ∧
        definition.assessmentNumQuestions = none) ∧
      w1 = w.saveSession s0 := by
  unfold startSession at h
  split at h
  · simp at h
  · split at h
    case h_1 => simp at h
    case h_2 definition hdfn =>
      by_cases hguard : mode?.getD definition.defaultMode = .assessment ∧
          definition.assessmentNumQuestions = none
      · rw [if_pos hguard] at h
        simp at h
      · rw [if_neg hguard] at h
        simp only [Prod.mk.injEq, Except.ok.injEq] at h
        obtain ⟨hrec, hw⟩ := h
        subst hrec
        subst hw
        exact ⟨definition, hdfn, rfl, rfl, rfl, rfl, rfl, rfl, rfl, rfl, rfl, hguard, rfl⟩

end QuizEngine

namespace QuizEngine

/-! ## C6 — the attempts ledger invariant -/

/-- C6: for every session created by `startSession` and any subsequent
sequence of engine calls (`getNextQuestion` / `submitAnswer`, successful or
not) against it, the stored session's attempt list is exactly as long as its
`attemptsUsed` counter and no two recorded attempts share a `questionId`:
`submit_answer` appends one attempt and bumps the counter together, and its
already-answered guard rejects a second attempt on the same question id. -/
theorem quiz_C6_attempt_ledger (env : Env) (w : World) (sid qzId uid : Nat)
    (mode? : Option Mode) (d0 : Option Difficulty) (prev : Bool) (now : Nat)
    (s0 : QuizSessionRecord) (w1 : World) (calls : List Call) (s : QuizSessionRecord)
    (hstart : startSession env w sid qzId uid mode? d0 prev now = (Except.ok s0, w1))
    (hload : (runCalls env sid w1 calls).loadSession sid = some s) :
    s.attempts.length = s.attemptsUsed ∧
    (s.attempts.map (fun a => a.questionId)).Nodup := by
  obtain ⟨dfn, hdfn, hsid, hquiz, hstat, hmode, hatt, hused, -, -, hdl, hguard, hw1⟩ :=
    startSession_ok env w sid qzId uid mode? d0 prev now s0 w1 hstart
  have hbase : ∀ t, w1.loadSession sid = some t → ledgerOk t := by
    intro t ht
    subst hw1
    have hself := World.loadSession_saveSession_self w s0
    rw [hsid] at hself
    rw [hself] at ht
    injection ht with h
    subst h
    constructor
    · rw [hatt, hused]
      exact rfl
    · rw [hatt]
      simp
  exact runCalls_ledger env sid calls w1 hbase s hload

/-- An assessment-mode quiz definition with two questions required, no
attempt cap and no time limit. -/
def assessDefinition : QuizDefinitionRecord :=
  { quizId := 2, name := some "exam", topics := ["algebra"], defaultMode := .assessment
    initialDifficulty := .medium, assessmentNumQuestions := some 2
    assessmentTimeLimitMinutes := none, assessmentMaxAttempts := none }

/-- World holding only the assessment definition. -/
def assessWorld0 : World :=
  { definitions := [assessDefinition], questions := [], sessions := [], nextUuid := 500 }

/-- The result of starting an assessment session on the fixture. -/
def assessStart : Except QuizError QuizSessionRecord × World :=
  startSession demoEnv assessWorld0 9 2 3 (some .assessment) none false 0

/-- The session record created by `assessStart`. -/
def assessSession0 : QuizSessionRecord :=
  match assessStart.1 with
  | .ok r => r
  | .error _ => practiceSession

/-- The fixture calls: serve a generated question, answer it, then ask again. -/
def assessCalls : List Call :=
  [Call.getNext none none 1, Call.submit 500 "A" 2, Call.getNext none none 3]

/-- The stored session after running `assessCalls`. -/
def assessAfter : QuizSessionRecord :=
  ((runCalls demoEnv 9 assessStart.2 assessCalls).loadSession 9).getD practiceSession

/-- Witness for C6: the concrete assessment fixture run keeps the ledger
invariant. -/
theorem quiz_C6_witness :
    assessAfter.attempts.length = assessAfter.attemptsUsed ∧
    (assessAfter.attempts.map (fun a => a.questionId)).Nodup :=
  quiz_C6_attempt_ledger demoEnv assessWorld0 9 2 3 (some .assessment) none false 0
    assessSession0 assessStart.2 assessCalls assessAfter rfl rfl

end QuizEngine

namespace QuizEngine

/-! ## C1 — assessment termination on the Nth attempt -/

lemma sessionCore_fields {r s : QuizSessionRecord} (h : sessionCore r = sessionCore s) :
    r.sessionId = s.sessionId ∧ r.quizId = s.quizId ∧ r.mode = s.mode ∧
    r.status = s.status ∧ r.deadline = s.deadline ∧ r.attempts = s.attempts ∧
    r.attemptsUsed = s.attemptsUsed := by
  simp only [sessionCore, Prod.mk.injEq] at h
  exact h

/-- The termination invariant of an assessment session with question count
`N`, no attempt cap and no deadline: the session is `completed` exactly when
at least `N` attempts are recorded, and is otherwise still `in_progress`. -/
def assessInv (qzId N : Nat) (s : QuizSessionRecord) : Prop :=
  s.mode = .assessment ∧ s.deadline = none ∧ s.quizId = qzId ∧
  (s.status = .in_progress ∨ s.status = .completed) ∧
  (s.status = .completed ↔ N ≤ s.attempts.length)

lemma assessInv_of_core {qzId N : Nat} {r u : QuizSessionRecord}
    (h : sessionCore r = sessionCore u) (hu : assessInv qzId N u) : assessInv qzId N r := by
  obtain ⟨-, hquiz, hmode, hstat, hdl, hatt, -⟩ := sessionCore_fields h
  unfold assessInv at hu ⊢
  rw [hmode, hdl, hquiz, hstat, hatt]
  exact hu

lemma submitUpdatedRecord_fields (env : Env) (s : QuizSessionRecord)
    (question : QuizQuestionRecord) (ans : String) (now : Nat) :
    (submitUpdatedRecord env s question ans now).status = s.status ∧
    (submitUpdatedRecord env s question ans now).mode = s.mode ∧
    (submitUpdatedRecord env s question ans now).deadline = s.deadline ∧
    (submitUpdatedRecord env s question ans now).quizId = s.quizId ∧
    (submitUpdatedRecord env s question ans now).attempts
      = s.attempts ++ [submitAttempt s question ans now] :=
  ⟨rfl, rfl, rfl, rfl, rfl⟩

/-- With a question count, no attempt cap and no deadline,
`applyAssessmentTermination` reduces to the question-count check alone. -/
lemma applyAssessmentTermination_eval (d : QuizDefinitionRecord) (r : QuizSessionRecord)
    (now N : Nat) (hq : d.assessmentNumQuestions = some N)
    (hm : d.assessmentMaxAttempts = none) (hdl : r.deadline = none) :
    applyAssessmentTermination d r now =
      if N ≠ 0 ∧ r.attempts.length ≥ N then markCompleted r .completed now else r := by
  simp only [applyAssessmentTermination, hq, hm]
  by_cases hcond : N ≠ 0 ∧ r.attempts.length ≥ N
  · simp [hcond, deadlinePassed, hdl, markCompleted]
  · simp [hcond, deadlinePassed, hdl, markCompleted]

lemma applyCall_assessInv (env : Env) (sid qzId N : Nat) (dfn : QuizDefinitionRecord)
    (hq : dfn.assessmentNumQuestions = some N) (hm : dfn.assessmentMaxAttempts = none)
    (hN : 1 ≤ N) (w : World) (c : Call)
    (hdfn : w.loadQuizDefinition qzId = some dfn)
    (hinv : ∀ s, w.loadSession sid = some s → assessInv qzId N s) :
    (applyCall env sid w c).loadQuizDefinition qzId = some dfn ∧
    ∀ s, (applyCall env sid w c).loadSession sid = some s → assessInv qzId N s := by
  cases c with
  | getNext topo dio now =>
    rcases hg : getNextQuestion env w sid topo dio now with ⟨res, w2⟩
    have happ : applyCall env sid w (Call.getNext topo dio now) = w2 := by
      simp [applyCall, hg]
    rw [happ]
    obtain ⟨hdefs, hrest⟩ := getNextQuestion_shape _ _ _ _ _ _ _ _ hg
    have hdfn2 : w2.loadQuizDefinition qzId = some dfn := by
      unfold World.loadQuizDefinition at hdfn ⊢
      rw [hdefs]
      exact hdfn
    refine ⟨hdfn2, ?_⟩
    intro s hs
    rcases hrest with hw2 | ⟨s0, hs0, hcase⟩
    · subst hw2
      exact hinv s hs
    · have hinv0 := hinv s0 hs0
      rcases hcase with ⟨dl, hdl2, -, -, -, -⟩ | ⟨r, hcore, hload⟩
      · rw [hinv0.2.1] at hdl2
        cases hdl2
      · rw [hs] at hload
        injection hload with hsr
        subst hsr
        exact assessInv_of_core hcore hinv0
  | submit qid ans now =>
    rcases hg : submitAnswer env w sid qid ans now with ⟨res, w2⟩
    have happ : applyCall env sid w (Call.submit qid ans now) = w2 := by
      simp [applyCall, hg]
    rw [happ]
    obtain ⟨hdefs, -, -, hrest⟩ := submitAnswer_shape _ _ _ _ _ _ _ _ hg
    have hdfn2 : w2.loadQuizDefinition qzId = some dfn := by
      unfold World.loadQuizDefinition at hdfn ⊢
      rw [hdefs]
      exact hdfn
    refine ⟨hdfn2, ?_⟩
    intro s hs
    rcases hrest with hw2 | ⟨s0, hs0, hcase⟩
    · subst hw2
      exact hinv s hs
    · have hinv0 := hinv s0 hs0
      rcases hcase with ⟨dl, hdl2, -, -, -, -⟩ |
        ⟨question, u, r, hqq, hstat0, hans, hu, hcore, -, -, hload⟩
      · rw [hinv0.2.1] at hdl2
        cases hdl2
      · rcases hu with ⟨hmode_ne, -⟩ | ⟨hmode_eq, dfn2, hdfn3, hueq⟩
        · exact absurd hinv0.1 hmode_ne
        · have hdfneq : dfn2 = dfn := by
            rw [hinv0.2.2.1] at hdfn3
            rw [hdfn] at hdfn3
            injection hdfn3 with h
            exact h.symm
          rw [hdfneq] at hueq
          subst hueq
          have hupd := submitUpdatedRecord_fields env s0 question ans now
          have hudl : (submitUpdatedRecord env s0 question ans now).deadline = none := by
            rw [hupd.2.2.1]
            exact hinv0.2.1
          have heval := applyAssessmentTermination_eval dfn
            (submitUpdatedRecord env s0 question ans now) now N hq hm hudl
          have hu_inv : assessInv qzId N
              (applyAssessmentTermination dfn
                (submitUpdatedRecord env s0 question ans now) now) := by
            rw [heval]
            by_cases hcond : N ≠ 0 ∧
                (submitUpdatedRecord env s0 question ans now).attempts.length ≥ N
            · rw [if_pos hcond]
              refine ⟨?_, ?_, ?_, Or.inr rfl, ?_⟩
              · show (submitUpdatedRecord env s0 question ans now).mode = .assessment
                rw [hupd.2.1]
                exact hinv0.1
              · show (submitUpdatedRecord env s0 question ans now).deadline = none
                exact hudl
              · show (submitUpdatedRecord env s0 question ans now).quizId = qzId
                rw [hupd.2.2.2.1]
                exact hinv0.2.2.1
              · exact ⟨fun _ => hcond.2, fun _ => rfl⟩
            · rw [if_neg hcond]
              have hnz : N ≠ 0 := by omega
              have hlt : ¬ N ≤ (submitUpdatedRecord env s0 question ans now).attempts.length :=
                fun hge => hcond ⟨hnz, hge⟩
              refine ⟨?_, hudl, ?_, Or.inl ?_, ?_⟩
              · rw [hupd.2.1]
                exact hinv0.1
              · rw [hupd.2.2.2.1]
                exact hinv0.2.2.1
              · rw [hupd.1]
                exact hstat0
              · constructor
                · intro hc
                  rw [hupd.1, hstat0] at hc
                  exact absurd hc (by decide)
                · intro hge
                  exact absurd hge hlt
          rw [hs] at hload
          injection hload with hsr
          subst hsr
          exact assessInv_of_core hcore hu_inv

lemma runCalls_assessInv (env : Env) (sid qzId N : Nat) (dfn : QuizDefinitionRecord)
    (hq : dfn.assessmentNumQuestions = some N) (hm : dfn.assessmentMaxAttempts = none)
    (hN : 1 ≤ N) (calls : List Call) :
    ∀ w : World, w.loadQuizDefinition qzId = some dfn →
      (∀ s, w.loadSession sid = some s → assessInv qzId N s) →
      (runCalls env sid w calls).loadQuizDefinition qzId = some dfn ∧
      ∀ s, (runCalls env sid w calls).loadSession sid = some s → assessInv qzId N s := by
  induction calls with
  | nil =>
    intro w h1 h2
    exact ⟨h1, h2⟩
  | cons c cs ih =>
    intro w h1 h2
    obtain ⟨h1x, h2x⟩ := applyCall_assessInv env sid qzId N dfn hq hm hN w c h1 h2
    exact ih (applyCall env sid w c) h1x h2x

/-- C1 (amended): for a session started in assessment mode on a definition
with `assessmentNumQuestions = N` (N ≥ 1), no attempt cap and no time limit,
after any sequence of engine calls the stored session is `completed` exactly
when at least `N` attempts are recorded, and is otherwise still
`in_progress`.  (The original claim is refuted by `quiz_C1_counterexample`:
an `assessmentMaxAttempts` cap below `N` completes the session on an earlier
attempt, and the code's falsy-zero check means `N = 0` never completes.) -/
theorem quiz_C1_assessment_termination (env : Env) (w : World) (sid qzId uid N : Nat)
    (d0 : Option Difficulty) (prev : Bool) (now : Nat) (dfn : QuizDefinitionRecord)
    (s0 : QuizSessionRecord) (w1 : World) (calls : List Call) (s : QuizSessionRecord)
    (hdfn : w.loadQuizDefinition qzId = some dfn)
    (hq : dfn.assessmentNumQuestions = some N) (hN : 1 ≤ N)
    (hm : dfn.assessmentMaxAttempts = none)
    (htl : dfn.assessmentTimeLimitMinutes = none)
    (hstart : startSession env w sid qzId uid (some .assessment) d0 prev now
      = (Except.ok s0, w1))
    (hload : (runCalls env sid w1 calls).loadSession sid = some s) :
    (s.status = .completed ↔ N ≤ s.attempts.length) ∧
    (s.status = .in_progress ∨ s.status = .completed) := by
  obtain ⟨dfn', hdfn', hsid, hquiz, hstat, hmode, hatt, hused, -, -, hdl, hguard, hw1⟩ :=
    startSession_ok env w sid qzId uid (some .assessment) d0 prev now s0 w1 hstart
  have hdfneq : dfn' = dfn := Option.some.inj (hdfn'.symm.trans hdfn)
  rw [hdfneq] at hmode hdl hguard
  subst hw1
  have hmode' : s0.mode = .assessment := by
    rw [hmode]
    exact rfl
  have hdl' : s0.deadline = none := by
    rw [hdl]
    simp [htl]
  have hbase : ∀ t, (w.saveSession s0).loadSession sid = some t → assessInv qzId N t := by
    intro t ht
    have hself := World.loadSession_saveSession_self w s0
    rw [hsid] at hself
    rw [hself] at ht
    injection ht with hts
    subst hts
    refine ⟨hmode', hdl', hquiz, Or.inl hstat, ?_⟩
    constructor
    · intro hc
      rw [hstat] at hc
      exact absurd hc (by decide)
    · intro hge
      rw [hatt] at hge
      simp at hge
      omega
  have hd1 : (w.saveSession s0).loadQuizDefinition qzId = some dfn := by
    rw [World.loadQuizDefinition_saveSession]
    exact hdfn
  obtain ⟨-, hfin⟩ := runCalls_assessInv env sid qzId N dfn hq hm hN calls
    (w.saveSession s0) hd1 hbase
  have hs := hfin s hload
  exact ⟨hs.2.2.2.2, hs.2.2.2.1⟩

end QuizEngine

namespace QuizEngine

/-- Witness for C1: the two-question uncapped assessment fixture run
satisfies the termination equivalence. -/
theorem quiz_C1_witness :
    (assessAfter.status = Status.completed ↔ 2 ≤ assessAfter.attempts.length) ∧
    (assessAfter.status = .in_progress ∨ assessAfter.status = .completed) :=
  quiz_C1_assessment_termination demoEnv assessWorld0 9 2 3 2 none false 0 assessDefinition
    assessSession0 assessStart.2 assessCalls assessAfter rfl rfl (by decide) rfl rfl rfl rfl

/-- Assessment definition whose attempt cap (1) is below its question
count (2). -/
def capDefinition : QuizDefinitionRecord :=
  { quizId := 3, name := some "capped", topics := ["algebra"], defaultMode := .assessment
    initialDifficulty := .medium, assessmentNumQuestions := some 2
    assessmentTimeLimitMinutes := none, assessmentMaxAttempts := some 1 }

/-- World holding only the capped assessment definition. -/
def capWorld0 : World :=
  { definitions := [capDefinition], questions := [], sessions := [], nextUuid := 700 }

/-- The stored session after starting a capped assessment, serving one
generated question (id 700) and answering it. -/
def capAfter : QuizSessionRecord :=
  ((runCalls demoEnv 11
      (startSession demoEnv capWorld0 11 3 3 (some .assessment) none false 0).2
      [Call.getNext none none 1, Call.submit 700 "A" 2]).loadSession 11).getD
    practiceSession

/-- Counterexample to C1 as stated: with `assessmentNumQuestions = N = 2`
and no time limit, the session is already `completed` after a single
recorded attempt, because the separate `assessmentMaxAttempts = 1` check of
`submit_answer` fires first — refuting "completed ... never after fewer
than N attempts (absent a deadline timeout)". -/
theorem quiz_C1_counterexample :
    capDefinition.assessmentNumQuestions = some 2 ∧
    capDefinition.assessmentTimeLimitMinutes = none ∧
    capAfter.status = Status.completed ∧ capAfter.attempts.length = 1 := by
  decide

end QuizEngine

namespace QuizEngine

/-! ## C10 — askedQuestionIds never holds duplicates -/

/-- The asked-history invariant: no duplicates, all entries below the uuid
supply, and any queued question id fresh relative to the history. -/
def askedOk (n : Nat) (s : QuizSessionRecord) : Prop :=
  s.askedQuestionIds.Nodup ∧ (∀ i ∈ s.askedQuestionIds, i < n) ∧
  (∀ qq, s.queuedQuestionId = some qq → qq ∉ s.askedQuestionIds ∧ qq < n)

/-- All bank question ids are below the uuid supply. -/
def bankOk (w : World) : Prop := ∀ q ∈ w.questions, q.questionId < w.nextUuid

lemma askedOk_mono {n m : Nat} (h : n ≤ m) {s : QuizSessionRecord}
    (ha : askedOk n s) : askedOk m s := by
  obtain ⟨h1, h2, h3⟩ := ha
  refine ⟨h1, fun i hi => lt_of_lt_of_le (h2 i hi) h, fun qq hqq => ?_⟩
  obtain ⟨hm, hb⟩ := h3 qq hqq
  exact ⟨hm, lt_of_lt_of_le hb h⟩

lemma dictSave_mem {α : Type} (key : α → Nat) (store : List α) (record : α)
    (x : α) (hx : x ∈ dictSave key store record) : x ∈ store ∨ x = record := by
  unfold dictSave at hx
  split at hx
  · rw [List.mem_map] at hx
    obtain ⟨y, hy, hxy⟩ := hx
    by_cases hk : key y = key record
    · rw [if_pos hk] at hxy
      exact Or.inr hxy.symm
    · rw [if_neg hk] at hxy
      exact Or.inl (hxy ▸ hy)
  · rw [List.mem_append] at hx
    rcases hx with h | h
    · exact Or.inl h
    · simp at h
      exact Or.inr h

lemma insertSorted_mem {α : Type} (le : α → α → Bool) (a x : α) (l : List α)
    (hx : x ∈ insertSorted le a l) : x = a ∨ x ∈ l := by
  induction l with
  | nil => simpa [insertSorted] using hx
  | cons b t ih =>
    unfold insertSorted at hx
    split at hx
    · rw [List.mem_cons] at hx
      rcases hx with h | h
      · exact Or.inl h
      · exact Or.inr h
    · rw [List.mem_cons] at hx
      rcases hx with h | h
      · exact Or.inr (by rw [h]; exact List.mem_cons_self b t)
      · rcases ih h with h2 | h2
        · exact Or.inl h2
        · exact Or.inr (List.mem_cons_of_mem b h2)

lemma insertionSort_mem {α : Type} (le : α → α → Bool) (x : α) (l : List α)
    (hx : x ∈ insertionSort le l) : x ∈ l := by
  induction l with
  | nil => simp [insertionSort] at hx
  | cons a t ih =>
    unfold insertionSort at hx
    rcases insertSorted_mem le a x _ hx with h | h
    · rw [h]
      exact List.mem_cons_self a t
    · exact List.mem_cons_of_mem a (ih h)

lemma listQuizQuestions_mem (w : World) (qz : Nat) (q : QuizQuestionRecord)
    (hq : q ∈ w.listQuizQuestions qz) : q ∈ w.questions := by
  unfold World.listQuizQuestions at hq
  exact List.mem_of_mem_filter (insertionSort_mem _ _ _ hq)

lemma getQuizQuestion_mem (w : World) (qid : Nat) (q : QuizQuestionRecord)
    (h : w.getQuizQuestion qid = some q) : q ∈ w.questions :=
  List.mem_of_find?_eq_some h

lemma selectExistingQuestion_mem (candidates : List QuizQuestionRecord)
    (topic : Option String) (q : QuizQuestionRecord)
    (h : selectExistingQuestion candidates topic = some q) : q ∈ candidates := by
  cases candidates with
  | nil => simp [selectExistingQuestion] at h
  | cons first rest =>
    cases topic with
    | none =>
      simp [selectExistingQuestion] at h
      subst h
      exact List.mem_cons_self _ _
    | some t =>
      by_cases ht : t = ""
      · simp [selectExistingQuestion, ht] at h
        subst h
        exact List.mem_cons_self _ _
      · cases hfind : List.find? (fun q => decide (pyLower q.topic = pyLower t))
            (first :: rest) with
        | some q2 =>
          simp [selectExistingQuestion, ht, hfind] at h
          subst h
          exact List.mem_of_find?_eq_some hfind
        | none =>
          simp [selectExistingQuestion, ht, hfind] at h
          subst h
          exact List.mem_cons_self _ _

end QuizEngine

namespace QuizEngine

lemma registerSlideUsage_asked (r : QuizSessionRecord) (q : QuizQuestionRecord) :
    (registerSlideUsage r q).askedQuestionIds = r.askedQuestionIds ∧
    (registerSlideUsage r q).queuedQuestionId = r.queuedQuestionId := by
  unfold registerSlideUsage
  split
  · exact ⟨rfl, rfl⟩
  · split <;> exact ⟨rfl, rfl⟩

lemma createQuestionFromOutcome_ok_asked (w : World) (session : QuizSessionRecord)
    (definition : QuizDefinitionRecord) (sessionState : QuizSessionRecord)
    (topic : String) (difficulty : Difficulty) (order : Nat) (ctxs : List Ctx) (now : Nat)
    (go : Option (Except String GeneratedQuestion)) (q : QuizQuestionRecord)
    (r : QuizSessionRecord) (w2 : World)
    (h : createQuestionFromOutcome w session definition sessionState topic difficulty order
      ctxs now go = (Except.ok (q, r), w2)) :
    q.questionId = w.nextUuid ∧ r.askedQuestionIds = sessionState.askedQuestionIds ∧
    r.queuedQuestionId = sessionState.queuedQuestionId ∧
    w2.nextUuid = w.nextUuid + 1 ∧
    (bankOk w → bankOk w2) := by
  match go with
  | none => cases h
  | some (Except.error msg) => cases h
  | some (Except.ok generated) =>
    simp only [createQuestionFromOutcome, Prod.mk.injEq, Except.ok.injEq] at h
    obtain ⟨⟨hq, hr⟩, hw⟩ := h
    subst hq
    subst hr
    subst hw
    refine ⟨rfl, ?_, ?_, rfl, ?_⟩
    · split <;> rfl
    · split <;> rfl
    · intro hb x hx
      rcases dictSave_mem _ _ _ _ hx with hmem | hxeq
      · exact lt_of_lt_of_le (hb x hmem) (Nat.le_succ _)
      · rw [hxeq]
        exact Nat.lt_succ_self _

lemma ite_proj_eq {α β : Type} (c : Prop) [Decidable c] (f : α → β) (a b : α)
    (ha : f a = f b) : f (if c then a else b) = f b := by
  split
  · exact ha
  · rfl

lemma createQuestion_ok_asked (env : Env) (w : World) (s : QuizSessionRecord)
    (definition : QuizDefinitionRecord) (qs : List QuizQuestionRecord)
    (topo : Option String) (dio : Option Difficulty) (now : Nat)
    (q : QuizQuestionRecord) (r : QuizSessionRecord) (w2 : World)
    (h : createQuestion env w s definition qs topo dio now = (Except.ok (q, r), w2)) :
    q.questionId = w.nextUuid ∧ r.askedQuestionIds = s.askedQuestionIds ∧
    r.queuedQuestionId = s.queuedQuestionId ∧ w2.nextUuid = w.nextUuid + 1 ∧
    (bankOk w → bankOk w2) := by
  unfold createQuestion at h
  have hh := createQuestionFromOutcome_ok_asked _ _ _ _ _ _ _ _ _ _ _ _ _ h
  refine ⟨hh.1, ?_, ?_, hh.2.2.2.1, hh.2.2.2.2⟩
  · rw [hh.2.1]
    exact ite_proj_eq _ (fun x : QuizSessionRecord => x.askedQuestionIds) _ _ rfl
  · rw [hh.2.2.1]
    exact ite_proj_eq _ (fun x : QuizSessionRecord => x.queuedQuestionId) _ _ rfl

lemma serveMissedLoop_asked (w : World) (record : QuizSessionRecord) (now : Nat)
    (queue : List Nat) (res : Option QuizQuestionRecord) (rec2 : QuizSessionRecord)
    (w2 : World)
    (h : serveMissedLoop w record now queue = (res, rec2, w2))
    (hb : bankOk w) (ha : askedOk w.nextUuid record) :
    w.nextUuid ≤ w2.nextUuid ∧ bankOk w2 ∧ askedOk w2.nextUuid rec2 ∧
    (w2 = w ∨ w2.loadSession rec2.sessionId = some rec2) := by
  induction queue generalizing record with
  | nil =>
    cases h
    exact ⟨le_refl _, hb, ha, Or.inl rfl⟩
  | cons qid rest ih =>
    unfold serveMissedLoop at h
    cases hq : w.getQuizQuestion qid with
    | none =>
      simp only [hq] at h
      exact ih _ h ha
    | some question =>
      simp only [hq, duplicateQuestionForReview, World.freshId] at h
      cases h
      obtain ⟨hnodup, hbound, hqueue⟩ := ha
      refine ⟨Nat.le_succ _, ?_, ⟨?_, ?_, ?_⟩, Or.inr ?_⟩
      · intro x hx
        rcases dictSave_mem _ _ _ _ hx with hmem | hxeq
        · exact lt_of_lt_of_le (hb x hmem) (Nat.le_succ _)
        · rw [hxeq]
          exact Nat.lt_succ_self _
      · show (record.askedQuestionIds ++ [w.nextUuid]).Nodup
        rw [List.nodup_append]
        refine ⟨hnodup, List.nodup_singleton _, ?_⟩
        rw [List.disjoint_singleton]
        intro hmem
        exact absurd (hbound _ hmem) (lt_irrefl _)
      · show ∀ i ∈ record.askedQuestionIds ++ [w.nextUuid], i < w.nextUuid + 1
        intro i hi
        rw [List.mem_append] at hi
        rcases hi with hi | hi
        · exact lt_of_lt_of_le (hbound i hi) (Nat.le_succ _)
        · simp at hi
          rw [hi]
          exact Nat.lt_succ_self _
      · show ∀ qq, record.queuedQuestionId = some qq →
          qq ∉ record.askedQuestionIds ++ [w.nextUuid] ∧ qq < w.nextUuid + 1
        intro qq hqq
        obtain ⟨hnm, hlt⟩ := hqueue qq hqq
        constructor
        · intro hmem
          rw [List.mem_append] at hmem
          rcases hmem with hmem | hmem
          · exact hnm hmem
          · simp at hmem
            rw [hmem] at hlt
            exact absurd hlt (lt_irrefl _)
        · exact Nat.lt_succ_of_lt hlt
      · exact World.loadSession_saveSession_self _ _

end QuizEngine

namespace QuizEngine

lemma serveMissed_asked (env : Env) (w : World) (record : QuizSessionRecord) (now : Nat)
    (res : Option QuizQuestionRecord) (rec2 : QuizSessionRecord) (w2 : World)
    (h : serveMissedQuestionIfReady env w record now = (res, rec2, w2))
    (hb : bankOk w) (ha : askedOk w.nextUuid record) :
    w.nextUuid ≤ w2.nextUuid ∧ bankOk w2 ∧ askedOk w2.nextUuid rec2 ∧
    (w2 = w ∨ w2.loadSession rec2.sessionId = some rec2) := by
  unfold serveMissedQuestionIfReady at h
  split at h
  · cases h
    exact ⟨le_refl _, hb, ha, Or.inl rfl⟩
  · split at h
    · cases h
      exact ⟨le_refl _, hb, ha, Or.inl rfl⟩
    · exact serveMissedLoop_asked w record now record.missedQuestionIds res rec2 w2 h hb ha

lemma maybeQueueFromResult_asked (w : World) (record : QuizSessionRecord)
    (cq : Except QuizError (QuizQuestionRecord × QuizSessionRecord) × World)
    (record2 : QuizSessionRecord) (w2 : World)
    (h : maybeQueueFromResult w record cq = (record2, w2))
    (hb : bankOk w) (ha : askedOk w.nextUuid record)
    (hok : ∀ q r wx, cq = (Except.ok (q, r), wx) →
      q.questionId = w.nextUuid ∧ r.askedQuestionIds = record.askedQuestionIds ∧
      r.sessionId = record.sessionId ∧ wx.nextUuid = w.nextUuid + 1 ∧ bankOk wx) :
    w.nextUuid ≤ w2.nextUuid ∧ bankOk w2 ∧ askedOk w2.nextUuid record2 ∧
    record2.sessionId = record.sessionId ∧
    (w2 = w ∨ w2.loadSession record2.sessionId = some record2) := by
  obtain ⟨cres, wx⟩ := cq
  cases cres with
  | error e =>
    cases h
    exact ⟨le_refl _, hb, ha, rfl, Or.inl rfl⟩
  | ok pr =>
    obtain ⟨q, r⟩ := pr
    unfold maybeQueueFromResult at h
    cases h
    obtain ⟨hqid, hasked, hsid, hnext, hbx⟩ := hok q r wx rfl
    obtain ⟨hnodup, hbound, hqueue⟩ := ha
    refine ⟨?_, ?_, ⟨?_, ?_, ?_⟩, hsid, Or.inr (World.loadSession_saveSession_self _ _)⟩
    · show w.nextUuid ≤ wx.nextUuid
      rw [hnext]
      exact Nat.le_succ _
    · exact hbx
    · show r.askedQuestionIds.Nodup
      rw [hasked]
      exact hnodup
    · show ∀ i ∈ r.askedQuestionIds, i < wx.nextUuid
      rw [hasked, hnext]
      intro i hi
      exact Nat.lt_succ_of_lt (hbound i hi)
    · show ∀ qq, some q.questionId = some qq →
        qq ∉ r.askedQuestionIds ∧ qq < wx.nextUuid
      intro qq hqq
      injection hqq with he
      subst he
      rw [hqid, hasked, hnext]
      constructor
      · intro hmem
        exact absurd (hbound _ hmem) (lt_irrefl _)
      · exact Nat.lt_succ_self _

lemma maybeQueue_asked (env : Env) (w : World) (record : QuizSessionRecord)
    (definition : QuizDefinitionRecord) (srcv : Source) (curv now : Nat)
    (record2 : QuizSessionRecord) (w2 : World)
    (h : maybeQueueGeneratedQuestion env w record definition srcv curv now = (record2, w2))
    (hb : bankOk w) (ha : askedOk w.nextUuid record) :
    w.nextUuid ≤ w2.nextUuid ∧ bankOk w2 ∧ askedOk w2.nextUuid record2 ∧
    record2.sessionId = record.sessionId ∧
    (w2 = w ∨ w2.loadSession record2.sessionId = some record2) := by
  unfold maybeQueueGeneratedQuestion at h
  split at h
  · cases h
    exact ⟨le_refl _, hb, ha, rfl, Or.inl rfl⟩
  · refine maybeQueueFromResult_asked _ _ _ _ _ h hb ha ?_
    intro q r wx heq
    obtain ⟨hqid, hasked, hqueued, hnext, hbk⟩ :=
      createQuestion_ok_asked _ _ _ _ _ _ _ _ _ _ _ heq
    obtain ⟨hcore, -, -⟩ := createQuestion_ok_core _ _ _ _ _ _ _ _ _ _ _ heq
    exact ⟨hqid, hasked, (sessionCore_fields hcore).1, hnext, hbk hb⟩

lemma finish_asked_aux (env : Env) (w : World) (ur : QuizSessionRecord)
    (definition : QuizDefinitionRecord) (nsv : Source) (ncv now : Nat)
    (hb : bankOk w) (hu : askedOk w.nextUuid ur) :
    w.nextUuid ≤ (maybeQueueGeneratedQuestion env (w.saveSession ur) ur definition nsv ncv
      now).2.nextUuid ∧
    bankOk (maybeQueueGeneratedQuestion env (w.saveSession ur) ur definition nsv ncv now).2 ∧
    ∀ s, (maybeQueueGeneratedQuestion env (w.saveSession ur) ur definition nsv ncv
        now).2.loadSession ur.sessionId = some s →
      askedOk (maybeQueueGeneratedQuestion env (w.saveSession ur) ur definition nsv ncv
        now).2.nextUuid s := by
  rcases hmq : maybeQueueGeneratedQuestion env (w.saveSession ur) ur definition nsv ncv now
    with ⟨r2, wq⟩
  have hb2 : bankOk (w.saveSession ur) := hb
  have hu2 : askedOk (w.saveSession ur).nextUuid ur := hu
  obtain ⟨hle, hbk, hasked2, hsid2, hor⟩ := maybeQueue_asked env (w.saveSession ur) ur
    definition nsv ncv now r2 wq hmq hb2 hu2
  refine ⟨hle, hbk, ?_⟩
  intro s hs
  rcases hor with hw | hload
  · subst hw
    rw [World.loadSession_saveSession_self] at hs
    injection hs with hsu
    subst hsu
    exact hu2
  · rw [hsid2] at hload
    rw [hs] at hload
    injection hload with hsr
    rw [hsr]
    exact hasked2

end QuizEngine

namespace QuizEngine

lemma finish_asked (env : Env) (w : World) (record : QuizSessionRecord)
    (definition : QuizDefinitionRecord) (selected : QuizQuestionRecord)
    (usedExisting queuedSelected : Bool) (availableRemaining : List QuizQuestionRecord)
    (nextCursor : Nat) (overrideSupplied : Bool) (now : Nat)
    (hb : bankOk w) (ha : askedOk w.nextUuid record)
    (hqnone : record.queuedQuestionId = none)
    (hnew : selected.questionId ∉ record.askedQuestionIds)
    (hsb : selected.questionId < w.nextUuid) :
    w.nextUuid ≤ (getNextQuestionFinish env w record definition selected usedExisting
      queuedSelected availableRemaining nextCursor overrideSupplied now).2.nextUuid ∧
    bankOk (getNextQuestionFinish env w record definition selected usedExisting
      queuedSelected availableRemaining nextCursor overrideSupplied now).2 ∧
    ∀ s, (getNextQuestionFinish env w record definition selected usedExisting queuedSelected
        availableRemaining nextCursor overrideSupplied now).2.loadSession record.sessionId
        = some s →
      askedOk (getNextQuestionFinish env w record definition selected usedExisting
        queuedSelected availableRemaining nextCursor overrideSupplied now).2.nextUuid s := by
  have hur : askedOk w.nextUuid { record with
      askedQuestionIds := record.askedQuestionIds ++ [selected.questionId]
      activeQuestionId := some selected.questionId
      activeQuestionServedAt := some now
      currentDifficulty := if record.isPreview then selected.difficulty
                           else record.currentDifficulty
      previewQuestionIds :=
        if record.isPreview ∧ selected.sourceSessionId = some record.sessionId
            ∧ selected.questionId ∉ record.previewQuestionIds then
          record.previewQuestionIds ++ [selected.questionId]
        else record.previewQuestionIds
      questionsSinceReview := record.questionsSinceReview + 1
      topicCursor := if overrideSupplied then record.topicCursor else nextCursor
      nextQuestionSource := determineNextQuestionSource record
        (usedExisting && !queuedSelected) availableRemaining } := by
    obtain ⟨hnodup, hbound, hqueue⟩ := ha
    refine ⟨?_, ?_, ?_⟩
    · show (record.askedQuestionIds ++ [selected.questionId]).Nodup
      rw [List.nodup_append]
      refine ⟨hnodup, List.nodup_singleton _, ?_⟩
      rw [List.disjoint_singleton]
      exact hnew
    · show ∀ i ∈ record.askedQuestionIds ++ [selected.questionId], i < w.nextUuid
      intro i hi
      rw [List.mem_append] at hi
      rcases hi with hi | hi
      · exact hbound i hi
      · simp at hi
        rw [hi]
        exact hsb
    · show ∀ qq, record.queuedQuestionId = some qq →
        qq ∉ record.askedQuestionIds ++ [selected.questionId] ∧ qq < w.nextUuid
      intro qq hqq
      rw [hqnone] at hqq
      cases hqq
  unfold getNextQuestionFinish
  exact finish_asked_aux env w
    { record with
      askedQuestionIds := record.askedQuestionIds ++ [selected.questionId]
      activeQuestionId := some selected.questionId
      activeQuestionServedAt := some now
      currentDifficulty := if record.isPreview then selected.difficulty
                           else record.currentDifficulty
      previewQuestionIds :=
        if record.isPreview ∧ selected.sourceSessionId = some record.sessionId
            ∧ selected.questionId ∉ record.previewQuestionIds then
          record.previewQuestionIds ++ [selected.questionId]
        else record.previewQuestionIds
      questionsSinceReview := record.questionsSinceReview + 1
      topicCursor := if overrideSupplied then record.topicCursor else nextCursor
      nextQuestionSource := determineNextQuestionSource record
        (usedExisting && !queuedSelected) availableRemaining }
    definition
    (determineNextQuestionSource record (usedExisting && !queuedSelected) availableRemaining)
    (if overrideSupplied then record.topicCursor else nextCursor) now hb hur

end QuizEngine

namespace QuizEngine

lemma askedOk_congr {n : Nat} {r s : QuizSessionRecord}
    (h1 : r.askedQuestionIds = s.askedQuestionIds)
    (h2 : r.queuedQuestionId = s.queuedQuestionId) (hs : askedOk n s) : askedOk n r := by
  unfold askedOk
  rw [h1, h2]
  exact hs

lemma avail_mem (env : Env) (HS : ∀ l q, q ∈ env.shuffleQuestions l → q ∈ l)
    (l : List QuizQuestionRecord) (q : QuizQuestionRecord)
    (hq : q ∈ (if l.length > 1 then env.shuffleQuestions l else l)) : q ∈ l := by
  split at hq
  · exact HS l q hq
  · exact hq

lemma applyAssessmentTermination_askqueue (d : QuizDefinitionRecord)
    (r : QuizSessionRecord) (now : Nat) :
    (applyAssessmentTermination d r now).askedQuestionIds = r.askedQuestionIds ∧
    ((applyAssessmentTermination d r now).queuedQuestionId = r.queuedQuestionId ∨
     (applyAssessmentTermination d r now).queuedQuestionId = none) := by
  simp only [applyAssessmentTermination]
  repeat' split
  all_goals first
    | exact ⟨rfl, Or.inr rfl⟩
    | exact ⟨rfl, Or.inl rfl⟩

lemma reuseOrGenerate_asked (env : Env) (w : World) (record : QuizSessionRecord)
    (definition : QuizDefinitionRecord) (qbank avail : List QuizQuestionRecord)
    (tt : String) (ed : Difficulty) (nc : Nat) (os : Bool) (now : Nat)
    (res : Except QuizError QuizQuestionRecord) (w2 : World)
    (h : getNextQuestionReuseOrGenerate env w record definition qbank avail tt ed nc os now
      = (res, w2))
    (hb : bankOk w) (ha : askedOk w.nextUuid record)
    (hqnone : record.queuedQuestionId = none)
    (havail : ∀ q ∈ avail, q.questionId ∉ record.askedQuestionIds ∧
      q.questionId < w.nextUuid) :
    w.nextUuid ≤ w2.nextUuid ∧ bankOk w2 ∧
    (w2 = w ∨ ∀ s, w2.loadSession record.sessionId = some s → askedOk w2.nextUuid s) := by
  simp only [getNextQuestionReuseOrGenerate] at h
  repeat' split at h
  case h_1 =>
    rename_i x selected heq
    have hsel : selectExistingQuestion avail (some tt) = some selected := by
      split at heq
      · exact heq
      · cases heq
    obtain ⟨hnew, hsb⟩ := havail selected (selectExistingQuestion_mem _ _ _ hsel)
    have hreg := registerSlideUsage_asked record selected
    have hsidr : (registerSlideUsage record selected).sessionId = record.sessionId :=
      (sessionCore_fields (registerSlideUsage_core record selected)).1
    have hf := finish_asked env w (registerSlideUsage record selected) definition selected
      true false (avail.filter (fun q => q.questionId ≠ selected.questionId)) nc os now
      hb (askedOk_congr hreg.1 hreg.2 ha)
      (by rw [hreg.2]; exact hqnone)
      (by rw [hreg.1]; exact hnew) hsb
    have hw2 := congrArg Prod.snd h
    rw [hw2] at hf
    refine ⟨hf.1, hf.2.1, Or.inr ?_⟩
    intro s hs
    refine hf.2.2 s ?_
    rw [hsidr]
    exact hs
  case h_2.h_1 =>
    rename_i e wc heq
    cases h
    have hw := createQuestion_error_world _ _ _ _ _ _ _ _ _ _ heq
    subst hw
    exact ⟨le_refl _, hb, Or.inl rfl⟩
  case h_2.h_2 =>
    rename_i q r2 wc heq
    obtain ⟨hqid, hasked2, hqueued2, hnext2, hbk2⟩ :=
      createQuestion_ok_asked _ _ _ _ _ _ _ _ _ _ _ heq
    obtain ⟨hcore2, -, -⟩ := createQuestion_ok_core _ _ _ _ _ _ _ _ _ _ _ heq
    have hsid2 : r2.sessionId = record.sessionId := (sessionCore_fields hcore2).1
    have ha2 : askedOk wc.nextUuid r2 := by
      refine askedOk_congr hasked2 hqueued2 ?_
      refine askedOk_mono ?_ ha
      rw [hnext2]
      exact Nat.le_succ _
    have hqn2 : r2.queuedQuestionId = none := by
      rw [hqueued2]
      exact hqnone
    have hnew2 : q.questionId ∉ r2.askedQuestionIds := by
      rw [hqid, hasked2]
      intro hmem
      exact absurd (ha.2.1 _ hmem) (lt_irrefl _)
    have hsb2 : q.questionId < wc.nextUuid := by
      rw [hqid, hnext2]
      exact Nat.lt_succ_self _
    have hf := finish_asked env wc r2 definition q false false
      (avail.filter (fun x => x.questionId ≠ q.questionId)) nc os now
      (hbk2 hb) ha2 hqn2 hnew2 hsb2
    have hw2 := congrArg Prod.snd h
    rw [hw2] at hf
    refine ⟨?_, hf.2.1, Or.inr ?_⟩
    · calc w.nextUuid ≤ wc.nextUuid := by rw [hnext2]; exact Nat.le_succ _
        _ ≤ w2.nextUuid := hf.1
    · intro s hs
      refine hf.2.2 s ?_
      rw [hsid2]
      exact hs

end QuizEngine

namespace QuizEngine

lemma finish_asked2 (env : Env) (w : World) (record : QuizSessionRecord)
    (definition : QuizDefinitionRecord) (selected : QuizQuestionRecord)
    (usedExisting queuedSelected : Bool) (availableRemaining : List QuizQuestionRecord)
    (nextCursor : Nat) (overrideSupplied : Bool) (now : Nat)
    (res : Except QuizError QuizQuestionRecord) (w2 : World)
    (h : getNextQuestionFinish env w record definition selected usedExisting queuedSelected
      availableRemaining nextCursor overrideSupplied now = (res, w2))
    (hb : bankOk w) (ha : askedOk w.nextUuid record)
    (hqnone : record.queuedQuestionId = none)
    (hnew : selected.questionId ∉ record.askedQuestionIds)
    (hsb : selected.questionId < w.nextUuid) :
    w.nextUuid ≤ w2.nextUuid ∧ bankOk w2 ∧
    ∀ s, w2.loadSession record.sessionId = some s → askedOk w2.nextUuid s := by
  have hf := finish_asked env w record definition selected usedExisting queuedSelected
    availableRemaining nextCursor overrideSupplied now hb ha hqnone hnew hsb
  have hw2 : (getNextQuestionFinish env w record definition selected usedExisting
      queuedSelected availableRemaining nextCursor overrideSupplied now).2 = w2 :=
    congrArg Prod.snd h
  rw [hw2] at hf
  exact hf

lemma serve_filter_mem (w : World) (record : QuizSessionRecord) (q : QuizQuestionRecord)
    (hb : bankOk w)
    (hq : q ∈ (w.listQuizQuestions record.quizId).filter
      (fun q => q.questionId ∉ record.askedQuestionIds
        ∧ some q.questionId ≠ record.queuedQuestionId)) :
    q.questionId ∉ record.askedQuestionIds ∧ q.questionId < w.nextUuid := by
  rw [List.mem_filter] at hq
  obtain ⟨hmem, hpred⟩ := hq
  have hbound := hb q (listQuizQuestions_mem _ _ _ hmem)
  simp at hpred
  exact ⟨hpred.1, hbound⟩

lemma serve_asked (env : Env) (HS : ∀ l q, q ∈ env.shuffleQuestions l → q ∈ l)
    (w : World) (record : QuizSessionRecord) (definition : QuizDefinitionRecord)
    (topo : Option String) (dio : Option Difficulty) (now : Nat)
    (res : Except QuizError QuizQuestionRecord) (w2 : World)
    (h : getNextQuestionServe env w record definition topo dio now = (res, w2))
    (hb : bankOk w) (ha : askedOk w.nextUuid record) :
    w.nextUuid ≤ w2.nextUuid ∧ bankOk w2 ∧
    (w2 = w ∨ ∀ s, w2.loadSession record.sessionId = some s → askedOk w2.nextUuid s) := by
  simp only [getNextQuestionServe] at h
  repeat' split at h
  case h_1.h_1.isTrue =>
    rename_i x1 qqid heq1 x2 qq heq hcond
    obtain ⟨hqnm, hqlt⟩ := ha.2.2 qqid heq1
    have hkey : qq.questionId = qqid := by
      split at heq
      case h_1 q' hfind =>
        injection heq with he
        rw [← he]
        have := List.find?_some hfind
        simpa using this
      case h_2 hfind => exact getQuizQuestion_key w qqid qq heq
    obtain ⟨hle, hbk, hstore⟩ := finish_asked2 _ _ _ _ _ _ _ _ _ _ _ _ _ h hb
      ⟨ha.1, ha.2.1, fun qq2 hqq2 => Option.noConfusion hqq2⟩ rfl
      (by rw [hkey]; exact hqnm) (by rw [hkey]; exact hqlt)
    exact ⟨hle, hbk, Or.inr (fun s hs => hstore s hs)⟩
  case h_1.h_1.isFalse =>
    rename_i x1 qqid heq1 x2 qq heq hcond
    obtain ⟨hqnm, hqlt⟩ := ha.2.2 qqid heq1
    have hkey : qq.questionId = qqid := by
      split at heq
      case h_1 q' hfind =>
        injection heq with he
        rw [← he]
        have := List.find?_some hfind
        simpa using this
      case h_2 hfind => exact getQuizQuestion_key w qqid qq heq
    obtain ⟨hle, hbk, hstore⟩ := finish_asked2 _ _ _ _ _ _ _ _ _ _ _ _ _ h hb
      ⟨ha.1, ha.2.1, fun qq2 hqq2 => Option.noConfusion hqq2⟩ rfl
      (by rw [hkey]; exact hqnm) (by rw [hkey]; exact hqlt)
    exact ⟨hle, hbk, Or.inr (fun s hs => hstore s hs)⟩
  case h_1.h_2.isTrue =>
    rename_i x1 qqid heq1 x2 heq hcond
    obtain ⟨hle, hbk, hor⟩ := reuseOrGenerate_asked _ _ _ _ _ _ _ _ _ _ _ _ _ h hb
      ⟨ha.1, ha.2.1, fun qq2 hqq2 => Option.noConfusion hqq2⟩ rfl
      (by
        intro q hq
        exact serve_filter_mem w record q hb (HS _ q hq))
    exact ⟨hle, hbk, hor⟩
  case h_1.h_2.isFalse =>
    rename_i x1 qqid heq1 x2 heq hcond
    obtain ⟨hle, hbk, hor⟩ := reuseOrGenerate_asked _ _ _ _ _ _ _ _ _ _ _ _ _ h hb
      ⟨ha.1, ha.2.1, fun qq2 hqq2 => Option.noConfusion hqq2⟩ rfl
      (by
        intro q hq
        exact serve_filter_mem w record q hb hq)
    exact ⟨hle, hbk, hor⟩
  case h_2.isTrue =>
    rename_i x1 heq hcond
    obtain ⟨hle, hbk, hor⟩ := reuseOrGenerate_asked _ _ _ _ _ _ _ _ _ _ _ _ _ h hb ha heq
      (by
        intro q hq
        exact serve_filter_mem w record q hb (HS _ q hq))
    exact ⟨hle, hbk, hor⟩
  case h_2.isFalse =>
    rename_i x1 heq hcond
    obtain ⟨hle, hbk, hor⟩ := reuseOrGenerate_asked _ _ _ _ _ _ _ _ _ _ _ _ _ h hb ha heq
      (by
        intro q hq
        exact serve_filter_mem w record q hb hq)
    exact ⟨hle, hbk, hor⟩

end QuizEngine

namespace QuizEngine

lemma afterActive_asked (env : Env) (HS : ∀ l q, q ∈ env.shuffleQuestions l → q ∈ l)
    (w : World) (record : QuizSessionRecord) (topo : Option String)
    (dio : Option Difficulty) (now : Nat) (res : Except QuizError QuizQuestionRecord)
    (w2 : World)
    (h : getNextQuestionAfterActive env w record topo dio now = (res, w2))
    (hb : bankOk w) (ha : askedOk w.nextUuid record) :
    w.nextUuid ≤ w2.nextUuid ∧ bankOk w2 ∧
    (w2 = w ∨ ∀ s, w2.loadSession record.sessionId = some s → askedOk w2.nextUuid s) := by
  simp only [getNextQuestionAfterActive] at h
  split at h
  case h_1 rq x w1 heq =>
    cases h
    by_cases hp : record.isPreview
    · rw [if_pos hp] at heq
      exact Option.noConfusion (congrArg (fun p => p.1) heq)
    · rw [if_neg hp] at heq
      obtain ⟨hle, hbk, ha2, hor⟩ := serveMissed_asked env w record now _ _ _ heq hb ha
      obtain ⟨hcore, -, -⟩ := serveMissed_shape env w record now _ _ _ heq
      have hsid : x.sessionId = record.sessionId := (sessionCore_fields hcore).1
      rcases hor with hw | hload
      · exact ⟨hle, hbk, Or.inl hw⟩
      · refine ⟨hle, hbk, Or.inr ?_⟩
        intro s hs
        rw [← hsid] at hs
        rw [hload] at hs
        injection hs with hsr
        rw [← hsr]
        exact ha2
  case h_2 rec2 w1 heq =>
    have hmain : w1 = w ∧ askedOk w.nextUuid rec2 ∧ rec2.sessionId = record.sessionId := by
      by_cases hp : record.isPreview
      · rw [if_pos hp] at heq
        injection heq with h1 hrest
        injection hrest with h2 h3
        subst h2
        subst h3
        exact ⟨rfl, ha, rfl⟩
      · rw [if_neg hp] at heq
        obtain ⟨hle, hbk, ha2, hor⟩ := serveMissed_asked env w record now _ _ _ heq hb ha
        obtain ⟨hcore, -, hres⟩ := serveMissed_shape env w record now _ _ _ heq
        rcases hres with ⟨-, hw⟩ | ⟨q', hq', -⟩
        · subst hw
          exact ⟨rfl, ha2, (sessionCore_fields hcore).1⟩
        · cases hq'
    obtain ⟨hw1, ha1, hsid1⟩ := hmain
    rw [hw1] at h
    split at h
    · cases h
      exact ⟨le_refl _, hb, Or.inl rfl⟩
    · obtain ⟨hle2, hbk2, hor2⟩ := serve_asked env HS w rec2 _ topo dio now res w2 h hb ha1
      refine ⟨hle2, hbk2, ?_⟩
      rcases hor2 with hw2 | hstore
      · exact Or.inl hw2
      · refine Or.inr ?_
        intro s hs
        rw [← hsid1] at hs
        exact hstore s hs

lemma getNextQuestion_asked (env : Env)
    (HS : ∀ l q, q ∈ env.shuffleQuestions l → q ∈ l) (w : World) (sid : Nat)
    (topo : Option String) (dio : Option Difficulty) (now : Nat)
    (res : Except QuizError QuizQuestionRecord) (w2 : World)
    (h : getNextQuestion env w sid topo dio now = (res, w2))
    (hb : bankOk w) (hinv : ∀ s, w.loadSession sid = some s → askedOk w.nextUuid s) :
    w.nextUuid ≤ w2.nextUuid ∧ bankOk w2 ∧
    ∀ s, w2.loadSession sid = some s → askedOk w2.nextUuid s := by
  cases hls : w.loadSession sid with
  | none =>
    simp only [getNextQuestion, hls] at h
    cases h
    exact ⟨le_refl _, hb, hinv⟩
  | some s0 =>
    have hsid0 : s0.sessionId = sid := World.loadSession_key w sid s0 hls
    have ha0 : askedOk w.nextUuid s0 := hinv s0 hls
    simp only [getNextQuestion, hls] at h
    rcases enforce_cases w s0 now with henf | ⟨henf, hstat, hmode, dl, hdl, hlt⟩
    · simp only [henf] at h
      split at h
      · cases h
        exact ⟨le_refl _, hb, hinv⟩
      · split at h
        case h_1 activeId hact =>
          split at h
          case h_1 existing hex =>
            cases h
            exact ⟨le_refl _, hb, hinv⟩
          case h_2 hex =>
            obtain ⟨hle, hbk, hor⟩ := afterActive_asked env HS w
              { s0 with activeQuestionId := none, activeQuestionServedAt := none }
              topo dio now res w2 h hb ⟨ha0.1, ha0.2.1, ha0.2.2⟩
            refine ⟨hle, hbk, ?_⟩
            rcases hor with hw2 | hstore
            · subst hw2
              exact hinv
            · intro s hs
              refine hstore s ?_
              show w2.loadSession s0.sessionId = some s
              rw [hsid0]
              exact hs
        case h_2 hact =>
          obtain ⟨hle, hbk, hor⟩ := afterActive_asked env HS w s0 topo dio now res w2 h
            hb ha0
          refine ⟨hle, hbk, ?_⟩
          rcases hor with hw2 | hstore
          · subst hw2
            exact hinv
          · intro s hs
            refine hstore s ?_
            rw [hsid0]
            exact hs
    · simp only [henf, markCompleted] at h
      simp at h
      obtain ⟨hres, hw2⟩ := h
      refine ⟨?_, ?_, ?_⟩
      · rw [← hw2]
        exact le_refl _
      · rw [← hw2]
        exact hb
      · intro s hs
        rw [← hw2] at hs
        have hs2 : (w.saveSession (markCompleted s0 .timed_out now)).loadSession sid
            = some s := hs
        have hself := World.loadSession_saveSession_self w (markCompleted s0 .timed_out now)
        have hmsid : (markCompleted s0 .timed_out now).sessionId = sid := hsid0
        rw [hmsid] at hself
        rw [hself] at hs2
        injection hs2 with hsr
        rw [← hsr]
        have hnu : w2.nextUuid = w.nextUuid := by
          rw [← hw2]
          exact rfl
        rw [hnu]
        exact ⟨ha0.1, ha0.2.1, fun qq hqq => Option.noConfusion hqq⟩

end QuizEngine

namespace QuizEngine

lemma submitAnswer_asked (env : Env) (w : World) (sid qid : Nat) (ans : String) (now : Nat)
    (res : Except QuizError AnswerOutcome) (w2 : World)
    (h : submitAnswer env w sid qid ans now = (res, w2))
    (hb : bankOk w) (hinv : ∀ s, w.loadSession sid = some s → askedOk w.nextUuid s) :
    w.nextUuid ≤ w2.nextUuid ∧ bankOk w2 ∧
    ∀ s, w2.loadSession sid = some s → askedOk w2.nextUuid s := by
  obtain ⟨-, hqs, hnu, hrest⟩ := submitAnswer_shape _ _ _ _ _ _ _ _ h
  have hb2 : bankOk w2 := by
    unfold bankOk at hb ⊢
    rw [hqs, hnu]
    exact hb
  refine ⟨le_of_eq hnu.symm, hb2, ?_⟩
  intro s hs
  rw [hnu]
  rcases hrest with hw2 | ⟨s0, hs0, hcase⟩
  · subst hw2
    exact hinv s hs
  · have ha0 := hinv s0 hs0
    rcases hcase with ⟨dl, -, -, -, -, hload⟩ |
      ⟨question, u, r, -, -, -, hu, -, hask, hqd, hload⟩
    · rw [hs] at hload
      injection hload with hsr
      subst hsr
      exact ⟨ha0.1, ha0.2.1, fun qq hqq => Option.noConfusion hqq⟩
    · rw [hs] at hload
      injection hload with hsr
      subst hsr
      have huaq : u.askedQuestionIds = s0.askedQuestionIds ∧
          (u.queuedQuestionId = s0.queuedQuestionId ∨ u.queuedQuestionId = none) := by
        rcases hu with ⟨-, hueq⟩ | ⟨-, dfn, -, hueq⟩
        · subst hueq
          exact ⟨rfl, Or.inl rfl⟩
        · subst hueq
          obtain ⟨h1, h2⟩ := applyAssessmentTermination_askqueue dfn
            (submitUpdatedRecord env s0 question ans now) now
          constructor
          · rw [h1]
            exact rfl
          · rcases h2 with h2 | h2
            · refine Or.inl ?_
              rw [h2]
              exact rfl
            · exact Or.inr h2
      refine ⟨?_, ?_, ?_⟩
      · rw [hask, huaq.1]
        exact ha0.1
      · rw [hask, huaq.1]
        exact ha0.2.1
      · intro qq hqq
        rw [hask, huaq.1]
        rw [hqd] at hqq
        rcases huaq.2 with hq2 | hq2
        · rw [hq2] at hqq
          exact ha0.2.2 qq hqq
        · rw [hq2] at hqq
          cases hqq

end QuizEngine

namespace QuizEngine

lemma applyCall_asked (env : Env) (HS : ∀ l q, q ∈ env.shuffleQuestions l → q ∈ l)
    (sid : Nat) (w : World) (c : Call)
    (hb : bankOk w) (hinv : ∀ s, w.loadSession sid = some s → askedOk w.nextUuid s) :
    bankOk (applyCall env sid w c) ∧
    ∀ s, (applyCall env sid w c).loadSession sid = some s →
      askedOk (applyCall env sid w c).nextUuid s := by
  cases c with
  | getNext topo dio now =>
    rcases hg : getNextQuestion env w sid topo dio now with ⟨res, w2⟩
    have happ : applyCall env sid w (Call.getNext topo dio now) = w2 := by
      simp [applyCall, hg]
    rw [happ]
    obtain ⟨-, hbk, hst⟩ := getNextQuestion_asked env HS w sid topo dio now res w2 hg hb hinv
    exact ⟨hbk, hst⟩
  | submit qid ans now =>
    rcases hg : submitAnswer env w sid qid ans now with ⟨res, w2⟩
    have happ : applyCall env sid w (Call.submit qid ans now) = w2 := by
      simp [applyCall, hg]
    rw [happ]
    obtain ⟨-, hbk, hst⟩ := submitAnswer_asked env w sid qid ans now res w2 hg hb hinv
    exact ⟨hbk, hst⟩

lemma runCalls_asked (env : Env) (HS : ∀ l q, q ∈ env.shuffleQuestions l → q ∈ l)
    (sid : Nat) (calls : List Call) :
    ∀ w : World, bankOk w → (∀ s, w.loadSession sid = some s → askedOk w.nextUuid s) →
      bankOk (runCalls env sid w calls) ∧
      ∀ s, (runCalls env sid w calls).loadSession sid = some s →
        askedOk (runCalls env sid w calls).nextUuid s := by
  induction calls with
  | nil =>
    intro w hb hinv
    exact ⟨hb, hinv⟩
  | cons c cs ih =>
    intro w hb hinv
    obtain ⟨hb1, hinv1⟩ := applyCall_asked env HS sid w c hb hinv
    exact ih (applyCall env sid w c) hb1 hinv1

/-- C10: for every session created by `startSession` on a world whose bank
ids are below the uuid supply, and any subsequent sequence of engine calls,
the stored session's `askedQuestionIds` holds no duplicates: bank-reuse picks
only questions outside the asked-history, generated and review-clone
questions enter under fresh uuids, the queued pre-generated question is
excluded from reuse while pending, and re-serving the outstanding question
appends nothing.  (`random.shuffle` is modelled by the hypothesis that the
environment's shuffle returns members of its input.) -/
theorem quiz_C10_asked_nodup (env : Env) (w : World) (sid qzId uid : Nat)
    (mode? : Option Mode) (d0 : Option Difficulty) (prev : Bool) (now : Nat)
    (s0 : QuizSessionRecord) (w1 : World) (calls : List Call) (s : QuizSessionRecord)
    (HS : ∀ l q, q ∈ env.shuffleQuestions l → q ∈ l)
    (hb : bankOk w)
    (hstart : startSession env w sid qzId uid mode? d0 prev now = (Except.ok s0, w1))
    (hload : (runCalls env sid w1 calls).loadSession sid = some s) :
    s.askedQuestionIds.Nodup := by
  obtain ⟨dfn, hdfn, hsid, hquiz, hstat, hmode, hatt, hused, hasked, hqueued, hdl, hguard,
    hw1⟩ := startSession_ok env w sid qzId uid mode? d0 prev now s0 w1 hstart
  subst hw1
  have hbase : ∀ t, (w.saveSession s0).loadSession sid = some t →
      askedOk (w.saveSession s0).nextUuid t := by
    intro t ht
    have hself := World.loadSession_saveSession_self w s0
    rw [hsid] at hself
    rw [hself] at ht
    injection ht with hts
    subst hts
    refine ⟨?_, ?_, ?_⟩
    · rw [hasked]
      simp
    · intro i hi
      rw [hasked] at hi
      simp at hi
    · intro qq hqq
      rw [hqueued] at hqq
      cases hqq
  have hb1 : bankOk (w.saveSession s0) := hb
  obtain ⟨-, hfin⟩ := runCalls_asked env HS sid calls (w.saveSession s0) hb1 hbase
  exact (hfin s hload).1

/-- Witness for C10: the assessment fixture run (generate, answer, generate
again — the second question is served from the pre-generated queue) keeps the
asked-history duplicate-free. -/
theorem quiz_C10_witness : assessAfter.askedQuestionIds.Nodup :=
  quiz_C10_asked_nodup demoEnv assessWorld0 9 2 3 (some .assessment) none false 0
    assessSession0 assessStart.2 assessCalls assessAfter (fun l q hq => hq)
    (by intro q hq; simp [assessWorld0] at hq) rfl rfl

end QuizEngine

namespace QuizEngine

lemma getNextQuestionFinish_fst (env : Env) (w : World) (record : QuizSessionRecord)
    (definition : QuizDefinitionRecord) (selected : QuizQuestionRecord)
    (usedExisting queuedSelected : Bool) (availableRemaining : List QuizQuestionRecord)
    (nextCursor : Nat) (overrideSupplied : Bool) (now : Nat)
    (res : Except QuizError QuizQuestionRecord) (w2 : World)
    (h : getNextQuestionFinish env w record definition selected usedExisting queuedSelected
      availableRemaining nextCursor overrideSupplied now = (res, w2)) :
    res = Except.ok selected := by
  have h1 : (getNextQuestionFinish env w record definition selected usedExisting
      queuedSelected availableRemaining nextCursor overrideSupplied now).1 = res :=
    congrArg Prod.fst h
  exact h1.symm

lemma reuseOrGenerate_error_world (env : Env) (w : World) (record : QuizSessionRecord)
    (definition : QuizDefinitionRecord) (qbank avail : List QuizQuestionRecord)
    (tt : String) (ed : Difficulty) (nc : Nat) (os : Bool) (now : Nat)
    (res : Except QuizError QuizQuestionRecord) (w2 : World) (e : QuizError)
    (h : getNextQuestionReuseOrGenerate env w record definition qbank avail tt ed nc os now
      = (res, w2))
    (hres : res = Except.error e) : w2 = w := by
  simp only [getNextQuestionReuseOrGenerate] at h
  repeat' split at h
  case h_1 =>
    rename_i x selected heq
    have hfst := getNextQuestionFinish_fst _ _ _ _ _ _ _ _ _ _ _ _ _ h
    rw [hres] at hfst
    cases hfst
  case h_2.h_1 =>
    rename_i e2 wc heq
    cases h
    exact createQuestion_error_world _ _ _ _ _ _ _ _ _ _ heq
  case h_2.h_2 =>
    rename_i q r2 wc heq
    have hfst := getNextQuestionFinish_fst _ _ _ _ _ _ _ _ _ _ _ _ _ h
    rw [hres] at hfst
    cases hfst

lemma serve_error_world (env : Env) (w : World) (record : QuizSessionRecord)
    (definition : QuizDefinitionRecord) (topo : Option String) (dio : Option Difficulty)
    (now : Nat) (res : Except QuizError QuizQuestionRecord) (w2 : World) (e : QuizError)
    (h : getNextQuestionServe env w record definition topo dio now = (res, w2))
    (hres : res = Except.error e) : w2 = w := by
  simp only [getNextQuestionServe] at h
  repeat' split at h
  case h_1.h_1.isTrue =>
    have hfst := getNextQuestionFinish_fst _ _ _ _ _ _ _ _ _ _ _ _ _ h
    rw [hres] at hfst
    cases hfst
  case h_1.h_1.isFalse =>
    have hfst := getNextQuestionFinish_fst _ _ _ _ _ _ _ _ _ _ _ _ _ h
    rw [hres] at hfst
    cases hfst
  case h_1.h_2.isTrue =>
    exact reuseOrGenerate_error_world _ _ _ _ _ _ _ _ _ _ _ _ _ _ h hres
  case h_1.h_2.isFalse =>
    exact reuseOrGenerate_error_world _ _ _ _ _ _ _ _ _ _ _ _ _ _ h hres
  case h_2.isTrue =>
    exact reuseOrGenerate_error_world _ _ _ _ _ _ _ _ _ _ _ _ _ _ h hres
  case h_2.isFalse =>
    exact reuseOrGenerate_error_world _ _ _ _ _ _ _ _ _ _ _ _ _ _ h hres

lemma afterActive_error_world (env : Env) (w : World) (record : QuizSessionRecord)
    (topo : Option String) (dio : Option Difficulty) (now : Nat)
    (res : Except QuizError QuizQuestionRecord) (w2 : World) (e : QuizError)
    (h : getNextQuestionAfterActive env w record topo dio now = (res, w2))
    (hres : res = Except.error e) : w2 = w := by
  simp only [getNextQuestionAfterActive] at h
  split at h
  case h_1 rq x w1 heq =>
    cases h
    cases hres
  case h_2 rec2 w1 heq =>
    have hw1 : w1 = w := by
      by_cases hp : record.isPreview
      · rw [if_pos hp] at heq
        injection heq with h1 hrest
        injection hrest with h2 h3
        exact h3.symm
      · rw [if_neg hp] at heq
        obtain ⟨-, -, hres2⟩ := serveMissed_shape env w record now _ _ _ heq
        rcases hres2 with ⟨-, hw⟩ | ⟨q', hq', -⟩
        · exact hw
        · cases hq'
    rw [hw1] at h
    split at h
    · cases h
      rfl
    · exact serve_error_world _ _ _ _ _ _ _ _ _ _ h hres

/-- C3: for every call to `getNextQuestion` in which the question generator
fails, the `GenerationUnavailable` condition (`QuizError.generation`, i.e.
`QuizGenerationError`) is what the caller receives, and the persisted world
is exactly the pre-call world — no question record and no session mutation
from that call survives.  The theorem is scoped by the surfaced error alone:
in the service a `QuizGenerationError` escapes `get_next_question` exactly
when the serving path's generator invocation fails (the opportunistic
pre-generation of `_maybe_queue_generated_question` swallows its failures
and persists nothing on them, and a timed-out session raises
`QuizSessionClosedError` before the generator can run, so the claim's
deadline carve-out never coincides with this error).  It therefore covers
every configuration: fresh sessions whose `next_question_source` is still
`existing` over an empty or exhausted bank, stale outstanding questions,
stale queued ids, pending-but-not-ready missed reviews, and the explicit
`generated` policy. -/
theorem quiz_C3_generation_failure_atomic
    (env : Env) (w : World) (sessionId : Nat) (topicOverride : Option String)
    (difficultyOverride : Option Difficulty) (now : Nat)
    (res : Except QuizError QuizQuestionRecord) (w2 : World) (msg : String)
    (h : getNextQuestion env w sessionId topicOverride difficultyOverride now = (res, w2))
    (hres : res = Except.error (QuizError.generation msg)) :
    w2 = w := by
  cases hls : w.loadSession sessionId with
  | none =>
    simp only [getNextQuestion, hls] at h
    cases h
    rfl
  | some s0 =>
    simp only [getNextQuestion, hls] at h
    rcases enforce_cases w s0 now with henf | ⟨henf, hstat, hmode, dl, hdl, hlt⟩
    · simp only [henf] at h
      split at h
      · cases h
        rfl
      · split at h
        case h_1 activeId hact =>
          split at h
          case h_1 existing hex =>
            cases h
            cases hres
          case h_2 hex =>
            exact afterActive_error_world _ _ _ _ _ _ _ _ _ h hres
        case h_2 hact =>
          exact afterActive_error_world _ _ _ _ _ _ _ _ _ h hres
    · simp only [henf, markCompleted] at h
      simp at h
      obtain ⟨hres2, hw2⟩ := h
      rw [← hres2] at hres
      injection hres with hee
      cases hee

/-- Environment whose generator always fails. -/
def c3FailingEnv : Env :=
  { demoEnv with generator := some (fun _ _ _ _ => Except.error "generator down") }

/-- A fresh assessment session started against an empty question bank; its
`nextQuestionSource` is still `existing`, yet serving must generate. -/
def c3FreshWorld : World :=
  (startSession c3FailingEnv assessWorld0 12 2 3 (some .assessment) none false 0).2

/-- The world after asking the fresh session for a question while the
generator is down. -/
def c3After : World := (getNextQuestion c3FailingEnv c3FreshWorld 12 none none 1).2

/-- Witness for C3, on the fresh-session path (`nextQuestionSource =
existing`, empty bank, no outstanding/queued/missed question): the call
surfaces the generation error and the persisted world is unchanged. -/
theorem quiz_C3_witness : c3After = c3FreshWorld :=
  quiz_C3_generation_failure_atomic c3FailingEnv c3FreshWorld 12 none none 1
    (getNextQuestion c3FailingEnv c3FreshWorld 12 none none 1).1 c3After "generator down"
    rfl rfl

end QuizEngine
